import Mathlib

/-!
# ACPI table generation (`src/acpi.c`)

A shallow embedding of the table builders of `acpi.c` and of the resume
resolver `find_resume_vector`, followed by the properties proved about them.

Conventions of the embedding:

* physical memory is a function from addresses to cells, a cell holding one
  byte; every store truncates to a byte and every load reads a byte;
* the `u32` variables of the source are natural numbers reduced modulo `2 ^ 32`
  after every operation; pointer arithmetic (`p + i`, `p++`) is plain addition;
* multi-byte fields are little-endian (`cpu_to_le16`/`cpu_to_le32` are the
  identity in the source);
* values that `acpi.c` takes from other files of the firmware are the fields of
  `Platform`.
-/

namespace Acpi

/-! ## Memory -/

/-- Physical memory, one cell per address. The byte held at `a` is `m a % 256`. -/
abbrev Mem := Nat → Nat

/-- Load of a `u8`. -/
def read8 (m : Mem) (a : Nat) : Nat := m a % 256

/-- Store of a `u8`: the value is truncated to eight bits. -/
def write8 (m : Mem) (a v : Nat) : Mem := fun x => if x = a then v % 256 else m x

/-- Load of a little-endian `u16`. -/
def read16 (m : Mem) (a : Nat) : Nat := read8 m a + 2 ^ 8 * read8 m (a + 1)

/-- Load of a little-endian `u32`. -/
def read32 (m : Mem) (a : Nat) : Nat :=
  read8 m a + 2 ^ 8 * read8 m (a + 1) + 2 ^ 16 * read8 m (a + 2) + 2 ^ 24 * read8 m (a + 3)

/-- Load of a little-endian `u64`. -/
def read64 (m : Mem) (a : Nat) : Nat := read32 m a + 2 ^ 32 * read32 m (a + 4)

/-- Store of a little-endian `u16`. -/
def write16 (m : Mem) (a v : Nat) : Mem := write8 (write8 m a v) (a + 1) (v / 2 ^ 8)

/-- Store of a little-endian `u32`. -/
def write32 (m : Mem) (a v : Nat) : Mem :=
  write8 (write8 (write8 (write8 m a v) (a + 1) (v / 2 ^ 8)) (a + 2) (v / 2 ^ 16))
    (a + 3) (v / 2 ^ 24)

/-- Store of a little-endian `u64`. -/
def write64 (m : Mem) (a v : Nat) : Mem := write32 (write32 m a v) (a + 4) (v / 2 ^ 32)

/-- The libc routine `memset(a, c, n)`. -/
def memset (m : Mem) (a c : Nat) : Nat → Mem
  | 0 => m
  | n + 1 => write8 (memset m a c n) (a + n) c

/-- The libc routine `memcpy(dst, src, n)` for a constant source object `src`. -/
def memcpy (m : Mem) (dst : Nat) (src : List Nat) : Nat → Mem
  | 0 => m
  | n + 1 => write8 (memcpy m dst src n) (dst + n) (src.getD n 0)

/-- Addition of two `u32` values. -/
def add32 (a b : Nat) : Nat := (a + b) % 2 ^ 32

/-- Subtraction of two `u32` values. -/
def sub32 (a b : Nat) : Nat := (a % 2 ^ 32 + 2 ^ 32 - b % 2 ^ 32) % 2 ^ 32

/-- Modelled from the spec: the macro `ALIGN(x, a)` is defined outside `acpi.c`; the
spec has it "align to a 64-byte boundary", "align to an 8-byte boundary": the
`u32` value `x` is rounded up to the next multiple of `a`. -/
def ALIGN (x a : Nat) : Nat := (x + (a - 1)) % 2 ^ 32 / a * a

/-- Modelled from the spec: the helper `checksum(data, len)` is defined outside
`acpi.c`; the spec has the checksum byte make "the sum of all bytes in the table
modulo 256" zero, so `checksum` is the sum of the `len` bytes from `a` on,
accumulated in a `u8`. -/
def checksum (m : Mem) (a : Nat) : Nat → Nat
  | 0 => 0
  | n + 1 => (checksum m a n + read8 m (a + n)) % 256

/-! ## Values defined outside `acpi.c` -/

/-- The build configuration and the values `acpi.c` obtains from the rest of the
firmware. -/
structure Platform where
  /-- Build option `CONFIG_ACPI`. -/
  CONFIG_ACPI : Bool
  /-- The six bytes of the string constant `CONFIG_APPNAME6`. -/
  CONFIG_APPNAME6 : List Nat
  /-- The four bytes of the string constant `CONFIG_APPNAME4`. -/
  CONFIG_APPNAME4 : List Nat
  /-- Size of the region reserved for the tables. -/
  CONFIG_ACPI_DATA_SIZE : Nat
  /-- Port of the SMI command register. -/
  PORT_SMI_CMD : Nat
  /-- Base port of the power-management block. -/
  PORT_ACPI_PM_BASE : Nat
  /-- Physical address of the local APIC. -/
  BUILD_APIC_ADDR : Nat
  /-- Physical address of the I/O APIC. -/
  BUILD_IOAPIC_ADDR : Nat
  /-- Value of the macro `PCI_ISA_IRQ_MASK` of the build. -/
  irq_mask : Nat
  /-- The bytes of the array `AmlCode` (`acpi-dsdt.hex`). -/
  AmlCode : List Nat
  /-- The global `RamSize`. -/
  RamSize : Nat
  /-- The global `CountCPUs`. -/
  CountCPUs : Nat
  /-- The handle returned by `pci_find_device`; negative when there is no device. -/
  bdf : Int
  /-- The register read `pci_config_readb(bdf, reg)`. -/
  pci_config_readb : Int → Nat → Nat

/-- The macro `PCI_ISA_IRQ_MASK`: lines 5, 9, 10, 11 under `CONFIG_KVM`, else empty. -/
def PCI_ISA_IRQ_MASK (CONFIG_KVM : Bool) : Nat := if CONFIG_KVM then 0x0e20 else 0x0000

def RSDT_SIGNATURE : Nat := 0x54445352
def FACS_SIGNATURE : Nat := 0x53434146
def FACP_SIGNATURE : Nat := 0x50434146
def APIC_SIGNATURE : Nat := 0x43495041
def SSDT_SIGNATURE : Nat := 0x54445353

def cpu_to_le16 (x : Nat) : Nat := x

def cpu_to_le32 (x : Nat) : Nat := x

/-! ## The header builder -/

/-- The function `acpi_build_table_header(h, sig, len, rev)`. The fields of
`struct acpi_table_header` are at offsets 0 (signature), 4 (length), 8 (revision),
9 (checksum), 10 (oem_id), 16 (oem_table_id), 24 (oem_revision),
28 (asl_compiler_id) and 32 (asl_compiler_revision). `len` is the 32-bit pattern of
the `int` argument. -/
def acpi_build_table_header (p : Platform) (m : Mem) (h sig len rev : Nat) : Mem :=
  let m := write32 m h sig
  let m := write32 m (h + 4) (cpu_to_le32 len)
  let m := write8 m (h + 8) rev
  let m := memcpy m (h + 10) p.CONFIG_APPNAME6 6
  let m := memcpy m (h + 16) p.CONFIG_APPNAME4 4
  let m := memcpy m (h + 28) p.CONFIG_APPNAME4 4
  -- memcpy(h->oem_table_id + 4, (void*)&sig, 4): the four bytes of `sig`
  let m := write32 m (h + 16 + 4) sig
  let m := write32 m (h + 24) (cpu_to_le32 1)
  let m := write32 m (h + 32) (cpu_to_le32 1)
  -- h->checksum -= checksum(h, len)
  write8 m (h + 9) (read8 m (h + 9) + 256 - checksum m h (len % 2 ^ 32))

/-! ## The processor SSDT -/

/-- The statement `*(ssdt_ptr++) = v` on the pair (memory, `ssdt_ptr`). -/
def put (s : Mem × Nat) (v : Nat) : Mem × Nat := (write8 s.1 s.2 v, s.2 + 1)

/-- The body of the loop of `acpi_build_processor_ssdt`: the object of processor `i`.
The character codes are `'C'` = 0x43, `'P'` = 0x50, `'U'` = 0x55, `'0'` = 0x30 and
`'A'` = 0x41. -/
def ssdt_processor (i : Nat) (s : Mem × Nat) : Mem × Nat :=
  let s := put s 0x5B
  let s := put s 0x83
  let s := put s 0x0B
  let s := put s 0x43
  let s := put s 0x50
  let s :=
    if i &&& 0xf0 ≠ 0 then
      put s (if i >>> 4 < 0xa then (i >>> 4) + 0x30 else (i >>> 4) + 0x41 - 0xa)
    else
      put s 0x55
  let s := put s (if i &&& 0xf < 0xa then (i &&& 0xf) + 0x30 else (i &&& 0xf) + 0x41 - 0xa)
  let s := put s i
  let s := put s 0x10
  let s := put s 0xb0
  let s := put s 0
  let s := put s 0
  put s 6

/-- The loop `for (i = ...; i < acpi_cpus; i++)` of `acpi_build_processor_ssdt`, with
`n` iterations left and the counter at `i`. -/
def ssdt_loop : Nat → Nat → Mem × Nat → Mem × Nat
  | 0, _, s => s
  | n + 1, i, s => ssdt_loop n (i + 1) (ssdt_processor i s)

/-- The function `acpi_build_processor_ssdt(ssdt)`: the memory it leaves and the
length it returns. The character codes are `'_'` = 0x5F, `'P'` = 0x50, `'R'` = 0x52. -/
def acpi_build_processor_ssdt (p : Platform) (m : Mem) (ssdt : Nat) : Mem × Nat :=
  let ssdt_ptr := ssdt
  let smp_cpus := p.CountCPUs
  let acpi_cpus := if smp_cpus > 0xff then 0xff else smp_cpus
  let m := write8 m (ssdt_ptr + 9) 0
  let ssdt_ptr := ssdt_ptr + 36
  let length := 0x0d * acpi_cpus + 4
  let s := put (m, ssdt_ptr) 0x10
  let s :=
    if length ≤ 0x3e then
      put s (length + 1)
    else
      put (put s 0x7F) ((length + 2) >>> 6)
  let s := put s 0x5F
  let s := put s 0x50
  let s := put s 0x52
  let s := put s 0x5F
  let s := ssdt_loop acpi_cpus 0 s
  (acpi_build_table_header p s.1 ssdt SSDT_SIGNATURE (s.2 - ssdt) 1, s.2 - ssdt)

/-! ## The table set -/

/-- The state `acpi.c` works on: memory, the globals `bios_table_cur_addr` and
`RsdpAddr`, and the registrations made through `add_e820` (start, size, type). -/
structure State where
  mem : Mem
  bios_table_cur_addr : Nat
  RsdpAddr : Nat
  e820 : List (Nat × Nat × Nat)

/-- Modelled from the spec: `struct rsdp_descriptor` and `RSDP_SIGNATURE` are declared
in `acpi.h`; the spec has the Root Pointer hold a signature, an OEM id, the physical
address of the Root Table Index and a "checksum over its own fixed-size prefix", in
the layout of the external specification: signature (8 bytes, "RSD PTR ") at offset
0, checksum at 8, oem_id at 9, revision at 15, rsdt_physical_address at 16, and 36
bytes in all. -/
def RSDP_SIGNATURE : Nat := 0x2052545020445352

/-- The value `sizeof(struct rsdp_descriptor)` (see `RSDP_SIGNATURE`). -/
def sizeof_rsdp : Nat := 36

/-- The memory-map type `E820_ACPI`, defined in `memmap.h`; it is only recorded with the
registration. -/
def E820_ACPI : Nat := 3

/-- The PCI configuration register `PCI_INTERRUPT_LINE`, defined in `pci_regs.h`; it is
only passed to `pci_config_readb`. -/
def PCI_INTERRUPT_LINE : Nat := 0x3c

def APIC_PROCESSOR : Nat := 0
def APIC_IO : Nat := 1
def APIC_XRUPT_OVERRIDE : Nat := 2

/-- The values of the local variables of `acpi_bios_init` when the layout is done
(line 360), with the state at that point. -/
structure Layout where
  rsdp : Nat
  base_addr : Nat
  rsdt_addr : Nat
  fadt_addr : Nat
  facs_addr : Nat
  dsdt_addr : Nat
  ssdt_addr : Nat
  madt_addr : Nat
  madt_size : Nat
  addr : Nat
  acpi_tables_size : Nat
  smp_cpus : Nat
  st : State

/-- The first part of `acpi_bios_init`, "reserve memory space for tables": the
addresses are assigned, the region is registered and the processor SSDT is built. -/
def acpi_layout (p : Platform) (s : State) : Layout :=
  let bios_table_cur_addr := ALIGN s.bios_table_cur_addr 16
  let rsdp := bios_table_cur_addr
  let bios_table_cur_addr := add32 bios_table_cur_addr sizeof_rsdp
  let base_addr := sub32 p.RamSize p.CONFIG_ACPI_DATA_SIZE
  let addr := base_addr
  let e820 := s.e820 ++ [(addr, p.CONFIG_ACPI_DATA_SIZE, E820_ACPI)]
  let rsdt_addr := addr
  let addr := add32 addr 48
  let fadt_addr := addr
  let addr := add32 addr 116
  let addr := ALIGN addr 64
  let facs_addr := addr
  let addr := add32 addr 64
  let dsdt_addr := addr
  let addr := add32 addr p.AmlCode.length
  let ssdt_addr := addr
  let r := acpi_build_processor_ssdt p s.mem ssdt_addr
  let addr := add32 addr r.2
  let smp_cpus := p.CountCPUs
  let addr := ALIGN addr 8
  let madt_addr := addr
  let madt_size := (44 + 8 * smp_cpus + 12) % 2 ^ 32
  let addr := add32 addr madt_size
  let acpi_tables_size := sub32 addr base_addr
  { rsdp := rsdp, base_addr := base_addr, rsdt_addr := rsdt_addr, fadt_addr := fadt_addr,
    facs_addr := facs_addr, dsdt_addr := dsdt_addr, ssdt_addr := ssdt_addr,
    madt_addr := madt_addr, madt_size := madt_size, addr := addr,
    acpi_tables_size := acpi_tables_size, smp_cpus := smp_cpus,
    st := { mem := r.1, bios_table_cur_addr := bios_table_cur_addr,
            RsdpAddr := s.RsdpAddr, e820 := e820 } }

/-- The block "RSDP" of `acpi_bios_init`. -/
def build_rsdp (p : Platform) (m : Mem) (rsdp rsdt_addr : Nat) : Mem :=
  let m := memset m rsdp 0 sizeof_rsdp
  let m := write64 m rsdp RSDP_SIGNATURE
  let m := memcpy m (rsdp + 9) p.CONFIG_APPNAME6 6
  let m := write32 m (rsdp + 16) (cpu_to_le32 rsdt_addr)
  write8 m (rsdp + 8) (read8 m (rsdp + 8) + 256 - checksum m rsdp 20)

/-- The block "RSDT" of `acpi_bios_init`; `sizeof(*rsdt)` is 48 and
`table_offset_entry` is at offset 36. -/
def build_rsdt (p : Platform) (m : Mem) (rsdt fadt_addr madt_addr ssdt_addr : Nat) : Mem :=
  let m := memset m rsdt 0 48
  let m := write32 m (rsdt + 36) (cpu_to_le32 fadt_addr)
  let m := write32 m (rsdt + 36 + 4) (cpu_to_le32 madt_addr)
  let m := write32 m (rsdt + 36 + 8) (cpu_to_le32 ssdt_addr)
  acpi_build_table_header p m rsdt RSDT_SIGNATURE 48 1

/-- The block "FADT" of `acpi_bios_init`; `sizeof(*fadt)` is 116, the fields written are
at offsets 36 (firmware_ctrl), 40 (dsdt), 44 (model), 45 (reserved1), 46 (sci_int),
48 (smi_cmd), 52 (acpi_enable), 53 (acpi_disable), 56 (pm1a_evt_blk),
64 (pm1a_cnt_blk), 76 (pm_tmr_blk), 88 (pm1_evt_len), 89 (pm1_cnt_len),
91 (pm_tmr_len), 96 (plvl2_lat), 98 (plvl3_lat) and 112 (flags). -/
def build_fadt (p : Platform) (m : Mem) (fadt facs_addr dsdt_addr : Nat) : Mem :=
  let m := memset m fadt 0 116
  let m := write32 m (fadt + 36) (cpu_to_le32 facs_addr)
  let m := write32 m (fadt + 40) (cpu_to_le32 dsdt_addr)
  let m := write8 m (fadt + 44) 1
  let m := write8 m (fadt + 45) 0
  let pm_sci_int := p.pci_config_readb p.bdf PCI_INTERRUPT_LINE
  let m := write16 m (fadt + 46) (cpu_to_le16 pm_sci_int)
  let m := write32 m (fadt + 48) (cpu_to_le32 p.PORT_SMI_CMD)
  let m := write8 m (fadt + 52) 0xf1
  let m := write8 m (fadt + 53) 0xf0
  let m := write32 m (fadt + 56) (cpu_to_le32 p.PORT_ACPI_PM_BASE)
  let m := write32 m (fadt + 64) (cpu_to_le32 (p.PORT_ACPI_PM_BASE + 0x04))
  let m := write32 m (fadt + 76) (cpu_to_le32 (p.PORT_ACPI_PM_BASE + 0x08))
  let m := write8 m (fadt + 88) 4
  let m := write8 m (fadt + 89) 2
  let m := write8 m (fadt + 91) 4
  let m := write16 m (fadt + 96) (cpu_to_le16 0xfff)
  let m := write16 m (fadt + 98) (cpu_to_le16 0xfff)
  let m := write32 m (fadt + 112)
    (cpu_to_le32 ((1 <<< 0) ||| (1 <<< 2) ||| (1 <<< 4) ||| (1 <<< 5) ||| (1 <<< 6)))
  acpi_build_table_header p m fadt FACP_SIGNATURE 116 1

/-- The block "FACS" of `acpi_bios_init`; `sizeof(*facs)` is 64. -/
def build_facs (m : Mem) (facs : Nat) : Mem :=
  let m := memset m facs 0 64
  let m := write32 m facs FACS_SIGNATURE
  write32 m (facs + 4) (cpu_to_le32 64)

/-- The block "DSDT" of `acpi_bios_init`. -/
def build_dsdt (p : Platform) (m : Mem) (dsdt : Nat) : Mem :=
  memcpy m dsdt p.AmlCode p.AmlCode.length

/-- The loop over the processors in the block "MADT", on the pair (memory, `apic`),
with `n` iterations left and the counter at `i`; `sizeof(*apic)` is 8. -/
def madt_cpu_loop : Nat → Nat → Mem × Nat → Mem × Nat
  | 0, _, s => s
  | n + 1, i, s =>
    let m := s.1
    let apic := s.2
    let m := write8 m apic APIC_PROCESSOR
    let m := write8 m (apic + 1) 8
    let m := write8 m (apic + 2) i
    let m := write8 m (apic + 3) i
    let m := write32 m (apic + 4) (cpu_to_le32 1)
    madt_cpu_loop n (i + 1) (m, apic + 8)

/-- The loop over the sixteen interrupt lines in the block "MADT", on the triple
(memory, `intsrcovr`, `madt_size`), with `n` iterations left and the counter at `i`;
`sizeof(*intsrcovr)` is 10. -/
def madt_ovr_loop (mask : Nat) : Nat → Nat → Mem × Nat × Nat → Mem × Nat × Nat
  | 0, _, s => s
  | n + 1, i, s =>
    if mask &&& (1 <<< i) = 0 then
      madt_ovr_loop mask n (i + 1) s
    else
      let m := s.1
      let intsrcovr := s.2.1
      let madt_size := s.2.2
      let m := memset m intsrcovr 0 10
      let m := write8 m intsrcovr APIC_XRUPT_OVERRIDE
      let m := write8 m (intsrcovr + 1) 10
      let m := write8 m (intsrcovr + 3) i
      let m := write32 m (intsrcovr + 4) i
      let m := write16 m (intsrcovr + 8) 0xd
      madt_ovr_loop mask n (i + 1) (m, intsrcovr + 10, add32 madt_size 10)

/-- The block "MADT" of `acpi_bios_init`; `sizeof(*madt)` is 44 and
`sizeof(*io_apic)` is 12. -/
def build_madt (p : Platform) (m : Mem) (madt madt_size smp_cpus : Nat) : Mem :=
  let m := memset m madt 0 madt_size
  let m := write32 m (madt + 36) (cpu_to_le32 p.BUILD_APIC_ADDR)
  let m := write32 m (madt + 40) (cpu_to_le32 1)
  let apic := madt + 44
  let s := madt_cpu_loop smp_cpus 0 (m, apic)
  let m := s.1
  let io_apic := s.2
  let m := write8 m io_apic APIC_IO
  let m := write8 m (io_apic + 1) 12
  let m := write8 m (io_apic + 2) smp_cpus
  let m := write32 m (io_apic + 4) (cpu_to_le32 p.BUILD_IOAPIC_ADDR)
  let m := write32 m (io_apic + 8) (cpu_to_le32 0)
  let intsrcovr := io_apic + 12
  let t := madt_ovr_loop p.irq_mask 16 0 (m, intsrcovr, madt_size)
  acpi_build_table_header p t.1 madt APIC_SIGNATURE t.2.2 1

/-- The function `acpi_bios_init`. -/
def acpi_bios_init (p : Platform) (s : State) : State :=
  if !p.CONFIG_ACPI then s
  else if p.bdf < 0 then s
  else
    let l := acpi_layout p s
    let m := l.st.mem
    let m := build_rsdp p m l.rsdp l.rsdt_addr
    let RsdpAddr := l.rsdp
    let m := build_rsdt p m l.rsdt_addr l.fadt_addr l.madt_addr l.ssdt_addr
    let m := build_fadt p m l.fadt_addr l.facs_addr l.dsdt_addr
    let m := build_facs m l.facs_addr
    let m := build_dsdt p m l.dsdt_addr
    let m := build_madt p m l.madt_addr l.madt_size l.smp_cpus
    { mem := m, bios_table_cur_addr := l.st.bios_table_cur_addr,
      RsdpAddr := RsdpAddr, e820 := l.st.e820 }

/-! ## The resume resolver -/

/-- The loop of `find_resume_vector` with the counter at `i`; `fuel` bounds the
iterations left, and `none` is the answer when it is used up. The entry
`table_offset_entry[i]` is at `rsdt + 36 + 4 * i`, `firmware_ctrl` at offset 36 of the
FADT and `firmware_waking_vector` at offset 12 of the FACS. -/
def find_resume_loop (m : Mem) (rsdt end_ : Nat) : Nat → Nat → Option Nat
  | 0, _ => none
  | fuel + 1, i =>
    if rsdt + 36 + 4 * i < end_ then
      let fadt := read32 m (rsdt + 36 + 4 * i)
      if fadt = 0 ∨ read32 m fadt ≠ FACP_SIGNATURE then
        find_resume_loop m rsdt end_ fuel (i + 1)
      else
        let facs := read32 m (fadt + 36)
        if facs = 0 ∨ read32 m facs ≠ FACS_SIGNATURE then
          some 0
        else
          some (read32 m (facs + 12))
    else
      some 0

/-- The function `find_resume_vector`. The loop leaves at the latest when the entry
address reaches `end`, that is after fewer than `rsdt->length + 1` tests. -/
def find_resume_vector (s : State) : Option Nat :=
  if s.RsdpAddr = 0 ∨ read64 s.mem s.RsdpAddr ≠ RSDP_SIGNATURE then
    some 0
  else
    let rsdt := read32 s.mem (s.RsdpAddr + 16)
    if rsdt = 0 ∨ read32 s.mem rsdt ≠ RSDT_SIGNATURE then
      some 0
    else
      let end_ := rsdt + read32 s.mem (rsdt + 4)
      find_resume_loop s.mem rsdt end_ (read32 s.mem (rsdt + 4) + 1) 0

/-! ## Definitions used in the statements -/

/-- The length of the processor SSDT for `cpus` processors: header, scope opcode, size
field, scope name and thirteen bytes for each of at most 255 processors. -/
def ssdt_length (cpus : Nat) : Nat :=
  36 + 1 + (if 13 * min cpus 255 + 4 ≤ 0x3e then 1 else 2) + 4 + 13 * min cpus 255

/-- The entry `table_offset_entry[j]` of the RSDT at `rsdt` is skipped by the loop of
`find_resume_vector`: it is null or does not point to the FACP signature. -/
def entry_skipped (m : Mem) (rsdt j : Nat) : Prop :=
  read32 m (rsdt + 36 + 4 * j) = 0 ∨ read32 m (read32 m (rsdt + 36 + 4 * j)) ≠ FACP_SIGNATURE

/-- A platform for the examples: the configuration of an emulator build with `cpus`
processors and the override mask `mask`, 128 MiB of memory and a 64 KiB region. -/
def sample_platform (cpus mask : Nat) : Platform :=
  { CONFIG_ACPI := true
    CONFIG_APPNAME6 := [0x42, 0x4F, 0x43, 0x48, 0x53, 0x20]
    CONFIG_APPNAME4 := [0x42, 0x58, 0x50, 0x43]
    CONFIG_ACPI_DATA_SIZE := 0x10000
    PORT_SMI_CMD := 0xb2
    PORT_ACPI_PM_BASE := 0xb000
    BUILD_APIC_ADDR := 0xfee00000
    BUILD_IOAPIC_ADDR := 0xfec00000
    irq_mask := mask
    AmlCode := [0x44, 0x53, 0x44, 0x54, 0x08, 0x00, 0x00, 0x00]
    RamSize := 0x8000000
    CountCPUs := cpus
    bdf := 0x0b
    pci_config_readb := fun _ _ => 9 }

/-- A state for the examples: memory filled with `0xAA`, the table cursor in the
`0xf0000` segment, no Root Pointer recorded and no registration made. -/
def sample_state : State :=
  { mem := fun _ => 0xAA, bios_table_cur_addr := 0xf1234, RsdpAddr := 0, e820 := [] }

/-- A hand-made table chain for the examples: Root Pointer at 16, RSDT at 64 with the
entries `e0` and `e1` (length 44), a FACP-signed structure at 128 whose `firmware_ctrl`
is 192, another at 256 whose `firmware_ctrl` is 320, a FACS at 320 holding the resume
vector `0x1234`, and at 192 a structure with the signature `sig192`. -/
def chain_state (e0 e1 sig192 : Nat) : State :=
  let m : Mem := fun _ => 0
  let m := write64 m 16 RSDP_SIGNATURE
  let m := write32 m 32 64
  let m := write32 m 64 RSDT_SIGNATURE
  let m := write32 m 68 44
  let m := write32 m 100 e0
  let m := write32 m 104 e1
  let m := write32 m 128 FACP_SIGNATURE
  let m := write32 m 164 192
  let m := write32 m 192 sig192
  let m := write32 m 204 0x5678
  let m := write32 m 256 FACP_SIGNATURE
  let m := write32 m 292 320
  let m := write32 m 320 FACS_SIGNATURE
  let m := write32 m 332 0x1234
  { mem := m, bios_table_cur_addr := 0xf1234, RsdpAddr := 16, e820 := [] }

/-- The number of lines `j` with `i ≤ j < i + n` that the mask selects. -/
def ovr_count (mask : Nat) : Nat → Nat → Nat
  | 0, _ => 0
  | n + 1, i => (if mask.testBit i then 1 else 0) + ovr_count mask n (i + 1)

/-- The population count of the low sixteen bits of a mask: the number of lines
`i < 16` whose bit is set. -/
def popcount16 (mask : Nat) : Nat := ((List.range 16).filter (fun i => mask.testBit i)).length

/-- The walk of a reader over the sub-entries of an Interrupt Table: an entry at `a` has
its type in the byte at `a` and its length in the byte at `a + 1`, and the next entry starts
that many bytes further. The walk lists (type, length) of the entries it visits and
succeeds when it arrives exactly at `end_`; `fuel` bounds the number of entries. -/
def walk_entries (m : Mem) (end_ : Nat) : Nat → Nat → Option (List (Nat × Nat))
  | 0, a => if a = end_ then some [] else none
  | fuel + 1, a =>
    if a = end_ then some []
    else if end_ < a + 2 ∨ read8 m (a + 1) = 0 then none
    else
      (walk_entries m end_ fuel (a + read8 m (a + 1))).map
        (fun l => (read8 m a, read8 m (a + 1)) :: l)

/-- The memory, the pointer `intsrcovr` and the value of `madt_size` in the block "MADT"
when its header is about to be built. -/
def madt_body (p : Platform) (m : Mem) (madt madt_size smp_cpus : Nat) : Mem × Nat × Nat :=
  let m := memset m madt 0 madt_size
  let m := write32 m (madt + 36) (cpu_to_le32 p.BUILD_APIC_ADDR)
  let m := write32 m (madt + 40) (cpu_to_le32 1)
  let s := madt_cpu_loop smp_cpus 0 (m, madt + 44)
  let m := write8 s.1 s.2 APIC_IO
  let m := write8 m (s.2 + 1) 12
  let m := write8 m (s.2 + 2) smp_cpus
  let m := write32 m (s.2 + 4) (cpu_to_le32 p.BUILD_IOAPIC_ADDR)
  let m := write32 m (s.2 + 8) (cpu_to_le32 0)
  madt_ovr_loop p.irq_mask 16 0 (m, s.2 + 12, madt_size)

/-- An upper bound of the bytes `acpi_bios_init` lays out from the region base on: the
RSDT (48), the FADT (116), the padding to a 64-byte boundary, the FACS (64), `AmlCode`,
the processor SSDT, the padding to an 8-byte boundary, and the MADT with its 16 possible
override entries. -/
def tables_extent (p : Platform) : Nat :=
  48 + 116 + 63 + 64 + p.AmlCode.length + ssdt_length p.CountCPUs + 7
    + (44 + 8 * p.CountCPUs + 12 + 10 * 16)

/-- A run of `acpi_bios_init` that completes on a platform where addresses are what they
stand for: the device is found, the region base `RamSize - CONFIG_ACPI_DATA_SIZE` is
positive, the tables end below 4 GiB (no 32-bit address wraps around), and the slot of
the Root Pointer is non-null and apart from the tables. -/
structure Completed (p : Platform) (s : State) : Prop where
  config : p.CONFIG_ACPI = true
  found : 0 ≤ p.bdf
  ram : p.RamSize < 2 ^ 32
  base : p.CONFIG_ACPI_DATA_SIZE < p.RamSize
  fits : p.RamSize - p.CONFIG_ACPI_DATA_SIZE + tables_extent p ≤ 2 ^ 32
  rsdp_nonnull : 0 < ALIGN s.bios_table_cur_addr 16
  rsdp_apart :
    ALIGN s.bios_table_cur_addr 16 + 36 ≤ p.RamSize - p.CONFIG_ACPI_DATA_SIZE ∨
    p.RamSize - p.CONFIG_ACPI_DATA_SIZE + tables_extent p ≤ ALIGN s.bios_table_cur_addr 16

/-- The memory of `acpi_bios_init` after the block "RSDP". -/
def mem_rsdp (p : Platform) (s : State) : Mem :=
  build_rsdp p (acpi_layout p s).st.mem (acpi_layout p s).rsdp (acpi_layout p s).rsdt_addr

/-- The memory of `acpi_bios_init` after the block "RSDT". -/
def mem_rsdt (p : Platform) (s : State) : Mem :=
  build_rsdt p (mem_rsdp p s) (acpi_layout p s).rsdt_addr (acpi_layout p s).fadt_addr
    (acpi_layout p s).madt_addr (acpi_layout p s).ssdt_addr

/-- The memory of `acpi_bios_init` after the block "FADT". -/
def mem_fadt (p : Platform) (s : State) : Mem :=
  build_fadt p (mem_rsdt p s) (acpi_layout p s).fadt_addr (acpi_layout p s).facs_addr
    (acpi_layout p s).dsdt_addr

/-- The memory of `acpi_bios_init` after the block "FACS". -/
def mem_facs (p : Platform) (s : State) : Mem :=
  build_facs (mem_fadt p s) (acpi_layout p s).facs_addr

/-- The memory of `acpi_bios_init` after the block "DSDT". -/
def mem_dsdt (p : Platform) (s : State) : Mem :=
  build_dsdt p (mem_facs p s) (acpi_layout p s).dsdt_addr

/-- The decoder of the size field (PkgLength) of the bytecode format, for its one-byte and
two-byte forms: when the top two bits of the first byte are 00 the value is its low 6 bits;
when they are 01 the value is the low 4 bits of the first byte plus the second byte shifted
left by 4. The result is the decoded value and the number of bytes of the field. -/
def pkg_length_decode (m : Mem) (a : Nat) : Option (Nat × Nat) :=
  let b0 := read8 m a
  if b0 >>> 6 = 0 then
    some (b0 &&& 0x3f, 1)
  else if b0 >>> 6 = 1 then
    some ((b0 &&& 0x0f) + (read8 m (a + 1) <<< 4), 2)
  else
    none

/-- The upper-case hexadecimal digit of `d < 16`: `'0'`-`'9'` (from 0x30) or `'A'`-`'F'`
(from 0x41). -/
def hex_digit (d : Nat) : Nat := if d < 10 then 0x30 + d else 0x41 + (d - 10)

/-- The thirteen bytes of the processor object of index `i`: the opcode `0x5B 0x83`, the
length `0x0B`, the name `'C'`, `'P'`, then `'U'` for `i < 16` and else the digit of the high
nibble, then the digit of the low nibble; the index; and the block descriptor
`0x10 0xB0 0x00 0x00 0x06`. -/
def processor_object (i : Nat) : List Nat :=
  [0x5B, 0x83, 0x0B, 0x43, 0x50, if i < 16 then 0x55 else hex_digit (i / 16),
    hex_digit (i % 16), i, 0x10, 0xB0, 0x00, 0x00, 0x06]

/-- A run of statements `*(ssdt_ptr++) = v`, one for each element of the list. -/
def put_list (s : Mem × Nat) (l : List Nat) : Mem × Nat := l.foldl put s

/-- The width of the size field of the processor SSDT for `cpus` processors. -/
def size_field_width (cpus : Nat) : Nat := if 13 * min cpus 255 + 4 ≤ 0x3e then 1 else 2

/-- The memory in `acpi_build_table_header` when the fields are stored and the checksum is
about to be computed. -/
def header_fields (p : Platform) (m : Mem) (h sig len : Nat) (rev : Nat) : Mem :=
  write32 (write32 (write32 (memcpy (memcpy (memcpy (write8 (write32 (write32 m h sig)
    (h + 4) (cpu_to_le32 len)) (h + 8) rev) (h + 10) p.CONFIG_APPNAME6 6) (h + 16)
    p.CONFIG_APPNAME4 4) (h + 28) p.CONFIG_APPNAME4 4) (h + 16 + 4) sig) (h + 24)
    (cpu_to_le32 1)) (h + 32) (cpu_to_le32 1)

/-- The memory and the pointer `ssdt_ptr` in `acpi_build_processor_ssdt` when the loop is
done and the header is about to be built. -/
def ssdt_body (p : Platform) (m : Mem) (ssdt : Nat) : Mem × Nat :=
  let acpi_cpus := if p.CountCPUs > 0xff then 0xff else p.CountCPUs
  let length := 0x0d * acpi_cpus + 4
  let s := put (write8 m (ssdt + 9) 0, ssdt + 36) 0x10
  let s :=
    if length ≤ 0x3e then
      put s (length + 1)
    else
      put (put s 0x7F) ((length + 2) >>> 6)
  let s := put s 0x5F
  let s := put s 0x50
  let s := put s 0x52
  let s := put s 0x5F
  ssdt_loop acpi_cpus 0 s

/-- The lines selected by a mask: the `i < 16` whose bit is set, in ascending order. -/
def set_lines (mask : Nat) : List Nat := (List.range 16).filter (fun i => mask.testBit i)

/-! ## Lemmas on memory -/

theorem read8_lt (m : Mem) (a : Nat) : read8 m a < 256 := by
  unfold read8; omega

theorem read8_write8 (m : Mem) (a v x : Nat) :
    read8 (write8 m a v) x = if x = a then v % 256 else read8 m x := by
  unfold read8 write8
  by_cases h : x = a <;> simp [h]

theorem read8_write8_same (m : Mem) (a v : Nat) : read8 (write8 m a v) a = v % 256 := by
  simp [read8_write8]

theorem read8_write8_ne (m : Mem) (a v x : Nat) (h : x ≠ a) :
    read8 (write8 m a v) x = read8 m x := by
  simp [read8_write8, h]

theorem checksum_lt (m : Mem) (a n : Nat) : checksum m a n < 256 := by
  cases n with
  | zero => simp [checksum]
  | succ n => simp only [checksum]; omega

/-- The checksum only depends on the bytes of the range. -/
theorem checksum_congr (m1 m2 : Mem) (a n : Nat)
    (h : ∀ i, i < n → read8 m1 (a + i) = read8 m2 (a + i)) :
    checksum m1 a n = checksum m2 a n := by
  induction n with
  | zero => rfl
  | succ n ih =>
    simp only [checksum]
    rw [ih (fun i hi => h i (by omega)), h n (by omega)]

/-- The checksum is the sum of the bytes modulo 256. -/
theorem checksum_eq_sum (m : Mem) (a n : Nat) :
    checksum m a n = (∑ i in Finset.range n, read8 m (a + i)) % 256 := by
  induction n with
  | zero => simp [checksum]
  | succ n ih =>
    simp only [checksum, Finset.sum_range_succ, ih]
    omega

/-- Effect on the checksum of a store inside the range. -/
theorem checksum_write8 (m : Mem) (a n x v : Nat) (h1 : a ≤ x) (h2 : x < a + n) :
    checksum (write8 m x v) a n
      = (checksum m a n + 256 - read8 m x + v % 256) % 256 := by
  induction n with
  | zero => omega
  | succ n ih =>
    simp only [checksum]
    by_cases hx : x = a + n
    · subst hx
      rw [checksum_congr (write8 m (a + n) v) m a n
        (fun i hi => read8_write8_ne m _ v _ (by omega))]
      rw [read8_write8_same]
      have := checksum_lt m a n
      have := read8_lt m (a + n)
      omega
    · rw [ih (by omega), read8_write8_ne m x v (a + n) (by omega)]
      have := checksum_lt m a n
      have := read8_lt m x
      have := read8_lt m (a + n)
      omega

/-- The read-modify-write `h->checksum -= checksum(h, len)` zeroes the sum. -/
theorem checksum_fix (m : Mem) (h len : Nat) (hlen : 9 < len) :
    checksum (write8 m (h + 9) (read8 m (h + 9) + 256 - checksum m h len)) h len = 0 := by
  rw [checksum_write8 m h len (h + 9) _ (by omega) (by omega)]
  have := checksum_lt m h len
  have := read8_lt m (h + 9)
  omega

theorem write8_ne (m : Mem) (a v x : Nat) (h : x ≠ a) : write8 m a v x = m x := by
  simp [write8, h]

theorem write16_frame (m : Mem) (a v x : Nat) (h : x < a ∨ a + 2 ≤ x) :
    write16 m a v x = m x := by
  unfold write16
  rw [write8_ne _ _ _ _ (by omega), write8_ne _ _ _ _ (by omega)]

theorem write32_frame (m : Mem) (a v x : Nat) (h : x < a ∨ a + 4 ≤ x) :
    write32 m a v x = m x := by
  unfold write32
  rw [write8_ne _ _ _ _ (by omega), write8_ne _ _ _ _ (by omega),
    write8_ne _ _ _ _ (by omega), write8_ne _ _ _ _ (by omega)]

theorem write64_frame (m : Mem) (a v x : Nat) (h : x < a ∨ a + 8 ≤ x) :
    write64 m a v x = m x := by
  unfold write64
  rw [write32_frame _ _ _ _ (by omega), write32_frame _ _ _ _ (by omega)]

theorem memset_frame (m : Mem) (a c n x : Nat) (h : x < a ∨ a + n ≤ x) :
    memset m a c n x = m x := by
  induction n with
  | zero => rfl
  | succ n ih =>
    simp only [memset]
    rw [write8_ne _ _ _ _ (by omega), ih (by omega)]

theorem memcpy_frame (m : Mem) (dst : Nat) (src : List Nat) (n x : Nat)
    (h : x < dst ∨ dst + n ≤ x) : memcpy m dst src n x = m x := by
  induction n with
  | zero => rfl
  | succ n ih =>
    simp only [memcpy]
    rw [write8_ne _ _ _ _ (by omega), ih (by omega)]

/-- Bytes of a `memset` range. -/
theorem memset_inside (m : Mem) (a c n x : Nat) (h1 : a ≤ x) (h2 : x < a + n) :
    memset m a c n x = c % 256 := by
  induction n with
  | zero => omega
  | succ n ih =>
    simp only [memset]
    by_cases hx : x = a + n
    · simp [write8, hx]
    · rw [write8_ne _ _ _ _ hx, ih (by omega)]

theorem memcpy_inside (m : Mem) (dst : Nat) (src : List Nat) (n x : Nat)
    (h1 : dst ≤ x) (h2 : x < dst + n) : memcpy m dst src n x = src.getD (x - dst) 0 % 256 := by
  induction n with
  | zero => omega
  | succ n ih =>
    simp only [memcpy]
    by_cases hx : x = dst + n
    · simp [write8, hx]
    · rw [write8_ne _ _ _ _ hx, ih (by omega)]

theorem read8_congr (m1 m2 : Mem) (a : Nat) (h : m1 a = m2 a) : read8 m1 a = read8 m2 a := by
  simp [read8, h]

theorem read32_congr (m1 m2 : Mem) (a : Nat) (h : ∀ i, i < 4 → m1 (a + i) = m2 (a + i)) :
    read32 m1 a = read32 m2 a := by
  unfold read32 read8
  rw [show m1 a = m2 a from h 0 (by omega), h 1 (by omega), h 2 (by omega), h 3 (by omega)]

theorem read32_lt (m : Mem) (a : Nat) : read32 m a < 2 ^ 32 := by
  unfold read32
  have := read8_lt m a
  have := read8_lt m (a + 1)
  have := read8_lt m (a + 2)
  have := read8_lt m (a + 3)
  omega

theorem read32_write32 (m : Mem) (a v : Nat) : read32 (write32 m a v) a = v % 2 ^ 32 := by
  unfold read32 write32
  simp [read8_write8]
  omega

theorem acpi_build_table_header_frame (p : Platform) (m : Mem) (h sig len rev x : Nat)
    (hx : x < h ∨ h + 36 ≤ x) : acpi_build_table_header p m h sig len rev x = m x := by
  unfold acpi_build_table_header
  rw [write8_ne _ _ _ _ (by omega), write32_frame _ _ _ _ (by omega),
    write32_frame _ _ _ _ (by omega), write32_frame _ _ _ _ (by omega),
    memcpy_frame _ _ _ _ _ (by omega), memcpy_frame _ _ _ _ _ (by omega),
    memcpy_frame _ _ _ _ _ (by omega), write8_ne _ _ _ _ (by omega),
    write32_frame _ _ _ _ (by omega), write32_frame _ _ _ _ (by omega)]

theorem acpi_build_table_header_signature (p : Platform) (m : Mem) (h sig len rev : Nat) :
    read32 (acpi_build_table_header p m h sig len rev) h = sig % 2 ^ 32 := by
  rw [← read32_write32 m h sig]
  apply read32_congr
  intro i hi
  unfold acpi_build_table_header
  rw [write8_ne _ _ _ _ (by omega), write32_frame _ _ _ _ (by omega),
    write32_frame _ _ _ _ (by omega), write32_frame _ _ _ _ (by omega),
    memcpy_frame _ _ _ _ _ (by omega), memcpy_frame _ _ _ _ _ (by omega),
    memcpy_frame _ _ _ _ _ (by omega), write8_ne _ _ _ _ (by omega),
    write32_frame _ _ _ _ (by omega)]

theorem acpi_build_table_header_length (p : Platform) (m : Mem) (h sig len rev : Nat) :
    read32 (acpi_build_table_header p m h sig len rev) (h + 4) = len % 2 ^ 32 := by
  rw [← read32_write32 (write32 m h sig) (h + 4) len]
  apply read32_congr
  intro i hi
  unfold acpi_build_table_header cpu_to_le32
  rw [write8_ne _ _ _ _ (by omega), write32_frame _ _ _ _ (by omega),
    write32_frame _ _ _ _ (by omega), write32_frame _ _ _ _ (by omega),
    memcpy_frame _ _ _ _ _ (by omega), memcpy_frame _ _ _ _ _ (by omega),
    memcpy_frame _ _ _ _ _ (by omega), write8_ne _ _ _ _ (by omega)]

theorem acpi_build_table_header_checksum (p : Platform) (m : Mem) (h sig len rev : Nat)
    (h9 : 9 < len) (h32 : len < 2 ^ 32) :
    checksum (acpi_build_table_header p m h sig len rev) h len = 0 := by
  unfold acpi_build_table_header
  simp only [Nat.mod_eq_of_lt h32]
  exact checksum_fix _ h len h9

theorem acpi_build_table_header_revision (p : Platform) (m : Mem) (h sig len rev : Nat) :
    read8 (acpi_build_table_header p m h sig len rev) (h + 8) = rev % 256 := by
  unfold acpi_build_table_header cpu_to_le32
  rw [read8_write8_ne _ _ _ _ (by omega)]
  unfold read8
  rw [write32_frame _ _ _ _ (by omega),
    write32_frame _ _ _ _ (by omega), write32_frame _ _ _ _ (by omega),
    memcpy_frame _ _ _ _ _ (by omega), memcpy_frame _ _ _ _ _ (by omega),
    memcpy_frame _ _ _ _ _ (by omega)]
  simp [write8]

theorem put_snd (s : Mem × Nat) (v : Nat) : (put s v).2 = s.2 + 1 := rfl

theorem put_fst (s : Mem × Nat) (v : Nat) : (put s v).1 = write8 s.1 s.2 v := rfl

theorem ssdt_processor_snd (i : Nat) (s : Mem × Nat) : (ssdt_processor i s).2 = s.2 + 13 := by
  unfold ssdt_processor
  split <;> simp [put_snd]

theorem ssdt_processor_frame (i : Nat) (s : Mem × Nat) (x : Nat)
    (hx : x < s.2 ∨ s.2 + 13 ≤ x) : (ssdt_processor i s).1 x = s.1 x := by
  unfold ssdt_processor
  split <;>
  · simp only [put_fst, put_snd]
    repeat rw [write8_ne _ _ _ _ (by omega)]

theorem ssdt_loop_snd (n i : Nat) (s : Mem × Nat) : (ssdt_loop n i s).2 = s.2 + 13 * n := by
  induction n generalizing i s with
  | zero => rfl
  | succ n ih =>
    simp only [ssdt_loop]
    rw [ih, ssdt_processor_snd]
    omega

theorem ssdt_loop_frame (n i : Nat) (s : Mem × Nat) (x : Nat)
    (hx : x < s.2 ∨ s.2 + 13 * n ≤ x) : (ssdt_loop n i s).1 x = s.1 x := by
  induction n generalizing i s with
  | zero => rfl
  | succ n ih =>
    simp only [ssdt_loop]
    rw [ih _ _ (by rw [ssdt_processor_snd]; omega), ssdt_processor_frame _ _ _ (by omega)]

theorem acpi_build_processor_ssdt_snd (p : Platform) (m : Mem) (ssdt : Nat) :
    (acpi_build_processor_ssdt p m ssdt).2 = ssdt_length p.CountCPUs := by
  unfold acpi_build_processor_ssdt ssdt_length
  simp only [ssdt_loop_snd, put_snd]
  have hmin : (if p.CountCPUs > 0xff then 0xff else p.CountCPUs) = min p.CountCPUs 255 := by
    split <;> omega
  rw [hmin]
  split <;> simp [put_snd] <;> omega

theorem ssdt_length_bounds (cpus : Nat) : 41 ≤ ssdt_length cpus ∧ ssdt_length cpus ≤ 3358 := by
  unfold ssdt_length
  split <;> omega

theorem acpi_build_processor_ssdt_frame (p : Platform) (m : Mem) (ssdt x : Nat)
    (hx : x < ssdt ∨ ssdt + ssdt_length p.CountCPUs ≤ x) :
    (acpi_build_processor_ssdt p m ssdt).1 x = m x := by
  have hlen := acpi_build_processor_ssdt_snd p m ssdt
  have hb := ssdt_length_bounds p.CountCPUs
  unfold acpi_build_processor_ssdt at hlen ⊢
  simp only at hlen ⊢
  rw [acpi_build_table_header_frame _ _ _ _ _ _ _ (by omega)]
  have hmin : (if p.CountCPUs > 0xff then 0xff else p.CountCPUs) = min p.CountCPUs 255 := by
    split <;> omega
  rw [hmin] at hlen ⊢
  unfold ssdt_length at hx
  rw [ssdt_loop_frame]
  · split <;> split at hx <;>
      first
      | omega
      | (simp only [put_fst, put_snd]
         repeat rw [write8_ne _ _ _ _ (by omega)])
  · split <;> split at hx <;>
      first
      | omega
      | (simp only [put_snd]; omega)

theorem acpi_cpus_eq (c : Nat) : (if c > 0xff then 0xff else c) = min c 255 := by
  split <;> omega

/-- The memory `acpi_build_processor_ssdt` leaves is that of the header builder run on
the memory after the loop. -/
theorem acpi_build_processor_ssdt_fst (p : Platform) (m : Mem) (ssdt : Nat) :
    ∃ m1 : Mem, (acpi_build_processor_ssdt p m ssdt).1
      = acpi_build_table_header p m1 ssdt SSDT_SIGNATURE (ssdt_length p.CountCPUs) 1 := by
  have hlen := acpi_build_processor_ssdt_snd p m ssdt
  unfold acpi_build_processor_ssdt at hlen ⊢
  simp only at hlen ⊢
  rw [hlen]
  exact ⟨_, rfl⟩

theorem acpi_build_processor_ssdt_checksum (p : Platform) (m : Mem) (ssdt : Nat) :
    checksum (acpi_build_processor_ssdt p m ssdt).1 ssdt (ssdt_length p.CountCPUs) = 0 := by
  obtain ⟨m1, h1⟩ := acpi_build_processor_ssdt_fst p m ssdt
  have hb := ssdt_length_bounds p.CountCPUs
  rw [h1]
  exact acpi_build_table_header_checksum _ _ _ _ _ _ (by omega) (by omega)

theorem acpi_build_processor_ssdt_signature (p : Platform) (m : Mem) (ssdt : Nat) :
    read32 (acpi_build_processor_ssdt p m ssdt).1 ssdt = SSDT_SIGNATURE := by
  obtain ⟨m1, h1⟩ := acpi_build_processor_ssdt_fst p m ssdt
  rw [h1, acpi_build_table_header_signature]
  decide

theorem acpi_build_processor_ssdt_length (p : Platform) (m : Mem) (ssdt : Nat) :
    read32 (acpi_build_processor_ssdt p m ssdt).1 (ssdt + 4) = ssdt_length p.CountCPUs := by
  obtain ⟨m1, h1⟩ := acpi_build_processor_ssdt_fst p m ssdt
  have hb := ssdt_length_bounds p.CountCPUs
  rw [h1, acpi_build_table_header_length]
  omega

theorem ssdt_scope_bytes (p : Platform) (m : Mem) (ssdt x : Nat)
    (h1 : ssdt + 36 ≤ x)
    (h2 : x < ssdt + 36 + (if 13 * min p.CountCPUs 255 + 4 ≤ 0x3e then 6 else 7)) :
    (acpi_build_processor_ssdt p m ssdt).1 x =
      (if 13 * min p.CountCPUs 255 + 4 ≤ 0x3e then
        put (put (put (put (put (put (write8 m (ssdt + 9) 0, ssdt + 36) 0x10)
          (13 * min p.CountCPUs 255 + 4 + 1))
          0x5F) 0x50) 0x52) 0x5F
      else
        put (put (put (put (put (put (put (write8 m (ssdt + 9) 0, ssdt + 36) 0x10) 0x7F)
          ((13 * min p.CountCPUs 255 + 4 + 2) >>> 6)) 0x5F) 0x50) 0x52) 0x5F).1 x := by
  unfold acpi_build_processor_ssdt
  simp only
  rw [acpi_build_table_header_frame _ _ _ _ _ _ _ (by omega), acpi_cpus_eq]
  by_cases hL : 13 * min p.CountCPUs 255 + 4 ≤ 0x3e
  · rw [if_pos hL] at h2 ⊢
    rw [if_pos hL]
    rw [ssdt_loop_frame _ _ _ _ (by simp only [put_snd]; omega)]
  · rw [if_neg hL] at h2 ⊢
    rw [if_neg hL]
    rw [ssdt_loop_frame _ _ _ _ (by simp only [put_snd]; omega)]

/-- The loop passes over skipped entries. -/
theorem find_resume_loop_skip (m : Mem) (rsdt end_ : Nat) (k : Nat) :
    ∀ (d fuel i : Nat), i + d = k → rsdt + 36 + 4 * k < end_ →
      (∀ j, i ≤ j → j < k → entry_skipped m rsdt j) →
      find_resume_loop m rsdt end_ (fuel + d) i = find_resume_loop m rsdt end_ fuel k := by
  intro d
  induction d with
  | zero =>
    intro fuel i hik _ _
    have : i = k := by omega
    subst this
    rfl
  | succ d ih =>
    intro fuel i hik hk hskip
    have h1 : fuel + (d + 1) = (fuel + d) + 1 := by omega
    rw [h1, find_resume_loop]
    have hs := hskip i (by omega) (by omega)
    unfold entry_skipped at hs
    rw [if_pos (by omega), if_pos hs]
    exact ih fuel (i + 1) (by omega) hk (fun j h1 h2 => hskip j (by omega) h2)

/-- The loop at a matching entry. -/
theorem find_resume_loop_match (m : Mem) (rsdt end_ fuel k : Nat)
    (hk : rsdt + 36 + 4 * k < end_) (hm : ¬ entry_skipped m rsdt k) :
    find_resume_loop m rsdt end_ (fuel + 1) k =
      if read32 m (read32 m (rsdt + 36 + 4 * k) + 36) = 0 ∨
          read32 m (read32 m (read32 m (rsdt + 36 + 4 * k) + 36)) ≠ FACS_SIGNATURE then
        some 0
      else
        some (read32 m (read32 m (read32 m (rsdt + 36 + 4 * k) + 36) + 12)) := by
  unfold entry_skipped at hm
  rw [find_resume_loop, if_pos hk, if_neg hm]

/-- The loop when every entry left is skipped. -/
theorem find_resume_loop_none (m : Mem) (rsdt end_ : Nat) :
    ∀ (fuel i : Nat), end_ ≤ rsdt + 36 + 4 * (i + fuel) →
      (∀ j, i ≤ j → rsdt + 36 + 4 * j < end_ → entry_skipped m rsdt j) →
      find_resume_loop m rsdt end_ (fuel + 1) i = some 0 := by
  intro fuel
  induction fuel with
  | zero =>
    intro i h _
    simp only [find_resume_loop]
    rw [if_neg (by omega)]
  | succ fuel ih =>
    intro i h hskip
    rw [find_resume_loop]
    by_cases hi : rsdt + 36 + 4 * i < end_
    · have hs := hskip i (by omega) hi
      unfold entry_skipped at hs
      rw [if_pos hi, if_pos hs]
      exact ih (i + 1) (by omega) (fun j h1 h2 => hskip j (by omega) h2)
    · rw [if_neg hi]

/-- The loop gives an answer when the fuel covers the entries left. -/
theorem find_resume_loop_isSome (m : Mem) (rsdt end_ : Nat) :
    ∀ (fuel i : Nat), end_ ≤ rsdt + 36 + 4 * (i + fuel) →
      (find_resume_loop m rsdt end_ (fuel + 1) i).isSome = true := by
  intro fuel
  induction fuel with
  | zero =>
    intro i h
    simp only [find_resume_loop]
    rw [if_neg (by omega)]
    rfl
  | succ fuel ih =>
    intro i h
    rw [find_resume_loop]
    split
    · simp only
      split
      · exact ih (i + 1) (by omega)
      · split <;> rfl
    · rfl

/-- The function `find_resume_vector` always returns: the fuel of the model is never
used up. -/
theorem find_resume_vector_isSome (s : State) : (find_resume_vector s).isSome = true := by
  unfold find_resume_vector
  by_cases h1 : s.RsdpAddr = 0 ∨ read64 s.mem s.RsdpAddr ≠ RSDP_SIGNATURE
  · rw [if_pos h1]
    rfl
  · rw [if_neg h1]
    by_cases h2 : read32 s.mem (s.RsdpAddr + 16) = 0 ∨
        read32 s.mem (read32 s.mem (s.RsdpAddr + 16)) ≠ RSDT_SIGNATURE
    · simp only [if_pos h2]
      rfl
    · simp only [if_neg h2]
      exact find_resume_loop_isSome _ _ _ _ _ (by omega)

/-- The resolver on an intact chain whose first matching entry is `k`. -/
theorem find_resume_vector_chain (s : State) (k : Nat)
    (h1 : s.RsdpAddr ≠ 0) (h2 : read64 s.mem s.RsdpAddr = RSDP_SIGNATURE)
    (h3 : read32 s.mem (s.RsdpAddr + 16) ≠ 0)
    (h4 : read32 s.mem (read32 s.mem (s.RsdpAddr + 16)) = RSDT_SIGNATURE)
    (hk : 36 + 4 * k < read32 s.mem (read32 s.mem (s.RsdpAddr + 16) + 4))
    (hskip : ∀ j, j < k → entry_skipped s.mem (read32 s.mem (s.RsdpAddr + 16)) j)
    (hm : ¬ entry_skipped s.mem (read32 s.mem (s.RsdpAddr + 16)) k) :
    find_resume_vector s =
      if read32 s.mem (read32 s.mem (read32 s.mem (s.RsdpAddr + 16) + 36 + 4 * k) + 36) = 0 ∨
          read32 s.mem (read32 s.mem
            (read32 s.mem (read32 s.mem (s.RsdpAddr + 16) + 36 + 4 * k) + 36)) ≠ FACS_SIGNATURE
      then some 0
      else some (read32 s.mem (read32 s.mem
            (read32 s.mem (read32 s.mem (s.RsdpAddr + 16) + 36 + 4 * k) + 36) + 12)) := by
  unfold find_resume_vector
  rw [if_neg (by simp [h1, h2])]
  simp only
  rw [if_neg (by simp [h3, h4])]
  have hfuel : read32 s.mem (read32 s.mem (s.RsdpAddr + 16) + 4) + 1
      = (read32 s.mem (read32 s.mem (s.RsdpAddr + 16) + 4) - k) + 1 + k := by omega
  rw [hfuel, find_resume_loop_skip _ _ _ k k _ 0 (by omega) (by omega)
    (fun j _ hj => hskip j hj)]
  exact find_resume_loop_match _ _ _ _ k (by omega) hm

/-- The resolver when the first matching entry `k` has no valid FACS behind it. -/
theorem find_resume_vector_bad_facs (s : State) (k : Nat)
    (hk : 36 + 4 * k < read32 s.mem (read32 s.mem (s.RsdpAddr + 16) + 4))
    (hskip : ∀ j, j < k → entry_skipped s.mem (read32 s.mem (s.RsdpAddr + 16)) j)
    (hm : ¬ entry_skipped s.mem (read32 s.mem (s.RsdpAddr + 16)) k)
    (hfacs : read32 s.mem (read32 s.mem
        (read32 s.mem (s.RsdpAddr + 16) + 36 + 4 * k) + 36) = 0 ∨
      read32 s.mem (read32 s.mem (read32 s.mem
        (read32 s.mem (s.RsdpAddr + 16) + 36 + 4 * k) + 36)) ≠ FACS_SIGNATURE) :
    find_resume_vector s = some 0 := by
  by_cases h1 : s.RsdpAddr = 0 ∨ read64 s.mem s.RsdpAddr ≠ RSDP_SIGNATURE
  · unfold find_resume_vector
    rw [if_pos h1]
  · by_cases h2 : read32 s.mem (s.RsdpAddr + 16) = 0 ∨
        read32 s.mem (read32 s.mem (s.RsdpAddr + 16)) ≠ RSDT_SIGNATURE
    · unfold find_resume_vector
      rw [if_neg h1]
      simp only [if_pos h2]
    · rw [not_or] at h1 h2
      rw [find_resume_vector_chain s k h1.1 (not_not.mp h1.2) h2.1 (not_not.mp h2.2) hk hskip hm,
        if_pos hfacs]

/-- The resolver when no entry in range matches. -/
theorem find_resume_vector_no_match (s : State)
    (hskip : ∀ j, 36 + 4 * j < read32 s.mem (read32 s.mem (s.RsdpAddr + 16) + 4) →
      entry_skipped s.mem (read32 s.mem (s.RsdpAddr + 16)) j) :
    find_resume_vector s = some 0 := by
  unfold find_resume_vector
  by_cases h1 : s.RsdpAddr = 0 ∨ read64 s.mem s.RsdpAddr ≠ RSDP_SIGNATURE
  · rw [if_pos h1]
  · rw [if_neg h1]
    by_cases h2 : read32 s.mem (s.RsdpAddr + 16) = 0 ∨
        read32 s.mem (read32 s.mem (s.RsdpAddr + 16)) ≠ RSDT_SIGNATURE
    · simp only [if_pos h2]
    · simp only [if_neg h2]
      exact find_resume_loop_none _ _ _ _ 0 (by omega) (fun j _ hj => hskip j (by omega))

theorem ovr_count_eq_filter (mask : Nat) (n i : Nat) :
    ovr_count mask n i = ((List.range' i n).filter (fun j => mask.testBit j)).length := by
  induction n generalizing i with
  | zero => rfl
  | succ n ih =>
    rw [ovr_count, List.range'_succ, List.filter_cons, ih]
    split <;> simp; omega

theorem ovr_count_sixteen (mask : Nat) : ovr_count mask 16 0 = popcount16 mask := by
  rw [ovr_count_eq_filter, popcount16, List.range_eq_range']

theorem ovr_count_le (mask : Nat) (n i : Nat) : ovr_count mask n i ≤ n := by
  induction n generalizing i with
  | zero => simp [ovr_count]
  | succ n ih =>
    rw [ovr_count]
    have := ih (i + 1)
    split <;> omega

theorem popcount16_le (mask : Nat) : popcount16 mask ≤ 16 := by
  rw [← ovr_count_sixteen]
  exact ovr_count_le mask 16 0

/-- The test `!(PCI_ISA_IRQ_MASK & (1 << i))` of the source reads bit `i` of the mask. -/
theorem mask_test (mask i : Nat) : mask &&& (1 <<< i) = 0 ↔ mask.testBit i = false := by
  rw [Nat.one_shiftLeft, Nat.and_two_pow]
  cases mask.testBit i <;> simp

/-! ### The processor loop of the MADT -/

theorem madt_cpu_loop_snd (n i : Nat) (s : Mem × Nat) :
    (madt_cpu_loop n i s).2 = s.2 + 8 * n := by
  induction n generalizing i s with
  | zero => rfl
  | succ n ih =>
    rw [madt_cpu_loop]
    rw [ih]
    simp only
    omega

theorem madt_cpu_loop_frame (n i : Nat) (s : Mem × Nat) (x : Nat)
    (hx : x < s.2 ∨ s.2 + 8 * n ≤ x) : (madt_cpu_loop n i s).1 x = s.1 x := by
  induction n generalizing i s with
  | zero => rfl
  | succ n ih =>
    rw [madt_cpu_loop]
    rw [ih _ _ (by simp only; omega)]
    simp only
    rw [write32_frame _ _ _ _ (by omega), write8_ne _ _ _ _ (by omega),
      write8_ne _ _ _ _ (by omega), write8_ne _ _ _ _ (by omega), write8_ne _ _ _ _ (by omega)]

/-- Every processor entry starts with the type 0 and the length 8. -/
theorem madt_cpu_loop_entry (n i : Nat) (s : Mem × Nat) (j : Nat) (hj : j < n) :
    read8 (madt_cpu_loop n i s).1 (s.2 + 8 * j) = 0 ∧
    read8 (madt_cpu_loop n i s).1 (s.2 + 8 * j + 1) = 8 := by
  induction n generalizing i s j with
  | zero => omega
  | succ n ih =>
    rw [madt_cpu_loop]
    cases j with
    | zero =>
      simp only [Nat.mul_zero, Nat.add_zero]
      constructor <;>
      · unfold read8
        rw [madt_cpu_loop_frame _ _ _ _ (by simp only; omega)]
        simp only [write32, write8, APIC_PROCESSOR]
        split_ifs <;> omega
    | succ j =>
      have h := ih (i + 1) (write32 (write8 (write8 (write8 (write8 s.1 s.2 APIC_PROCESSOR)
        (s.2 + 1) 8) (s.2 + 2) i) (s.2 + 3) i) (s.2 + 4) (cpu_to_le32 1), s.2 + 8) j (by omega)
      simp only at h
      have e : s.2 + 8 * (j + 1) = s.2 + 8 + 8 * j := by omega
      rw [e]
      exact h

/-- The processor loop keeps two memories equal where they were, and makes them equal
on the entries it writes. -/
theorem madt_cpu_loop_agree (n i : Nat) (m1 m2 : Mem) (apic x : Nat)
    (hx : m1 x = m2 x ∨ (apic ≤ x ∧ x < apic + 8 * n)) :
    (madt_cpu_loop n i (m1, apic)).1 x = (madt_cpu_loop n i (m2, apic)).1 x := by
  induction n generalizing i m1 m2 apic with
  | zero =>
    rcases hx with h | h
    · exact h
    · omega
  | succ n ih =>
    rw [madt_cpu_loop, madt_cpu_loop]
    apply ih
    by_cases hin : apic + 8 ≤ x ∧ x < apic + 8 + 8 * n
    · exact Or.inr hin
    · left
      simp only [write32, write8]
      split_ifs <;> first | rfl | omega

/-- One step of the override loop on a line the mask does not select. -/
theorem madt_ovr_loop_clear (mask n i : Nat) (s : Mem × Nat × Nat)
    (hb : mask.testBit i = false) :
    madt_ovr_loop mask (n + 1) i s = madt_ovr_loop mask n (i + 1) s := by
  rw [madt_ovr_loop, if_pos ((mask_test mask i).mpr hb)]

/-- One step of the override loop on a line the mask selects. -/
theorem madt_ovr_loop_set (mask n i : Nat) (s : Mem × Nat × Nat)
    (hb : mask.testBit i = true) :
    madt_ovr_loop mask (n + 1) i s = madt_ovr_loop mask n (i + 1)
      (write16 (write32 (write8 (write8 (write8 (memset s.1 s.2.1 0 10) s.2.1
        APIC_XRUPT_OVERRIDE) (s.2.1 + 1) 10) (s.2.1 + 3) i) (s.2.1 + 4) i) (s.2.1 + 8) 0xd,
        s.2.1 + 10, add32 s.2.2 10) := by
  rw [madt_ovr_loop, if_neg (by rw [mask_test]; simp [hb])]

theorem ovr_count_clear (mask n i : Nat) (hb : mask.testBit i = false) :
    ovr_count mask (n + 1) i = ovr_count mask n (i + 1) := by
  rw [ovr_count]; simp [hb]

theorem ovr_count_set (mask n i : Nat) (hb : mask.testBit i = true) :
    ovr_count mask (n + 1) i = 1 + ovr_count mask n (i + 1) := by
  rw [ovr_count]; simp [hb]

theorem madt_ovr_loop_ptr (mask n i : Nat) (s : Mem × Nat × Nat) :
    (madt_ovr_loop mask n i s).2.1 = s.2.1 + 10 * ovr_count mask n i := by
  induction n generalizing i s with
  | zero => rfl
  | succ n ih =>
    cases hb : mask.testBit i
    · rw [madt_ovr_loop_clear _ _ _ _ hb, ovr_count_clear _ _ _ hb, ih]
    · rw [madt_ovr_loop_set _ _ _ _ hb, ovr_count_set _ _ _ hb, ih]
      simp only
      omega

theorem madt_ovr_loop_size (mask n i : Nat) (s : Mem × Nat × Nat)
    (h : s.2.2 + 10 * n < 2 ^ 32) :
    (madt_ovr_loop mask n i s).2.2 = s.2.2 + 10 * ovr_count mask n i := by
  induction n generalizing i s with
  | zero => rfl
  | succ n ih =>
    cases hb : mask.testBit i
    · rw [madt_ovr_loop_clear _ _ _ _ hb, ovr_count_clear _ _ _ hb, ih _ _ (by omega)]
    · have e : add32 s.2.2 10 = s.2.2 + 10 := by
        unfold add32
        omega
      rw [madt_ovr_loop_set _ _ _ _ hb, ovr_count_set _ _ _ hb, ih _ _ (by simp only; omega)]
      simp only
      omega

theorem madt_ovr_loop_frame (mask n i : Nat) (s : Mem × Nat × Nat) (x : Nat)
    (hx : x < s.2.1 ∨ s.2.1 + 10 * ovr_count mask n i ≤ x) :
    (madt_ovr_loop mask n i s).1 x = s.1 x := by
  induction n generalizing i s with
  | zero => rfl
  | succ n ih =>
    cases hb : mask.testBit i
    · rw [madt_ovr_loop_clear _ _ _ _ hb]
      rw [ovr_count_clear _ _ _ hb] at hx
      exact ih _ _ hx
    · rw [madt_ovr_loop_set _ _ _ _ hb]
      rw [ovr_count_set _ _ _ hb] at hx
      rw [ih _ _ (by simp only; omega)]
      simp only
      rw [write16_frame _ _ _ _ (by omega), write32_frame _ _ _ _ (by omega),
        write8_ne _ _ _ _ (by omega), write8_ne _ _ _ _ (by omega),
        write8_ne _ _ _ _ (by omega), memset_frame _ _ _ _ _ (by omega)]

/-- Every override entry starts with the type 2 and the length 10. -/
theorem madt_ovr_loop_entry (mask n i : Nat) (s : Mem × Nat × Nat) (k : Nat)
    (hk : k < ovr_count mask n i) :
    read8 (madt_ovr_loop mask n i s).1 (s.2.1 + 10 * k) = 2 ∧
    read8 (madt_ovr_loop mask n i s).1 (s.2.1 + 10 * k + 1) = 10 := by
  induction n generalizing i s k with
  | zero => simp [ovr_count] at hk
  | succ n ih =>
    cases hb : mask.testBit i
    · rw [madt_ovr_loop_clear _ _ _ _ hb]
      rw [ovr_count_clear _ _ _ hb] at hk
      exact ih _ _ _ hk
    · rw [madt_ovr_loop_set _ _ _ _ hb]
      rw [ovr_count_set _ _ _ hb] at hk
      cases k with
      | zero =>
        simp only [Nat.mul_zero, Nat.add_zero]
        constructor <;>
        · unfold read8
          rw [madt_ovr_loop_frame _ _ _ _ _ (by simp only; omega)]
          simp only
          rw [write16_frame _ _ _ _ (by omega), write32_frame _ _ _ _ (by omega)]
          simp only [write8, APIC_XRUPT_OVERRIDE]
          split_ifs <;> omega
      | succ k =>
        have h := ih (i + 1) (write16 (write32 (write8 (write8 (write8 (memset s.1 s.2.1 0 10)
          s.2.1 APIC_XRUPT_OVERRIDE) (s.2.1 + 1) 10) (s.2.1 + 3) i) (s.2.1 + 4) i)
          (s.2.1 + 8) 0xd, s.2.1 + 10, add32 s.2.2 10) k (by omega)
        simp only at h
        have e : s.2.1 + 10 * (k + 1) = s.2.1 + 10 + 10 * k := by omega
        rw [e]
        exact h

/-- The override loop keeps two memories equal where they were, and makes them equal
on the entries it writes. -/
theorem madt_ovr_loop_agree (mask n i : Nat) (m1 m2 : Mem) (ptr sz x : Nat)
    (hx : m1 x = m2 x ∨ (ptr ≤ x ∧ x < ptr + 10 * ovr_count mask n i)) :
    (madt_ovr_loop mask n i (m1, ptr, sz)).1 x = (madt_ovr_loop mask n i (m2, ptr, sz)).1 x := by
  induction n generalizing i m1 m2 ptr sz with
  | zero =>
    rcases hx with h | h
    · exact h
    · simp [ovr_count] at h
      omega
  | succ n ih =>
    cases hb : mask.testBit i
    · rw [madt_ovr_loop_clear _ _ _ _ hb, madt_ovr_loop_clear _ _ _ _ hb]
      rw [ovr_count_clear _ _ _ hb] at hx
      exact ih _ _ _ _ _ hx
    · rw [madt_ovr_loop_set _ _ _ _ hb, madt_ovr_loop_set _ _ _ _ hb]
      rw [ovr_count_set _ _ _ hb] at hx
      simp only
      apply ih
      by_cases hin : ptr + 10 ≤ x ∧ x < ptr + 10 + 10 * ovr_count mask n (i + 1)
      · exact Or.inr hin
      · left
        by_cases hr : ptr ≤ x ∧ x < ptr + 10
        · have e1 : ∀ m : Mem, memset m ptr 0 10 x = 0 := fun m => by
            rw [memset_inside _ _ _ _ _ hr.1 hr.2]
          simp only [write16, write32, write8, e1]
        · have e1 : ∀ m : Mem, memset m ptr 0 10 x = m x := fun m => by
            rw [memset_frame _ _ _ _ _ (by omega)]
          have e2 : m1 x = m2 x := by
            rcases hx with h | h
            · exact h
            · omega
          simp only [write16, write32, write8, e1, e2]

theorem build_madt_eq (p : Platform) (m : Mem) (madt madt_size smp_cpus : Nat) :
    build_madt p m madt madt_size smp_cpus =
      acpi_build_table_header p (madt_body p m madt madt_size smp_cpus).1 madt APIC_SIGNATURE
        (madt_body p m madt madt_size smp_cpus).2.2 1 := rfl

/-! ### Stores keep two memories equal -/

theorem write8_agree (m1 m2 : Mem) (a v x : Nat) (h : m1 x = m2 x) :
    write8 m1 a v x = write8 m2 a v x := by
  simp only [write8, h]

theorem write16_agree (m1 m2 : Mem) (a v x : Nat) (h : m1 x = m2 x) :
    write16 m1 a v x = write16 m2 a v x := by
  simp only [write16, write8, h]

theorem write32_agree (m1 m2 : Mem) (a v x : Nat) (h : m1 x = m2 x) :
    write32 m1 a v x = write32 m2 a v x := by
  simp only [write32, write8, h]

theorem memcpy_agree (m1 m2 : Mem) (dst : Nat) (src : List Nat) (n x : Nat)
    (h : m1 x = m2 x) : memcpy m1 dst src n x = memcpy m2 dst src n x := by
  induction n with
  | zero => exact h
  | succ n ih => simp only [memcpy, write8, ih]

theorem memset_agree (m1 m2 : Mem) (a c n x : Nat)
    (h : m1 x = m2 x ∨ (a ≤ x ∧ x < a + n)) : memset m1 a c n x = memset m2 a c n x := by
  by_cases hin : a ≤ x ∧ x < a + n
  · rw [memset_inside _ _ _ _ _ hin.1 hin.2, memset_inside _ _ _ _ _ hin.1 hin.2]
  · rw [memset_frame _ _ _ _ _ (by omega), memset_frame _ _ _ _ _ (by omega)]
    rcases h with h | h
    · exact h
    · exact absurd h hin

/-- The header builder keeps two memories that are equal on the `len` bytes of the table
equal there. -/
theorem acpi_build_table_header_agree (p : Platform) (m1 m2 : Mem) (h sig len rev : Nat)
    (h9 : 9 < len) (h32 : len < 2 ^ 32)
    (hag : ∀ x, h ≤ x → x < h + len → m1 x = m2 x) :
    ∀ x, h ≤ x → x < h + len →
      acpi_build_table_header p m1 h sig len rev x = acpi_build_table_header p m2 h sig len rev x := by
  have hf : ∀ x, h ≤ x → x < h + len →
      write32 (write32 (write32 (memcpy (memcpy (memcpy (write8 (write32 (write32 m1 h sig)
        (h + 4) (cpu_to_le32 len)) (h + 8) rev) (h + 10) p.CONFIG_APPNAME6 6) (h + 16)
        p.CONFIG_APPNAME4 4) (h + 28) p.CONFIG_APPNAME4 4) (h + 16 + 4) sig) (h + 24)
        (cpu_to_le32 1)) (h + 32) (cpu_to_le32 1) x =
      write32 (write32 (write32 (memcpy (memcpy (memcpy (write8 (write32 (write32 m2 h sig)
        (h + 4) (cpu_to_le32 len)) (h + 8) rev) (h + 10) p.CONFIG_APPNAME6 6) (h + 16)
        p.CONFIG_APPNAME4 4) (h + 28) p.CONFIG_APPNAME4 4) (h + 16 + 4) sig) (h + 24)
        (cpu_to_le32 1)) (h + 32) (cpu_to_le32 1) x := by
    intro x hx1 hx2
    apply write32_agree; apply write32_agree; apply write32_agree
    apply memcpy_agree; apply memcpy_agree; apply memcpy_agree
    apply write8_agree; apply write32_agree; apply write32_agree
    exact hag x hx1 hx2
  intro x hx1 hx2
  unfold acpi_build_table_header
  simp only [Nat.mod_eq_of_lt h32]
  rw [checksum_congr _ _ h len (fun i hi => read8_congr _ _ _ (hf (h + i) (by omega) (by omega))),
    read8_congr _ _ _ (hf (h + 9) (by omega) (by omega))]
  apply write8_agree
  exact hf x hx1 hx2

theorem madt_body_size (p : Platform) (m : Mem) (madt madt_size N : Nat)
    (h : madt_size + 160 < 2 ^ 32) :
    (madt_body p m madt madt_size N).2.2 = madt_size + 10 * popcount16 p.irq_mask := by
  unfold madt_body
  simp only
  rw [madt_ovr_loop_size _ _ _ _ (by simp only; omega), ovr_count_sixteen]

theorem madt_body_frame (p : Platform) (m : Mem) (madt N x : Nat)
    (hx : x < madt ∨ madt + (56 + 8 * N) + 10 * popcount16 p.irq_mask ≤ x) :
    (madt_body p m madt (56 + 8 * N) N).1 x = m x := by
  unfold madt_body
  simp only [madt_cpu_loop_snd]
  rw [madt_ovr_loop_frame _ _ _ _ _ (by simp only [ovr_count_sixteen]; omega)]
  simp only
  rw [write32_frame _ _ _ _ (by omega), write32_frame _ _ _ _ (by omega),
    write8_ne _ _ _ _ (by omega), write8_ne _ _ _ _ (by omega), write8_ne _ _ _ _ (by omega),
    madt_cpu_loop_frame _ _ _ _ (by simp only; omega)]
  simp only
  rw [write32_frame _ _ _ _ (by omega), write32_frame _ _ _ _ (by omega),
    memset_frame _ _ _ _ _ (by omega)]

/-- The processor entries of the MADT. -/
theorem madt_body_cpu_entry (p : Platform) (m : Mem) (madt madt_size N j : Nat) (hj : j < N) :
    read8 (madt_body p m madt madt_size N).1 (madt + 44 + 8 * j) = 0 ∧
    read8 (madt_body p m madt madt_size N).1 (madt + 44 + 8 * j + 1) = 8 := by
  have h := madt_cpu_loop_entry N 0 (write32 (write32 (memset m madt 0 madt_size) (madt + 36)
    (cpu_to_le32 p.BUILD_APIC_ADDR)) (madt + 40) (cpu_to_le32 1), madt + 44) j hj
  simp only at h
  unfold madt_body
  simp only [madt_cpu_loop_snd]
  unfold read8 at h ⊢
  rw [madt_ovr_loop_frame _ _ _ _ _ (by simp only; omega),
    madt_ovr_loop_frame _ _ _ _ _ (by simp only; omega)]
  simp only
  rw [write32_frame _ _ _ _ (by omega), write32_frame _ _ _ _ (by omega),
    write8_ne _ _ _ _ (by omega), write8_ne _ _ _ _ (by omega), write8_ne _ _ _ _ (by omega),
    write32_frame _ _ _ _ (by omega), write32_frame _ _ _ _ (by omega),
    write8_ne _ _ _ _ (by omega), write8_ne _ _ _ _ (by omega), write8_ne _ _ _ _ (by omega)]
  exact h

/-- The controller entry of the MADT. -/
theorem madt_body_io_entry (p : Platform) (m : Mem) (madt madt_size N : Nat) :
    read8 (madt_body p m madt madt_size N).1 (madt + 44 + 8 * N) = 1 ∧
    read8 (madt_body p m madt madt_size N).1 (madt + 44 + 8 * N + 1) = 12 := by
  unfold madt_body
  simp only [madt_cpu_loop_snd]
  unfold read8
  rw [madt_ovr_loop_frame _ _ _ _ _ (by simp only; omega),
    madt_ovr_loop_frame _ _ _ _ _ (by simp only; omega)]
  simp only
  rw [write32_frame _ _ _ _ (by omega), write32_frame _ _ _ _ (by omega),
    write32_frame _ _ _ _ (by omega), write32_frame _ _ _ _ (by omega)]
  simp only [write8, APIC_IO]
  constructor <;> split_ifs <;> omega

/-- The override entries of the MADT. -/
theorem madt_body_ovr_entry (p : Platform) (m : Mem) (madt madt_size N k : Nat)
    (hk : k < popcount16 p.irq_mask) :
    read8 (madt_body p m madt madt_size N).1 (madt + 44 + 8 * N + 12 + 10 * k) = 2 ∧
    read8 (madt_body p m madt madt_size N).1 (madt + 44 + 8 * N + 12 + 10 * k + 1) = 10 := by
  unfold madt_body
  simp only [madt_cpu_loop_snd]
  rw [← ovr_count_sixteen] at hk
  exact madt_ovr_loop_entry p.irq_mask 16 0 _ k hk

/-- The bytes of the MADT do not depend on the memory it is built in. -/
theorem madt_body_agree (p : Platform) (m1 m2 : Mem) (madt N x : Nat)
    (h1 : madt ≤ x) (h2 : x < madt + (56 + 8 * N) + 10 * popcount16 p.irq_mask) :
    (madt_body p m1 madt (56 + 8 * N) N).1 x = (madt_body p m2 madt (56 + 8 * N) N).1 x := by
  unfold madt_body
  simp only [madt_cpu_loop_snd]
  apply madt_ovr_loop_agree
  rw [ovr_count_sixteen]
  by_cases hin : madt + 44 + 8 * N + 12 ≤ x
  · exact Or.inr ⟨hin, by omega⟩
  · left
    apply write32_agree; apply write32_agree
    apply write8_agree; apply write8_agree; apply write8_agree
    apply madt_cpu_loop_agree
    left
    apply write32_agree; apply write32_agree
    apply memset_agree
    exact Or.inr ⟨h1, by omega⟩

theorem walk_entries_end (m : Mem) (end_ fuel : Nat) :
    walk_entries m end_ fuel end_ = some [] := by
  cases fuel <;> simp [walk_entries]

/-- The walk over `k` entries of the same type and length. -/
theorem walk_entries_run (m : Mem) (end_ t len : Nat) (hlen : 2 ≤ len) :
    ∀ (k fuel a : Nat), a + len * k ≤ end_ →
      (∀ j, j < k → read8 m (a + len * j) = t ∧ read8 m (a + len * j + 1) = len) →
      walk_entries m end_ (fuel + k) a =
        (walk_entries m end_ fuel (a + len * k)).map (fun l => List.replicate k (t, len) ++ l) := by
  intro k
  induction k with
  | zero =>
    intro fuel a _ _
    simp
  | succ k ih =>
    intro fuel a ha hent
    have h0 := hent 0 (by omega)
    simp only [Nat.mul_zero, Nat.add_zero] at h0
    have hmul : len * (k + 1) = len + len * k := by ring
    have e : fuel + (k + 1) = (fuel + k) + 1 := by omega
    rw [e, walk_entries, if_neg (by omega), if_neg (by rw [h0.2]; omega), h0.1, h0.2,
      ih fuel (a + len) (by omega) (fun j hj => by
        have := hent (j + 1) (by omega)
        have e2 : a + len * (j + 1) = a + len + len * j := by ring
        rw [e2] at this
        exact this)]
    have e3 : a + len + len * k = a + len * (k + 1) := by ring
    rw [e3, Option.map_map]
    congr 1

theorem build_madt_frame36 (p : Platform) (m : Mem) (madt madt_size N x : Nat)
    (hx : x < madt ∨ madt + 36 ≤ x) :
    build_madt p m madt madt_size N x = (madt_body p m madt madt_size N).1 x := by
  rw [build_madt_eq, acpi_build_table_header_frame _ _ _ _ _ _ _ hx]

/-- The walk over the sub-entries of the MADT that `build_madt` leaves. -/
theorem build_madt_walk (p : Platform) (m : Mem) (madt N : Nat) (fuel : Nat) :
    walk_entries (build_madt p m madt (56 + 8 * N) N)
        (madt + (56 + 8 * N + 10 * popcount16 p.irq_mask))
        (fuel + popcount16 p.irq_mask + 1 + N) (madt + 44) =
      some (List.replicate N (0, 8) ++ (1, 12) :: List.replicate (popcount16 p.irq_mask) (2, 10)) := by
  have hr : ∀ x, madt + 36 ≤ x →
      read8 (build_madt p m madt (56 + 8 * N) N) x
        = read8 (madt_body p m madt (56 + 8 * N) N).1 x := fun x hx =>
    read8_congr _ _ _ (build_madt_frame36 p m madt _ N x (Or.inr hx))
  rw [walk_entries_run _ _ 0 8 (by omega) N _ (madt + 44) (by omega) (fun j hj => by
    rw [hr _ (by omega), hr _ (by omega)]
    exact madt_body_cpu_entry p m madt _ N j hj)]
  have hio := madt_body_io_entry p m madt (56 + 8 * N) N
  rw [← hr _ (by omega), ← hr _ (by omega)] at hio
  rw [walk_entries, if_neg (by omega), if_neg (by rw [hio.2]; omega), hio.1, hio.2]
  rw [walk_entries_run _ _ 2 10 (by omega) (popcount16 p.irq_mask) _ _ (by omega) (fun k hk => by
    have h := madt_body_ovr_entry p m madt (56 + 8 * N) N k hk
    rw [← hr _ (by omega), ← hr _ (by omega)] at h
    exact h)]
  have e : madt + 44 + 8 * N + 12 + 10 * popcount16 p.irq_mask
      = madt + (56 + 8 * N + 10 * popcount16 p.irq_mask) := by omega
  rw [e, walk_entries_end]
  simp

theorem build_madt_length (p : Platform) (m : Mem) (madt N : Nat)
    (h : 56 + 8 * N + 160 < 2 ^ 32) :
    read32 (build_madt p m madt (56 + 8 * N) N) (madt + 4)
      = 56 + 8 * N + 10 * popcount16 p.irq_mask := by
  have := popcount16_le p.irq_mask
  rw [build_madt_eq, acpi_build_table_header_length, madt_body_size _ _ _ _ _ h]
  omega

theorem build_madt_signature (p : Platform) (m : Mem) (madt madt_size N : Nat) :
    read32 (build_madt p m madt madt_size N) madt = APIC_SIGNATURE := by
  rw [build_madt_eq, acpi_build_table_header_signature]
  decide

theorem build_madt_checksum (p : Platform) (m : Mem) (madt N : Nat)
    (h : 56 + 8 * N + 160 < 2 ^ 32) :
    checksum (build_madt p m madt (56 + 8 * N) N) madt
      (56 + 8 * N + 10 * popcount16 p.irq_mask) = 0 := by
  have := popcount16_le p.irq_mask
  rw [build_madt_eq, madt_body_size _ _ _ _ _ h]
  exact acpi_build_table_header_checksum _ _ _ _ _ _ (by omega) (by omega)

theorem build_madt_frame (p : Platform) (m : Mem) (madt N x : Nat)
    (hx : x < madt ∨ madt + (56 + 8 * N) + 10 * popcount16 p.irq_mask ≤ x) :
    build_madt p m madt (56 + 8 * N) N x = m x := by
  rw [build_madt_frame36 _ _ _ _ _ _ (by omega), madt_body_frame _ _ _ _ _ hx]

/-- The bytes of the MADT do not depend on the memory it is built in. -/
theorem build_madt_agree (p : Platform) (m1 m2 : Mem) (madt N x : Nat)
    (h : 56 + 8 * N + 160 < 2 ^ 32)
    (h1 : madt ≤ x) (h2 : x < madt + (56 + 8 * N + 10 * popcount16 p.irq_mask)) :
    build_madt p m1 madt (56 + 8 * N) N x = build_madt p m2 madt (56 + 8 * N) N x := by
  have := popcount16_le p.irq_mask
  rw [build_madt_eq, build_madt_eq, madt_body_size _ _ _ _ _ h, madt_body_size _ _ _ _ _ h]
  exact acpi_build_table_header_agree p _ _ madt _ _ 1 (by omega) (by omega)
    (fun y hy1 hy2 => madt_body_agree p m1 m2 madt N y hy1 (by omega)) x h1 h2

theorem read32_write32_ne (m : Mem) (a v b : Nat) (h : b + 4 ≤ a ∨ a + 4 ≤ b) :
    read32 (write32 m a v) b = read32 m b :=
  read32_congr _ _ _ (fun i hi => write32_frame _ _ _ _ (by omega))

theorem read32_header_ne (p : Platform) (m : Mem) (h sig len rev b : Nat)
    (hb : b + 4 ≤ h ∨ h + 36 ≤ b) :
    read32 (acpi_build_table_header p m h sig len rev) b = read32 m b :=
  read32_congr _ _ _ (fun i hi => acpi_build_table_header_frame _ _ _ _ _ _ _ (by omega))

theorem read64_congr (m1 m2 : Mem) (a : Nat) (h : ∀ i, i < 8 → m1 (a + i) = m2 (a + i)) :
    read64 m1 a = read64 m2 a := by
  unfold read64
  rw [read32_congr m1 m2 a (fun i hi => h i (by omega)),
    read32_congr m1 m2 (a + 4) (fun i hi => by
      have := h (4 + i) (by omega)
      rw [← Nat.add_assoc] at this
      exact this)]

theorem read64_write64 (m : Mem) (a v : Nat) : read64 (write64 m a v) a = v % 2 ^ 64 := by
  unfold read64 write64
  rw [read32_write32, read32_congr _ (write32 m a v) a (fun i hi => write32_frame _ _ _ _ (by omega)),
    read32_write32]
  omega

/-! ### The Root Pointer -/

theorem build_rsdp_frame (p : Platform) (m : Mem) (rsdp rsdt_addr x : Nat)
    (hx : x < rsdp ∨ rsdp + 36 ≤ x) : build_rsdp p m rsdp rsdt_addr x = m x := by
  unfold build_rsdp sizeof_rsdp
  rw [write8_ne _ _ _ _ (by omega), write32_frame _ _ _ _ (by omega),
    memcpy_frame _ _ _ _ _ (by omega), write64_frame _ _ _ _ (by omega),
    memset_frame _ _ _ _ _ (by omega)]

theorem build_rsdp_signature (p : Platform) (m : Mem) (rsdp rsdt_addr : Nat) :
    read64 (build_rsdp p m rsdp rsdt_addr) rsdp = RSDP_SIGNATURE := by
  have h : read64 (build_rsdp p m rsdp rsdt_addr) rsdp
      = read64 (write64 (memset m rsdp 0 sizeof_rsdp) rsdp RSDP_SIGNATURE) rsdp := by
    apply read64_congr
    intro i hi
    unfold build_rsdp
    rw [write8_ne _ _ _ _ (by omega), write32_frame _ _ _ _ (by omega),
      memcpy_frame _ _ _ _ _ (by omega)]
  rw [h, read64_write64]
  decide

theorem build_rsdp_rsdt (p : Platform) (m : Mem) (rsdp rsdt_addr : Nat) :
    read32 (build_rsdp p m rsdp rsdt_addr) (rsdp + 16) = rsdt_addr % 2 ^ 32 := by
  rw [← read32_write32 (memcpy (write64 (memset m rsdp 0 sizeof_rsdp) rsdp RSDP_SIGNATURE)
    (rsdp + 9) p.CONFIG_APPNAME6 6) (rsdp + 16) rsdt_addr]
  apply read32_congr
  intro i hi
  unfold build_rsdp cpu_to_le32
  rw [write8_ne _ _ _ _ (by omega)]

/-! ### The RSDT -/

theorem build_rsdt_frame (p : Platform) (m : Mem) (rsdt a b c x : Nat)
    (hx : x < rsdt ∨ rsdt + 48 ≤ x) : build_rsdt p m rsdt a b c x = m x := by
  unfold build_rsdt
  rw [acpi_build_table_header_frame _ _ _ _ _ _ _ (by omega), write32_frame _ _ _ _ (by omega),
    write32_frame _ _ _ _ (by omega), write32_frame _ _ _ _ (by omega),
    memset_frame _ _ _ _ _ (by omega)]

theorem build_rsdt_signature (p : Platform) (m : Mem) (rsdt a b c : Nat) :
    read32 (build_rsdt p m rsdt a b c) rsdt = RSDT_SIGNATURE := by
  unfold build_rsdt
  rw [acpi_build_table_header_signature]
  decide

theorem build_rsdt_length (p : Platform) (m : Mem) (rsdt a b c : Nat) :
    read32 (build_rsdt p m rsdt a b c) (rsdt + 4) = 48 := by
  unfold build_rsdt
  rw [acpi_build_table_header_length]
  decide

theorem build_rsdt_checksum (p : Platform) (m : Mem) (rsdt a b c : Nat) :
    checksum (build_rsdt p m rsdt a b c) rsdt 48 = 0 := by
  unfold build_rsdt
  exact acpi_build_table_header_checksum _ _ _ _ _ _ (by omega) (by omega)

theorem build_rsdt_entries (p : Platform) (m : Mem) (rsdt a b c : Nat) :
    read32 (build_rsdt p m rsdt a b c) (rsdt + 36) = a % 2 ^ 32 ∧
    read32 (build_rsdt p m rsdt a b c) (rsdt + 40) = b % 2 ^ 32 ∧
    read32 (build_rsdt p m rsdt a b c) (rsdt + 44) = c % 2 ^ 32 := by
  unfold build_rsdt cpu_to_le32
  refine ⟨?_, ?_, ?_⟩
  · rw [read32_header_ne _ _ _ _ _ _ _ (by omega), read32_write32_ne _ _ _ _ (by omega),
      read32_write32_ne _ _ _ _ (by omega), read32_write32]
  · rw [read32_header_ne _ _ _ _ _ _ _ (by omega), read32_write32_ne _ _ _ _ (by omega),
      read32_write32]
  · rw [read32_header_ne _ _ _ _ _ _ _ (by omega), read32_write32]

/-! ### The FADT -/

theorem build_fadt_frame (p : Platform) (m : Mem) (fadt a b x : Nat)
    (hx : x < fadt ∨ fadt + 116 ≤ x) : build_fadt p m fadt a b x = m x := by
  unfold build_fadt
  rw [acpi_build_table_header_frame _ _ _ _ _ _ _ (by omega)]
  repeat (first
    | rw [write32_frame _ _ _ _ (by omega)]
    | rw [write16_frame _ _ _ _ (by omega)]
    | rw [write8_ne _ _ _ _ (by omega)])
  rw [memset_frame _ _ _ _ _ (by omega)]

theorem build_fadt_signature (p : Platform) (m : Mem) (fadt a b : Nat) :
    read32 (build_fadt p m fadt a b) fadt = FACP_SIGNATURE := by
  unfold build_fadt
  rw [acpi_build_table_header_signature]
  decide

theorem build_fadt_length (p : Platform) (m : Mem) (fadt a b : Nat) :
    read32 (build_fadt p m fadt a b) (fadt + 4) = 116 := by
  unfold build_fadt
  rw [acpi_build_table_header_length]
  decide

theorem build_fadt_checksum (p : Platform) (m : Mem) (fadt a b : Nat) :
    checksum (build_fadt p m fadt a b) fadt 116 = 0 := by
  unfold build_fadt
  exact acpi_build_table_header_checksum _ _ _ _ _ _ (by omega) (by omega)

theorem build_fadt_firmware_ctrl (p : Platform) (m : Mem) (fadt a b : Nat) :
    read32 (build_fadt p m fadt a b) (fadt + 36) = a % 2 ^ 32 := by
  rw [← read32_write32 (memset m fadt 0 116) (fadt + 36) a]
  apply read32_congr
  intro i hi
  unfold build_fadt cpu_to_le32
  rw [acpi_build_table_header_frame _ _ _ _ _ _ _ (by omega)]
  repeat (first
    | rw [write32_frame _ (fadt + 112) _ _ (by omega)]
    | rw [write32_frame _ (fadt + 76) _ _ (by omega)]
    | rw [write32_frame _ (fadt + 64) _ _ (by omega)]
    | rw [write32_frame _ (fadt + 56) _ _ (by omega)]
    | rw [write32_frame _ (fadt + 48) _ _ (by omega)]
    | rw [write32_frame _ (fadt + 40) _ _ (by omega)]
    | rw [write16_frame _ _ _ _ (by omega)]
    | rw [write8_ne _ _ _ _ (by omega)])

/-! ### The FACS and the DSDT -/

theorem build_facs_frame (m : Mem) (facs x : Nat) (hx : x < facs ∨ facs + 64 ≤ x) :
    build_facs m facs x = m x := by
  unfold build_facs
  rw [write32_frame _ _ _ _ (by omega), write32_frame _ _ _ _ (by omega),
    memset_frame _ _ _ _ _ (by omega)]

theorem build_facs_signature (m : Mem) (facs : Nat) :
    read32 (build_facs m facs) facs = FACS_SIGNATURE := by
  unfold build_facs
  rw [read32_write32_ne _ _ _ _ (by omega), read32_write32]
  decide

theorem build_facs_vector (m : Mem) (facs : Nat) :
    read32 (build_facs m facs) (facs + 12) = 0 := by
  unfold build_facs
  rw [read32_write32_ne _ _ _ _ (by omega), read32_write32_ne _ _ _ _ (by omega)]
  unfold read32 read8
  rw [memset_inside _ _ _ _ _ (by omega) (by omega), memset_inside _ _ _ _ _ (by omega) (by omega),
    memset_inside _ _ _ _ _ (by omega) (by omega), memset_inside _ _ _ _ _ (by omega) (by omega)]
  decide

theorem build_dsdt_frame (p : Platform) (m : Mem) (dsdt x : Nat)
    (hx : x < dsdt ∨ dsdt + p.AmlCode.length ≤ x) : build_dsdt p m dsdt x = m x := by
  unfold build_dsdt
  rw [memcpy_frame _ _ _ _ _ hx]

theorem acpi_bios_init_mem (p : Platform) (s : State)
    (h1 : p.CONFIG_ACPI = true) (h2 : 0 ≤ p.bdf) :
    (acpi_bios_init p s).mem =
      build_madt p (mem_dsdt p s) (acpi_layout p s).madt_addr (acpi_layout p s).madt_size
        (acpi_layout p s).smp_cpus := by
  unfold acpi_bios_init
  rw [if_neg (by simp [h1]), if_neg (by omega)]
  rfl

theorem acpi_bios_init_RsdpAddr (p : Platform) (s : State)
    (h1 : p.CONFIG_ACPI = true) (h2 : 0 ≤ p.bdf) :
    (acpi_bios_init p s).RsdpAddr = (acpi_layout p s).rsdp := by
  unfold acpi_bios_init
  rw [if_neg (by simp [h1]), if_neg (by omega)]

/-- The addresses of the layout when nothing wraps around. -/
theorem acpi_layout_addrs (p : Platform) (s : State)
    (ram : p.RamSize < 2 ^ 32) (base : p.CONFIG_ACPI_DATA_SIZE < p.RamSize)
    (fits : p.RamSize - p.CONFIG_ACPI_DATA_SIZE + tables_extent p ≤ 2 ^ 32) :
    (acpi_layout p s).rsdp = ALIGN s.bios_table_cur_addr 16 ∧
    (acpi_layout p s).rsdt_addr = p.RamSize - p.CONFIG_ACPI_DATA_SIZE ∧
    (acpi_layout p s).fadt_addr = p.RamSize - p.CONFIG_ACPI_DATA_SIZE + 48 ∧
    (acpi_layout p s).facs_addr = (p.RamSize - p.CONFIG_ACPI_DATA_SIZE + 48 + 116 + 63) / 64 * 64 ∧
    (acpi_layout p s).dsdt_addr = (acpi_layout p s).facs_addr + 64 ∧
    (acpi_layout p s).ssdt_addr = (acpi_layout p s).dsdt_addr + p.AmlCode.length ∧
    (acpi_layout p s).madt_addr
      = ((acpi_layout p s).ssdt_addr + ssdt_length p.CountCPUs + 7) / 8 * 8 ∧
    (acpi_layout p s).madt_size = 56 + 8 * p.CountCPUs ∧
    (acpi_layout p s).smp_cpus = p.CountCPUs ∧
    (acpi_layout p s).st.mem
      = (acpi_build_processor_ssdt p s.mem (acpi_layout p s).ssdt_addr).1 := by
  unfold tables_extent at fits
  have hb := ssdt_length_bounds p.CountCPUs
  have e0 : sub32 p.RamSize p.CONFIG_ACPI_DATA_SIZE = p.RamSize - p.CONFIG_ACPI_DATA_SIZE := by
    unfold sub32; omega
  have e1 : add32 (p.RamSize - p.CONFIG_ACPI_DATA_SIZE) 48
      = p.RamSize - p.CONFIG_ACPI_DATA_SIZE + 48 := by
    unfold add32; omega
  have e2 : add32 (p.RamSize - p.CONFIG_ACPI_DATA_SIZE + 48) 116
      = p.RamSize - p.CONFIG_ACPI_DATA_SIZE + 48 + 116 := by
    unfold add32; omega
  have e3 : ALIGN (p.RamSize - p.CONFIG_ACPI_DATA_SIZE + 48 + 116) 64
      = (p.RamSize - p.CONFIG_ACPI_DATA_SIZE + 48 + 116 + 63) / 64 * 64 := by
    unfold ALIGN
    rw [Nat.mod_eq_of_lt (by omega)]
  generalize hF : (p.RamSize - p.CONFIG_ACPI_DATA_SIZE + 48 + 116 + 63) / 64 * 64 = F at e3
  have hF1 : F ≤ p.RamSize - p.CONFIG_ACPI_DATA_SIZE + 48 + 116 + 63 := by omega
  have e4 : add32 F 64 = F + 64 := by
    unfold add32; omega
  have e5 : add32 (F + 64) p.AmlCode.length = F + 64 + p.AmlCode.length := by
    unfold add32; omega
  have e6 : add32 (F + 64 + p.AmlCode.length) (ssdt_length p.CountCPUs)
      = F + 64 + p.AmlCode.length + ssdt_length p.CountCPUs := by
    unfold add32; omega
  have e7 : ALIGN (F + 64 + p.AmlCode.length + ssdt_length p.CountCPUs) 8
      = (F + 64 + p.AmlCode.length + ssdt_length p.CountCPUs + 7) / 8 * 8 := by
    unfold ALIGN
    rw [Nat.mod_eq_of_lt (by omega)]
  have e8 : (44 + 8 * p.CountCPUs + 12) % 2 ^ 32 = 56 + 8 * p.CountCPUs := by omega
  simp only [acpi_layout, e0, e1, e2, e3, e4, e5, acpi_build_processor_ssdt_snd, e6, e7, e8]
  simp only [and_self]

/-- The order of the tables in a completed run. -/
theorem acpi_layout_order (p : Platform) (s : State) (h : Completed p s) :
    (acpi_layout p s).rsdp = ALIGN s.bios_table_cur_addr 16 ∧
    0 < (acpi_layout p s).rsdp ∧
    0 < (acpi_layout p s).rsdt_addr ∧
    (acpi_layout p s).rsdt_addr + 48 = (acpi_layout p s).fadt_addr ∧
    (acpi_layout p s).fadt_addr + 116 ≤ (acpi_layout p s).facs_addr ∧
    (acpi_layout p s).facs_addr + 64 = (acpi_layout p s).dsdt_addr ∧
    (acpi_layout p s).dsdt_addr + p.AmlCode.length = (acpi_layout p s).ssdt_addr ∧
    (acpi_layout p s).ssdt_addr + ssdt_length p.CountCPUs ≤ (acpi_layout p s).madt_addr ∧
    (acpi_layout p s).madt_addr + (56 + 8 * p.CountCPUs + 160) ≤ 2 ^ 32 ∧
    ((acpi_layout p s).rsdp + 36 ≤ (acpi_layout p s).rsdt_addr ∨
      (acpi_layout p s).madt_addr + (56 + 8 * p.CountCPUs + 160) ≤ (acpi_layout p s).rsdp) ∧
    (acpi_layout p s).madt_size = 56 + 8 * p.CountCPUs ∧
    (acpi_layout p s).smp_cpus = p.CountCPUs := by
  obtain ⟨e1, e2, e3, e4, e5, e6, e7, e8, e9, _⟩ :=
    acpi_layout_addrs p s h.ram h.base h.fits
  have hfit := h.fits
  have hbase := h.base
  have hnn := h.rsdp_nonnull
  have hap := h.rsdp_apart
  unfold tables_extent at hfit hap
  rw [e1, e7, e6, e5, e4, e3, e2, e8, e9]
  have hB : 0 < p.RamSize - p.CONFIG_ACPI_DATA_SIZE := by omega
  generalize p.RamSize - p.CONFIG_ACPI_DATA_SIZE = B at *
  generalize ssdt_length p.CountCPUs = L at *
  generalize p.AmlCode.length = D at *
  generalize ALIGN s.bios_table_cur_addr 16 = R at *
  generalize p.CountCPUs = N at *
  refine ⟨rfl, hnn, by omega, rfl, by omega, rfl, rfl, by omega, by omega, by omega, rfl, rfl⟩

theorem acpi_bios_init_mem_eq (p : Platform) (s : State) (h : Completed p s) :
    (acpi_bios_init p s).mem =
      build_madt p (mem_dsdt p s) (acpi_layout p s).madt_addr (56 + 8 * p.CountCPUs)
        p.CountCPUs := by
  obtain ⟨_, _, _, _, _, _, _, _, _, _, e1, e2⟩ := acpi_layout_order p s h
  rw [acpi_bios_init_mem p s h.config h.found, e1, e2]

/-- The bytes of the Root Pointer are those the block "RSDP" left. -/
theorem final_rsdp (p : Platform) (s : State) (h : Completed p s) (x : Nat)
    (h1 : (acpi_layout p s).rsdp ≤ x) (h2 : x < (acpi_layout p s).rsdp + 36) :
    (acpi_bios_init p s).mem x = mem_rsdp p s x := by
  obtain ⟨_, _, _, o1, o2, o3, o4, o5, o6, o7, _, _⟩ := acpi_layout_order p s h
  have hc := popcount16_le p.irq_mask
  have hb := ssdt_length_bounds p.CountCPUs
  rw [acpi_bios_init_mem_eq p s h, build_madt_frame _ _ _ _ _ (by omega)]
  unfold mem_dsdt
  rw [build_dsdt_frame _ _ _ _ (by omega)]
  unfold mem_facs
  rw [build_facs_frame _ _ _ (by omega)]
  unfold mem_fadt
  rw [build_fadt_frame _ _ _ _ _ _ (by omega)]
  unfold mem_rsdt
  rw [build_rsdt_frame _ _ _ _ _ _ _ (by omega)]

/-- The bytes of the RSDT are those the block "RSDT" left. -/
theorem final_rsdt (p : Platform) (s : State) (h : Completed p s) (x : Nat)
    (h1 : (acpi_layout p s).rsdt_addr ≤ x) (h2 : x < (acpi_layout p s).rsdt_addr + 48) :
    (acpi_bios_init p s).mem x = mem_rsdt p s x := by
  obtain ⟨_, _, _, o1, o2, o3, o4, o5, o6, o7, _, _⟩ := acpi_layout_order p s h
  have hc := popcount16_le p.irq_mask
  have hb := ssdt_length_bounds p.CountCPUs
  rw [acpi_bios_init_mem_eq p s h, build_madt_frame _ _ _ _ _ (by omega)]
  unfold mem_dsdt
  rw [build_dsdt_frame _ _ _ _ (by omega)]
  unfold mem_facs
  rw [build_facs_frame _ _ _ (by omega)]
  unfold mem_fadt
  rw [build_fadt_frame _ _ _ _ _ _ (by omega)]

/-- The bytes of the FADT are those the block "FADT" left. -/
theorem final_fadt (p : Platform) (s : State) (h : Completed p s) (x : Nat)
    (h1 : (acpi_layout p s).fadt_addr ≤ x) (h2 : x < (acpi_layout p s).fadt_addr + 116) :
    (acpi_bios_init p s).mem x = mem_fadt p s x := by
  obtain ⟨_, _, _, o1, o2, o3, o4, o5, o6, o7, _, _⟩ := acpi_layout_order p s h
  have hc := popcount16_le p.irq_mask
  have hb := ssdt_length_bounds p.CountCPUs
  rw [acpi_bios_init_mem_eq p s h, build_madt_frame _ _ _ _ _ (by omega)]
  unfold mem_dsdt
  rw [build_dsdt_frame _ _ _ _ (by omega)]
  unfold mem_facs
  rw [build_facs_frame _ _ _ (by omega)]

/-- The bytes of the FACS are those the block "FACS" left. -/
theorem final_facs (p : Platform) (s : State) (h : Completed p s) (x : Nat)
    (h1 : (acpi_layout p s).facs_addr ≤ x) (h2 : x < (acpi_layout p s).facs_addr + 64) :
    (acpi_bios_init p s).mem x = mem_facs p s x := by
  obtain ⟨_, _, _, o1, o2, o3, o4, o5, o6, o7, _, _⟩ := acpi_layout_order p s h
  have hc := popcount16_le p.irq_mask
  have hb := ssdt_length_bounds p.CountCPUs
  rw [acpi_bios_init_mem_eq p s h, build_madt_frame _ _ _ _ _ (by omega)]
  unfold mem_dsdt
  rw [build_dsdt_frame _ _ _ _ (by omega)]

/-- The bytes of the processor SSDT are those `acpi_build_processor_ssdt` left. -/
theorem final_ssdt (p : Platform) (s : State) (h : Completed p s) (x : Nat)
    (h1 : (acpi_layout p s).ssdt_addr ≤ x)
    (h2 : x < (acpi_layout p s).ssdt_addr + ssdt_length p.CountCPUs) :
    (acpi_bios_init p s).mem x = (acpi_layout p s).st.mem x := by
  obtain ⟨_, _, _, o1, o2, o3, o4, o5, o6, o7, _, _⟩ := acpi_layout_order p s h
  have hc := popcount16_le p.irq_mask
  have hb := ssdt_length_bounds p.CountCPUs
  rw [acpi_bios_init_mem_eq p s h, build_madt_frame _ _ _ _ _ (by omega)]
  unfold mem_dsdt
  rw [build_dsdt_frame _ _ _ _ (by omega)]
  unfold mem_facs
  rw [build_facs_frame _ _ _ (by omega)]
  unfold mem_fadt
  rw [build_fadt_frame _ _ _ _ _ _ (by omega)]
  unfold mem_rsdt
  rw [build_rsdt_frame _ _ _ _ _ _ _ (by omega)]
  unfold mem_rsdp
  rw [build_rsdp_frame _ _ _ _ _ (by omega)]

theorem checksum_eq_of_eq (m1 m2 : Mem) (a n : Nat)
    (h : ∀ x, a ≤ x → x < a + n → m1 x = m2 x) : checksum m1 a n = checksum m2 a n :=
  checksum_congr _ _ _ _ (fun i hi => read8_congr _ _ _ (h (a + i) (by omega) (by omega)))

theorem read32_eq_of_eq (m1 m2 : Mem) (a b n : Nat) (hb : a ≤ b) (hn : b + 4 ≤ a + n)
    (h : ∀ x, a ≤ x → x < a + n → m1 x = m2 x) : read32 m1 b = read32 m2 b :=
  read32_congr _ _ _ (fun i hi => h (b + i) (by omega) (by omega))

/-- The sample run completes. -/
theorem sample_completed : Completed (sample_platform 2 0x0220) sample_state :=
  ⟨by decide, by decide, by decide, by decide, by decide, by decide, by decide⟩

/-- The links of the table chain in the memory a completed run leaves. -/
theorem final_chain (p : Platform) (s : State) (h : Completed p s) :
    read64 (acpi_bios_init p s).mem (acpi_layout p s).rsdp = RSDP_SIGNATURE ∧
    read32 (acpi_bios_init p s).mem ((acpi_layout p s).rsdp + 16) = (acpi_layout p s).rsdt_addr ∧
    read32 (acpi_bios_init p s).mem (acpi_layout p s).rsdt_addr = RSDT_SIGNATURE ∧
    read32 (acpi_bios_init p s).mem ((acpi_layout p s).rsdt_addr + 4) = 48 ∧
    read32 (acpi_bios_init p s).mem ((acpi_layout p s).rsdt_addr + 36)
      = (acpi_layout p s).fadt_addr ∧
    read32 (acpi_bios_init p s).mem ((acpi_layout p s).rsdt_addr + 40)
      = (acpi_layout p s).madt_addr ∧
    read32 (acpi_bios_init p s).mem ((acpi_layout p s).rsdt_addr + 44)
      = (acpi_layout p s).ssdt_addr ∧
    read32 (acpi_bios_init p s).mem (acpi_layout p s).fadt_addr = FACP_SIGNATURE ∧
    read32 (acpi_bios_init p s).mem ((acpi_layout p s).fadt_addr + 36)
      = (acpi_layout p s).facs_addr ∧
    read32 (acpi_bios_init p s).mem (acpi_layout p s).facs_addr = FACS_SIGNATURE ∧
    read32 (acpi_bios_init p s).mem ((acpi_layout p s).facs_addr + 12) = 0 ∧
    read32 (acpi_bios_init p s).mem (acpi_layout p s).madt_addr = APIC_SIGNATURE ∧
    read32 (acpi_bios_init p s).mem (acpi_layout p s).ssdt_addr = SSDT_SIGNATURE := by
  obtain ⟨_, _, _, o1, o2, o3, o4, o5, o6, o7, o8, _⟩ := acpi_layout_order p s h
  obtain ⟨_, _, _, _, _, _, _, _, _, hmem⟩ := acpi_layout_addrs p s h.ram h.base h.fits
  have hb := ssdt_length_bounds p.CountCPUs
  have hent := build_rsdt_entries p (mem_rsdp p s) (acpi_layout p s).rsdt_addr
    (acpi_layout p s).fadt_addr (acpi_layout p s).madt_addr (acpi_layout p s).ssdt_addr
  refine ⟨?_, ?_, ?_, ?_, ?_, ?_, ?_, ?_, ?_, ?_, ?_, ?_, ?_⟩
  · rw [read64_congr _ (mem_rsdp p s) _ (fun i hi => final_rsdp p s h _ (by omega) (by omega))]
    exact build_rsdp_signature _ _ _ _
  · rw [read32_eq_of_eq _ (mem_rsdp p s) (acpi_layout p s).rsdp _ 36 (by omega) (by omega)
      (final_rsdp p s h)]
    unfold mem_rsdp
    rw [build_rsdp_rsdt]
    omega
  · rw [read32_eq_of_eq _ (mem_rsdt p s) (acpi_layout p s).rsdt_addr _ 48 (by omega) (by omega)
      (final_rsdt p s h)]
    exact build_rsdt_signature _ _ _ _ _ _
  · rw [read32_eq_of_eq _ (mem_rsdt p s) (acpi_layout p s).rsdt_addr _ 48 (by omega) (by omega)
      (final_rsdt p s h)]
    exact build_rsdt_length _ _ _ _ _ _
  · rw [read32_eq_of_eq _ (mem_rsdt p s) (acpi_layout p s).rsdt_addr _ 48 (by omega) (by omega)
      (final_rsdt p s h)]
    unfold mem_rsdt
    rw [hent.1]
    omega
  · rw [read32_eq_of_eq _ (mem_rsdt p s) (acpi_layout p s).rsdt_addr _ 48 (by omega) (by omega)
      (final_rsdt p s h)]
    unfold mem_rsdt
    rw [hent.2.1]
    omega
  · rw [read32_eq_of_eq _ (mem_rsdt p s) (acpi_layout p s).rsdt_addr _ 48 (by omega) (by omega)
      (final_rsdt p s h)]
    unfold mem_rsdt
    rw [hent.2.2]
    omega
  · rw [read32_eq_of_eq _ (mem_fadt p s) (acpi_layout p s).fadt_addr _ 116 (by omega) (by omega)
      (final_fadt p s h)]
    exact build_fadt_signature _ _ _ _ _
  · rw [read32_eq_of_eq _ (mem_fadt p s) (acpi_layout p s).fadt_addr _ 116 (by omega) (by omega)
      (final_fadt p s h)]
    unfold mem_fadt
    rw [build_fadt_firmware_ctrl]
    omega
  · rw [read32_eq_of_eq _ (mem_facs p s) (acpi_layout p s).facs_addr _ 64 (by omega) (by omega)
      (final_facs p s h)]
    exact build_facs_signature _ _
  · rw [read32_eq_of_eq _ (mem_facs p s) (acpi_layout p s).facs_addr _ 64 (by omega) (by omega)
      (final_facs p s h)]
    exact build_facs_vector _ _
  · rw [acpi_bios_init_mem_eq p s h]
    exact build_madt_signature _ _ _ _ _
  · rw [read32_eq_of_eq _ (acpi_layout p s).st.mem (acpi_layout p s).ssdt_addr _
      (ssdt_length p.CountCPUs) (by omega) (by omega) (final_ssdt p s h), hmem]
    exact acpi_build_processor_ssdt_signature _ _ _

/-- The scope opcode, the size field and the scope name of the processor SSDT. -/
theorem ssdt_size_field_bytes (p : Platform) (m : Mem) (ssdt : Nat) :
    let N := min p.CountCPUs 255
    let L := 13 * N + 4
    let out := (acpi_build_processor_ssdt p m ssdt).1
    read8 out (ssdt + 36) = 0x10 ∧
    if L + 1 ≤ 0x3E then
      read8 out (ssdt + 37) = L + 1 ∧
      read8 out (ssdt + 38) = 0x5F ∧ read8 out (ssdt + 39) = 0x50 ∧
      read8 out (ssdt + 40) = 0x52 ∧ read8 out (ssdt + 41) = 0x5F
    else
      read8 out (ssdt + 37) = 0x7F ∧ read8 out (ssdt + 38) = (L + 2) >>> 6 ∧
      read8 out (ssdt + 39) = 0x5F ∧ read8 out (ssdt + 40) = 0x50 ∧
      read8 out (ssdt + 41) = 0x52 ∧ read8 out (ssdt + 42) = 0x5F := by
  simp only
  have key := ssdt_scope_bytes p m ssdt
  have hN : min p.CountCPUs 255 ≤ 255 := Nat.min_le_right _ _
  have hsh : (13 * min p.CountCPUs 255 + 4 + 2) >>> 6 = (13 * min p.CountCPUs 255 + 4 + 2) / 64 := by
    rw [Nat.shiftRight_eq_div_pow]
  by_cases hL : 13 * min p.CountCPUs 255 + 4 ≤ 0x3e
  · have hL1 : 13 * min p.CountCPUs 255 + 4 + 1 ≤ 0x3E := by omega
    simp only [if_pos hL] at key
    rw [if_pos hL1]
    refine ⟨?_, ?_, ?_, ?_, ?_, ?_⟩ <;>
    · unfold read8
      rw [key _ (by omega) (by omega)]
      simp [put, write8]
      try omega
  · have hL1 : ¬ 13 * min p.CountCPUs 255 + 4 + 1 ≤ 0x3E := by omega
    simp only [if_neg hL] at key
    rw [if_neg hL1]
    refine ⟨?_, ?_, ?_, ?_, ?_, ?_, ?_⟩ <;>
    · unfold read8
      rw [key _ (by omega) (by omega)]
      simp [put, write8]
      try omega

/-- The resolver after a completed run, on any memory that differs from the one the run
left at most in the `firmware_waking_vector` field of the FACS. -/
theorem find_resume_vector_after_init (p : Platform) (s : State) (h : Completed p s)
    (m : Mem)
    (hsame : ∀ x, x < (acpi_layout p s).facs_addr + 12 ∨ (acpi_layout p s).facs_addr + 16 ≤ x →
      m x = (acpi_bios_init p s).mem x) :
    find_resume_vector { acpi_bios_init p s with mem := m }
      = some (read32 m ((acpi_layout p s).facs_addr + 12)) := by
  obtain ⟨_, o0, o00, o1, o2, o3, o4, o5, o6, o7, o8, _⟩ := acpi_layout_order p s h
  obtain ⟨c1, c2, c3, c4, c5, _, _, c8, c9, c10, _, _, _⟩ := final_chain p s h
  have hb := ssdt_length_bounds p.CountCPUs
  have r1 : read64 m (acpi_layout p s).rsdp = RSDP_SIGNATURE := by
    rw [read64_congr m _ _ (fun i hi => hsame _ (by omega))]
    exact c1
  have r2 : read32 m ((acpi_layout p s).rsdp + 16) = (acpi_layout p s).rsdt_addr := by
    rw [read32_congr m _ _ (fun i hi => hsame _ (by omega))]
    exact c2
  have r3 : read32 m (acpi_layout p s).rsdt_addr = RSDT_SIGNATURE := by
    rw [read32_congr m _ _ (fun i hi => hsame _ (by omega))]
    exact c3
  have r4 : read32 m ((acpi_layout p s).rsdt_addr + 4) = 48 := by
    rw [read32_congr m _ _ (fun i hi => hsame _ (by omega))]
    exact c4
  have r5 : read32 m ((acpi_layout p s).rsdt_addr + 36) = (acpi_layout p s).fadt_addr := by
    rw [read32_congr m _ _ (fun i hi => hsame _ (by omega))]
    exact c5
  have r6 : read32 m (acpi_layout p s).fadt_addr = FACP_SIGNATURE := by
    rw [read32_congr m _ _ (fun i hi => hsame _ (by omega))]
    exact c8
  have r7 : read32 m ((acpi_layout p s).fadt_addr + 36) = (acpi_layout p s).facs_addr := by
    rw [read32_congr m _ _ (fun i hi => hsame _ (by omega))]
    exact c9
  have r8 : read32 m (acpi_layout p s).facs_addr = FACS_SIGNATURE := by
    rw [read32_congr m _ _ (fun i hi => hsame _ (by omega))]
    exact c10
  have hR : (acpi_bios_init p s).RsdpAddr = (acpi_layout p s).rsdp :=
    acpi_bios_init_RsdpAddr p s h.config h.found
  unfold find_resume_vector
  simp only [hR, r1, r2, r3, r4]
  rw [if_neg (by omega), if_neg (by omega)]
  rw [find_resume_loop, if_pos (by omega)]
  simp only [Nat.mul_zero, Nat.add_zero, r5, r6, r7, r8]
  rw [if_neg (by omega), if_neg (by omega)]

/-- What the decoder reads in the size field that `acpi_build_processor_ssdt` emits. -/
theorem ssdt_size_field_decode (p : Platform) (m : Mem) (ssdt : Nat) :
    pkg_length_decode (acpi_build_processor_ssdt p m ssdt).1 (ssdt + 37) =
      if 13 * min p.CountCPUs 255 + 4 ≤ 0x3e then
        some (13 * min p.CountCPUs 255 + 4 + 1, 1)
      else
        some (15 + 16 * ((13 * min p.CountCPUs 255 + 4 + 2) / 64), 2) := by
  have hb := ssdt_size_field_bytes p m ssdt
  simp only at hb
  have hN : min p.CountCPUs 255 ≤ 255 := Nat.min_le_right _ _
  unfold pkg_length_decode
  by_cases hL : 13 * min p.CountCPUs 255 + 4 ≤ 0x3e
  · rw [if_pos (by omega)] at hb
    rw [if_pos hL]
    simp only [hb.2.1]
    have e1 : (13 * min p.CountCPUs 255 + 4 + 1) >>> 6 = 0 := by
      rw [Nat.shiftRight_eq_div_pow]
      omega
    have e2 : (13 * min p.CountCPUs 255 + 4 + 1) &&& 0x3f = 13 * min p.CountCPUs 255 + 4 + 1 := by
      have := Nat.and_pow_two_sub_one_eq_mod (13 * min p.CountCPUs 255 + 4 + 1) 6
      simp only [Nat.reducePow, Nat.reduceSub] at this
      rw [this]
      omega
    rw [if_pos e1, e2]
  · rw [if_neg (by omega)] at hb
    rw [if_neg hL]
    simp only [hb.2.1, hb.2.2.1]
    rw [if_neg (by decide), if_pos (by decide)]
    have e1 : (0x7F : Nat) &&& 0x0f = 15 := by decide
    rw [e1, Nat.shiftLeft_eq, Nat.shiftRight_eq_div_pow]
    have e2 : (13 * min p.CountCPUs 255 + 4 + 2) / 2 ^ 6 * 2 ^ 4
        = 16 * ((13 * min p.CountCPUs 255 + 4 + 2) / 64) := by omega
    rw [e2]

set_option maxRecDepth 100000 in
theorem high_nibble_test : ∀ i, i < 256 → ((i &&& 0xf0 ≠ 0) ↔ 16 ≤ i) := by decide

theorem shift_four (i : Nat) : i >>> 4 = i / 16 := by
  rw [Nat.shiftRight_eq_div_pow]

theorem and_fifteen (i : Nat) : i &&& 0xf = i % 16 := by
  have := Nat.and_pow_two_sub_one_eq_mod i 4
  simpa using this

theorem put_list_snd (l : List Nat) (s : Mem × Nat) : (put_list s l).2 = s.2 + l.length := by
  induction l generalizing s with
  | nil => rfl
  | cons a t ih =>
    show (put_list (put s a) t).2 = _
    rw [ih, put_snd, List.length_cons]
    omega

theorem put_list_below (l : List Nat) (s : Mem × Nat) (x : Nat) (hx : x < s.2) :
    (put_list s l).1 x = s.1 x := by
  induction l generalizing s with
  | nil => rfl
  | cons a t ih =>
    show (put_list (put s a) t).1 x = _
    rw [ih _ (by rw [put_snd]; omega), put_fst, write8_ne _ _ _ _ (by omega)]

theorem put_list_get (l : List Nat) (s : Mem × Nat) (k : Nat) (hk : k < l.length) :
    (put_list s l).1 (s.2 + k) = l.getD k 0 % 256 := by
  induction l generalizing s k with
  | nil => simp at hk
  | cons a t ih =>
    show (put_list (put s a) t).1 (s.2 + k) = _
    cases k with
    | zero =>
      rw [put_list_below _ _ _ (by rw [put_snd]; omega), put_fst]
      simp [write8]
    | succ k =>
      have h := ih (put s a) k (by simpa using hk)
      rw [put_snd] at h
      have e : s.2 + (k + 1) = s.2 + 1 + k := by omega
      rw [e, h]
      simp

/-- The body of the loop is a run of thirteen stores. -/
theorem ssdt_processor_eq (i : Nat) (s : Mem × Nat) :
    ssdt_processor i s = put_list s
      [0x5B, 0x83, 0x0B, 0x43, 0x50,
        if i &&& 0xf0 ≠ 0 then (if i >>> 4 < 0xa then (i >>> 4) + 0x30 else (i >>> 4) + 0x41 - 0xa)
        else 0x55,
        if i &&& 0xf < 0xa then (i &&& 0xf) + 0x30 else (i &&& 0xf) + 0x41 - 0xa,
        i, 0x10, 0xb0, 0, 0, 6] := by
  unfold ssdt_processor
  by_cases h : i &&& 0xf0 ≠ 0
  · simp only [if_pos h]
    rfl
  · simp only [if_neg h]
    rfl

/-- The bytes the body of the loop writes for the processor `i`. -/
theorem ssdt_processor_bytes (i : Nat) (s : Mem × Nat) (hi : i < 256) (k : Nat) (hk : k < 13) :
    read8 (ssdt_processor i s).1 (s.2 + k) = (processor_object i).getD k 0 := by
  have hl : [0x5B, 0x83, 0x0B, 0x43, 0x50,
        if i &&& 0xf0 ≠ 0 then (if i >>> 4 < 0xa then (i >>> 4) + 0x30 else (i >>> 4) + 0x41 - 0xa)
        else 0x55,
        if i &&& 0xf < 0xa then (i &&& 0xf) + 0x30 else (i &&& 0xf) + 0x41 - 0xa,
        i, 0x10, 0xb0, 0, 0, 6] = processor_object i := by
    unfold processor_object hex_digit
    rw [shift_four, and_fifteen]
    by_cases h16 : 16 ≤ i
    · have h1 : i &&& 0xf0 ≠ 0 := (high_nibble_test i hi).mpr h16
      have h2 : ¬ i < 16 := by omega
      rw [if_pos h1, if_neg h2]
      congr 6
      · split <;> omega
      · congr 1
        split <;> omega
    · have h1 : ¬ (i &&& 0xf0 ≠ 0) := fun h => h16 ((high_nibble_test i hi).mp h)
      have h2 : i < 16 := by omega
      rw [if_neg h1, if_pos h2]
      congr 7
      split <;> omega
  have hb : ∀ k, k < 13 → (processor_object i).getD k 0 < 256 := by
    intro k hk
    unfold processor_object hex_digit
    interval_cases k <;> simp <;> first | omega | (split_ifs <;> omega)
  rw [ssdt_processor_eq, hl]
  unfold read8
  rw [put_list_get _ _ _ (by simpa [processor_object] using hk)]
  have := hb k hk
  omega

/-- The bytes the loop writes for each processor. -/
theorem ssdt_loop_bytes (n i0 : Nat) (s : Mem × Nat) (h : i0 + n ≤ 256) (j : Nat) (hj : j < n)
    (k : Nat) (hk : k < 13) :
    read8 (ssdt_loop n i0 s).1 (s.2 + 13 * j + k) = (processor_object (i0 + j)).getD k 0 := by
  induction n generalizing i0 s j with
  | zero => omega
  | succ n ih =>
    rw [ssdt_loop]
    cases j with
    | zero =>
      unfold read8
      rw [ssdt_loop_frame _ _ _ _ (by rw [ssdt_processor_snd]; omega)]
      have := ssdt_processor_bytes i0 s (by omega) k hk
      unfold read8 at this
      simpa using this
    | succ j =>
      have h1 := ih (i0 + 1) (ssdt_processor i0 s) (by omega) j (by omega)
      rw [ssdt_processor_snd] at h1
      have e1 : s.2 + 13 * (j + 1) + k = s.2 + 13 + 13 * j + k := by omega
      have e2 : i0 + (j + 1) = i0 + 1 + j := by omega
      rw [e1, e2]
      exact h1

theorem ssdt_length_eq (cpus : Nat) :
    ssdt_length cpus = 36 + 1 + size_field_width cpus + 4 + 13 * min cpus 255 := rfl

/-- The processor objects of the table `acpi_build_processor_ssdt` builds. -/
theorem ssdt_object_bytes (p : Platform) (m : Mem) (ssdt : Nat) (i : Nat)
    (hi : i < min p.CountCPUs 255) (k : Nat) (hk : k < 13) :
    read8 (acpi_build_processor_ssdt p m ssdt).1
        (ssdt + 36 + 1 + size_field_width p.CountCPUs + 4 + 13 * i + k)
      = (processor_object i).getD k 0 := by
  have hN : min p.CountCPUs 255 ≤ 255 := Nat.min_le_right _ _
  have hw : size_field_width p.CountCPUs = 1 ∨ size_field_width p.CountCPUs = 2 := by
    unfold size_field_width
    split <;> simp
  unfold read8
  unfold acpi_build_processor_ssdt
  simp only
  rw [acpi_build_table_header_frame _ _ _ _ _ _ _ (by omega), acpi_cpus_eq]
  unfold size_field_width
  by_cases hL : 13 * min p.CountCPUs 255 + 4 ≤ 0x3e
  · rw [if_pos hL, if_pos hL]
    have h := ssdt_loop_bytes (min p.CountCPUs 255) 0
      (put (put (put (put (put (put (write8 m (ssdt + 9) 0, ssdt + 36) 0x10)
        (13 * min p.CountCPUs 255 + 4 + 1)) 0x5F) 0x50) 0x52) 0x5F) (by omega) i hi k hk
    simp only [put_snd, Nat.zero_add] at h
    unfold read8 at h
    exact h
  · rw [if_neg hL, if_neg hL]
    have h := ssdt_loop_bytes (min p.CountCPUs 255) 0
      (put (put (put (put (put (put (put (write8 m (ssdt + 9) 0, ssdt + 36) 0x10) 0x7F)
        ((13 * min p.CountCPUs 255 + 4 + 2) >>> 6)) 0x5F) 0x50) 0x52) 0x5F) (by omega) i hi k hk
    simp only [put_snd, Nat.zero_add] at h
    unfold read8 at h
    exact h

theorem acpi_build_table_header_eq (p : Platform) (m : Mem) (h sig len rev : Nat) :
    acpi_build_table_header p m h sig len rev =
      write8 (header_fields p m h sig len rev) (h + 9)
        (read8 (header_fields p m h sig len rev) (h + 9) + 256
          - checksum (header_fields p m h sig len rev) h (len % 2 ^ 32)) := rfl

theorem write8_agree2 (m1 m2 : Mem) (a v x : Nat) (h : x ≠ a → m1 x = m2 x) :
    write8 m1 a v x = write8 m2 a v x := by
  by_cases hx : x = a
  · simp [write8, hx]
  · rw [write8_ne _ _ _ _ hx, write8_ne _ _ _ _ hx]
    exact h hx

theorem write32_agree2 (m1 m2 : Mem) (a v x : Nat)
    (h : ¬ (a ≤ x ∧ x < a + 4) → m1 x = m2 x) : write32 m1 a v x = write32 m2 a v x := by
  unfold write32
  apply write8_agree2; intro c1
  apply write8_agree2; intro c2
  apply write8_agree2; intro c3
  apply write8_agree2; intro c4
  exact h (by omega)

theorem memcpy_agree2 (m1 m2 : Mem) (dst : Nat) (src : List Nat) (n x : Nat)
    (h : ¬ (dst ≤ x ∧ x < dst + n) → m1 x = m2 x) :
    memcpy m1 dst src n x = memcpy m2 dst src n x := by
  by_cases hin : dst ≤ x ∧ x < dst + n
  · rw [memcpy_inside _ _ _ _ _ hin.1 hin.2, memcpy_inside _ _ _ _ _ hin.1 hin.2]
  · rw [memcpy_frame _ _ _ _ _ (by omega), memcpy_frame _ _ _ _ _ (by omega)]
    exact h hin

/-- With the checksum byte cleared, the header over two memories that agree on the body
is the same on the whole table. -/
theorem header_fields_cleared_agree (p : Platform) (m1 m2 : Mem) (h sig len rev : Nat)
    (hag : ∀ x, h + 36 ≤ x → x < h + len → m1 x = m2 x) (x : Nat)
    (hx1 : h ≤ x) (hx2 : x < h + len) :
    write8 (header_fields p m1 h sig len rev) (h + 9) 0 x
      = write8 (header_fields p m2 h sig len rev) (h + 9) 0 x := by
  unfold header_fields
  apply write8_agree2; intro c0
  apply write32_agree2; intro c1
  apply write32_agree2; intro c2
  apply write32_agree2; intro c3
  apply memcpy_agree2; intro c4
  apply memcpy_agree2; intro c5
  apply memcpy_agree2; intro c6
  apply write8_agree2; intro c7
  apply write32_agree2; intro c8
  apply write32_agree2; intro c9
  exact hag x (by omega) hx2

/-- The checksum byte the header builder stores does not depend on the one it finds. -/
theorem header_checksum_byte (m : Mem) (h len : Nat) (h9 : 9 < len) :
    (read8 m (h + 9) + 256 - checksum m h len) % 256
      = (256 - checksum (write8 m (h + 9) 0) h len) % 256 := by
  rw [checksum_write8 m h len (h + 9) 0 (by omega) (by omega)]
  have := checksum_lt m h len
  have := read8_lt m (h + 9)
  omega

/-- The result of the header builder on the table depends on the body only. -/
theorem acpi_build_table_header_indep (p : Platform) (m1 m2 : Mem) (h sig len rev : Nat)
    (h36 : 36 ≤ len) (h32 : len < 2 ^ 32)
    (hag : ∀ x, h + 36 ≤ x → x < h + len → m1 x = m2 x) (x : Nat)
    (hx1 : h ≤ x) (hx2 : x < h + len) :
    acpi_build_table_header p m1 h sig len rev x = acpi_build_table_header p m2 h sig len rev x := by
  have hB := header_fields_cleared_agree p m1 m2 h sig len rev hag
  rw [acpi_build_table_header_eq, acpi_build_table_header_eq, Nat.mod_eq_of_lt h32]
  by_cases hx : x = h + 9
  · subst hx
    simp only [write8, if_true]
    rw [header_checksum_byte _ h len (by omega), header_checksum_byte _ h len (by omega),
      checksum_eq_of_eq _ _ h len hB]
  · have := hB x hx1 hx2
    rw [write8_ne _ _ _ _ hx, write8_ne _ _ _ _ hx] at this
    rw [write8_ne _ _ _ _ hx, write8_ne _ _ _ _ hx]
    exact this

theorem acpi_build_processor_ssdt_eq (p : Platform) (m : Mem) (ssdt : Nat) :
    acpi_build_processor_ssdt p m ssdt =
      (acpi_build_table_header p (ssdt_body p m ssdt).1 ssdt SSDT_SIGNATURE
        ((ssdt_body p m ssdt).2 - ssdt) 1, (ssdt_body p m ssdt).2 - ssdt) := rfl

/-- The stores before the loop, as one run. -/
theorem ssdt_body_eq (p : Platform) (m : Mem) (ssdt : Nat) :
    ssdt_body p m ssdt = ssdt_loop (min p.CountCPUs 255) 0
      (put_list (write8 m (ssdt + 9) 0, ssdt + 36)
        (if 13 * min p.CountCPUs 255 + 4 ≤ 0x3e then
          [0x10, 13 * min p.CountCPUs 255 + 4 + 1, 0x5F, 0x50, 0x52, 0x5F]
        else
          [0x10, 0x7F, (13 * min p.CountCPUs 255 + 4 + 2) >>> 6, 0x5F, 0x50, 0x52, 0x5F])) := by
  unfold ssdt_body
  simp only [acpi_cpus_eq]
  by_cases hL : 13 * min p.CountCPUs 255 + 4 ≤ 0x3e
  · simp only [if_pos hL]
    rfl
  · simp only [if_neg hL]
    rfl

theorem ssdt_body_snd (p : Platform) (m : Mem) (ssdt : Nat) :
    (ssdt_body p m ssdt).2 = ssdt + ssdt_length p.CountCPUs := by
  rw [ssdt_body_eq, ssdt_loop_snd, put_list_snd]
  unfold ssdt_length
  split <;> simp <;> omega

theorem put_list_agree (l : List Nat) (m1 m2 : Mem) (ptr x : Nat)
    (h : m1 x = m2 x ∨ (ptr ≤ x ∧ x < ptr + l.length)) :
    (put_list (m1, ptr) l).1 x = (put_list (m2, ptr) l).1 x := by
  induction l generalizing m1 m2 ptr with
  | nil =>
    rcases h with h | h
    · exact h
    · simp at h
      omega
  | cons a t ih =>
    show (put_list (write8 m1 ptr a, ptr + 1) t).1 x = (put_list (write8 m2 ptr a, ptr + 1) t).1 x
    apply ih
    rw [List.length_cons] at h
    by_cases hin : ptr + 1 ≤ x ∧ x < ptr + 1 + t.length
    · exact Or.inr hin
    · left
      apply write8_agree2
      intro hne
      rcases h with h | h
      · exact h
      · omega

theorem put_list_eta (s : Mem × Nat) (l : List Nat) : put_list s l = put_list (s.1, s.2) l := rfl

theorem ssdt_loop_agree (n i : Nat) (m1 m2 : Mem) (ptr x : Nat)
    (h : m1 x = m2 x ∨ (ptr ≤ x ∧ x < ptr + 13 * n)) :
    (ssdt_loop n i (m1, ptr)).1 x = (ssdt_loop n i (m2, ptr)).1 x := by
  induction n generalizing i m1 m2 ptr with
  | zero =>
    rcases h with h | h
    · exact h
    · omega
  | succ n ih =>
    rw [ssdt_loop, ssdt_loop, ssdt_processor_eq, ssdt_processor_eq]
    have e1 := put_list_snd [0x5B, 0x83, 0x0B, 0x43, 0x50,
        if i &&& 0xf0 ≠ 0 then (if i >>> 4 < 0xa then (i >>> 4) + 0x30 else (i >>> 4) + 0x41 - 0xa)
        else 0x55,
        if i &&& 0xf < 0xa then (i &&& 0xf) + 0x30 else (i &&& 0xf) + 0x41 - 0xa,
        i, 0x10, 0xb0, 0, 0, 6] (m1, ptr)
    have e2 := put_list_snd [0x5B, 0x83, 0x0B, 0x43, 0x50,
        if i &&& 0xf0 ≠ 0 then (if i >>> 4 < 0xa then (i >>> 4) + 0x30 else (i >>> 4) + 0x41 - 0xa)
        else 0x55,
        if i &&& 0xf < 0xa then (i &&& 0xf) + 0x30 else (i &&& 0xf) + 0x41 - 0xa,
        i, 0x10, 0xb0, 0, 0, 6] (m2, ptr)
    simp only [List.length_cons, List.length_nil] at e1 e2
    generalize hs1 : put_list (m1, ptr) _ = s1 at e1 ⊢
    generalize hs2 : put_list (m2, ptr) _ = s2 at e2 ⊢
    obtain ⟨a1, q1⟩ := s1
    obtain ⟨a2, q2⟩ := s2
    simp only at e1 e2
    subst e1 e2
    apply ih
    by_cases hin : ptr + 13 ≤ x ∧ x < ptr + 13 + 13 * n
    · exact Or.inr (by omega)
    · left
      have := put_list_agree [0x5B, 0x83, 0x0B, 0x43, 0x50,
        if i &&& 0xf0 ≠ 0 then (if i >>> 4 < 0xa then (i >>> 4) + 0x30 else (i >>> 4) + 0x41 - 0xa)
        else 0x55,
        if i &&& 0xf < 0xa then (i &&& 0xf) + 0x30 else (i &&& 0xf) + 0x41 - 0xa,
        i, 0x10, 0xb0, 0, 0, 6] m1 m2 ptr x (by
          simp only [List.length_cons, List.length_nil]
          rcases h with h | h
          · exact Or.inl h
          · exact Or.inr (by omega))
      rw [hs1, hs2] at this
      exact this

/-- The bytes of the processor SSDT do not depend on the memory it is built in. -/
theorem acpi_build_processor_ssdt_indep (p : Platform) (m1 m2 : Mem) (ssdt x : Nat)
    (hx1 : ssdt ≤ x) (hx2 : x < ssdt + ssdt_length p.CountCPUs) :
    (acpi_build_processor_ssdt p m1 ssdt).1 x = (acpi_build_processor_ssdt p m2 ssdt).1 x := by
  have hb := ssdt_length_bounds p.CountCPUs
  rw [acpi_build_processor_ssdt_eq, acpi_build_processor_ssdt_eq, ssdt_body_snd, ssdt_body_snd]
  simp only [Nat.add_sub_cancel_left]
  apply acpi_build_table_header_indep p _ _ ssdt _ _ 1 (by omega) (by omega) _ x hx1 hx2
  intro y hy1 hy2
  rw [ssdt_body_eq, ssdt_body_eq]
  generalize hl : (if 13 * min p.CountCPUs 255 + 4 ≤ 0x3e then
          [0x10, 13 * min p.CountCPUs 255 + 4 + 1, 0x5F, 0x50, 0x52, 0x5F]
        else
          [0x10, 0x7F, (13 * min p.CountCPUs 255 + 4 + 2) >>> 6, 0x5F, 0x50, 0x52, 0x5F]) = l
  have hlen : l.length = 1 + size_field_width p.CountCPUs + 4 := by
    rw [← hl]
    unfold size_field_width
    split <;> rfl
  have e1 := put_list_snd l (write8 m1 (ssdt + 9) 0, ssdt + 36)
  have e2 := put_list_snd l (write8 m2 (ssdt + 9) 0, ssdt + 36)
  have hag := put_list_agree l (write8 m1 (ssdt + 9) 0) (write8 m2 (ssdt + 9) 0) (ssdt + 36) y
  generalize put_list (write8 m1 (ssdt + 9) 0, ssdt + 36) l = s1 at e1 hag ⊢
  generalize put_list (write8 m2 (ssdt + 9) 0, ssdt + 36) l = s2 at e2 hag ⊢
  obtain ⟨a1, q1⟩ := s1
  obtain ⟨a2, q2⟩ := s2
  simp only at e1 e2 hag
  subst e1 e2
  apply ssdt_loop_agree
  rw [ssdt_length_eq] at hy2
  by_cases hin : ssdt + 36 + l.length ≤ y
  · exact Or.inr ⟨hin, by omega⟩
  · exact Or.inl (hag (Or.inr ⟨hy1, by omega⟩))

theorem hex_digit_inj (a b : Nat) (ha : a < 16) (hb : b < 16)
    (h : hex_digit a = hex_digit b) : a = b := by
  unfold hex_digit at h
  split_ifs at h <;> omega

/-- The name of a processor object determines its index. -/
theorem processor_name_inj (i j : Nat) (hi : i < 256) (hj : j < 256)
    (hX : (if i < 16 then 0x55 else hex_digit (i / 16))
      = (if j < 16 then 0x55 else hex_digit (j / 16)))
    (hY : hex_digit (i % 16) = hex_digit (j % 16)) : i = j := by
  have hlow := hex_digit_inj (i % 16) (j % 16) (by omega) (by omega) hY
  by_cases h1 : i < 16 <;> by_cases h2 : j < 16
  · omega
  · rw [if_pos h1, if_neg h2] at hX
    unfold hex_digit at hX
    split_ifs at hX <;> omega
  · rw [if_neg h1, if_pos h2] at hX
    unfold hex_digit at hX
    split_ifs at hX <;> omega
  · rw [if_neg h1, if_neg h2] at hX
    have := hex_digit_inj (i / 16) (j / 16) (by omega) (by omega) hX
    omega

theorem range_thirteen : List.range 13 = [0, 1, 2, 3, 4, 5, 6, 7, 8, 9, 10, 11, 12] := by decide

theorem range_four : List.range 4 = [0, 1, 2, 3] := by decide

/-- The thirteen bytes of the processor object `i` in the table built. -/
theorem ssdt_object_list (p : Platform) (m : Mem) (ssdt : Nat) (i : Nat)
    (hi : i < min p.CountCPUs 255) :
    (List.range 13).map (fun k => read8 (acpi_build_processor_ssdt p m ssdt).1
        (ssdt + 36 + 1 + size_field_width p.CountCPUs + 4 + 13 * i + k))
      = processor_object i := by
  have h := ssdt_object_bytes p m ssdt i hi
  rw [range_thirteen]
  simp only [List.map]
  rw [h 0 (by omega), h 1 (by omega), h 2 (by omega), h 3 (by omega), h 4 (by omega),
    h 5 (by omega), h 6 (by omega), h 7 (by omega), h 8 (by omega), h 9 (by omega),
    h 10 (by omega), h 11 (by omega), h 12 (by omega)]
  rfl

/-- The scope name of the table built. -/
theorem ssdt_scope_name (p : Platform) (m : Mem) (ssdt : Nat) :
    (List.range 4).map (fun k => read8 (acpi_build_processor_ssdt p m ssdt).1
        (ssdt + 36 + 1 + size_field_width p.CountCPUs + k))
      = [0x5F, 0x50, 0x52, 0x5F] := by
  have hb := ssdt_size_field_bytes p m ssdt
  simp only at hb
  rw [range_four]
  simp only [List.map]
  unfold size_field_width
  by_cases hL : 13 * min p.CountCPUs 255 + 4 ≤ 0x3e
  · rw [if_pos (by omega)] at hb
    rw [if_pos hL]
    obtain ⟨_, _, h1, h2, h3, h4⟩ := hb
    simp only [Nat.add_zero]
    rw [h1, h2, h3, h4]
  · rw [if_neg (by omega)] at hb
    rw [if_neg hL]
    obtain ⟨_, _, _, h1, h2, h3, h4⟩ := hb
    simp only [Nat.add_zero]
    rw [h1, h2, h3, h4]

theorem write8_read8_agree (m1 m2 : Mem) (a v x : Nat)
    (h : x ≠ a → read8 m1 x = read8 m2 x) :
    read8 (write8 m1 a v) x = read8 (write8 m2 a v) x := by
  by_cases hx : x = a
  · simp [read8_write8, hx]
  · rw [read8_write8_ne _ _ _ _ hx, read8_write8_ne _ _ _ _ hx]
    exact h hx

theorem write32_read8_agree (m1 m2 : Mem) (a v x : Nat)
    (h : ¬ (a ≤ x ∧ x < a + 4) → read8 m1 x = read8 m2 x) :
    read8 (write32 m1 a v) x = read8 (write32 m2 a v) x := by
  unfold write32
  apply write8_read8_agree; intro c1
  apply write8_read8_agree; intro c2
  apply write8_read8_agree; intro c3
  apply write8_read8_agree; intro c4
  exact h (by omega)

theorem memcpy_read8_agree (m1 m2 : Mem) (dst : Nat) (src : List Nat) (n x : Nat)
    (h : ¬ (dst ≤ x ∧ x < dst + n) → read8 m1 x = read8 m2 x) :
    read8 (memcpy m1 dst src n) x = read8 (memcpy m2 dst src n) x := by
  by_cases hin : dst ≤ x ∧ x < dst + n
  · unfold read8
    rw [memcpy_inside _ _ _ _ _ hin.1 hin.2, memcpy_inside _ _ _ _ _ hin.1 hin.2]
  · have e1 : read8 (memcpy m1 dst src n) x = read8 m1 x :=
      read8_congr _ _ _ (memcpy_frame _ _ _ _ _ (by omega))
    have e2 : read8 (memcpy m2 dst src n) x = read8 m2 x :=
      read8_congr _ _ _ (memcpy_frame _ _ _ _ _ (by omega))
    rw [e1, e2]
    exact h hin

/-- With the checksum byte cleared, the header over two memories whose bodies hold the
same bytes holds the same bytes on the whole table. -/
theorem header_fields_cleared_read8 (p : Platform) (m1 m2 : Mem) (h sig len rev : Nat)
    (hag : ∀ x, h + 36 ≤ x → x < h + len → read8 m1 x = read8 m2 x) (x : Nat)
    (hx1 : h ≤ x) (hx2 : x < h + len) :
    read8 (write8 (header_fields p m1 h sig len rev) (h + 9) 0) x
      = read8 (write8 (header_fields p m2 h sig len rev) (h + 9) 0) x := by
  unfold header_fields
  apply write8_read8_agree; intro c0
  apply write32_read8_agree; intro c1
  apply write32_read8_agree; intro c2
  apply write32_read8_agree; intro c3
  apply memcpy_read8_agree; intro c4
  apply memcpy_read8_agree; intro c5
  apply memcpy_read8_agree; intro c6
  apply write8_read8_agree; intro c7
  apply write32_read8_agree; intro c8
  apply write32_read8_agree; intro c9
  exact hag x (by omega) hx2

/-- The bytes the header builder leaves on the table depend on the bytes of the body
only. -/
theorem acpi_build_table_header_read8_indep (p : Platform) (m1 m2 : Mem)
    (h sig len rev : Nat) (h36 : 36 ≤ len) (h32 : len < 2 ^ 32)
    (hag : ∀ x, h + 36 ≤ x → x < h + len → read8 m1 x = read8 m2 x) (x : Nat)
    (hx1 : h ≤ x) (hx2 : x < h + len) :
    read8 (acpi_build_table_header p m1 h sig len rev) x
      = read8 (acpi_build_table_header p m2 h sig len rev) x := by
  have hB := header_fields_cleared_read8 p m1 m2 h sig len rev hag
  rw [acpi_build_table_header_eq, acpi_build_table_header_eq, Nat.mod_eq_of_lt h32]
  by_cases hx : x = h + 9
  · subst hx
    rw [read8_write8_same, read8_write8_same,
      header_checksum_byte _ h len (by omega), header_checksum_byte _ h len (by omega),
      checksum_congr _ _ h len (fun i hi => hB (h + i) (by omega) (by omega))]
  · have := hB x hx1 hx2
    rw [read8_write8_ne _ _ _ _ hx, read8_write8_ne _ _ _ _ hx] at this
    rw [read8_write8_ne _ _ _ _ hx, read8_write8_ne _ _ _ _ hx]
    exact this

theorem acpi_build_processor_ssdt_revision (p : Platform) (m : Mem) (ssdt : Nat) :
    read8 (acpi_build_processor_ssdt p m ssdt).1 (ssdt + 8) = 1 := by
  obtain ⟨m1, h1⟩ := acpi_build_processor_ssdt_fst p m ssdt
  rw [h1, acpi_build_table_header_revision]

/-- The table for 255 or more processors is the table for 255 processors. -/
theorem acpi_build_processor_ssdt_capped (p : Platform) (m : Mem) (ssdt : Nat)
    (hC : 255 ≤ p.CountCPUs) :
    acpi_build_processor_ssdt p m ssdt
      = acpi_build_processor_ssdt { p with CountCPUs := 255 } m ssdt := by
  have e1 : (if p.CountCPUs > 0xff then 0xff else p.CountCPUs) = 255 := by
    split <;> omega
  simp only [acpi_build_processor_ssdt, e1]
  rfl

theorem popcount16_eq (mask : Nat) : popcount16 mask = (set_lines mask).length := rfl

theorem mem_set_lines (mask i : Nat) : i ∈ set_lines mask ↔ i < 16 ∧ mask.testBit i = true := by
  unfold set_lines
  rw [List.mem_filter, List.mem_range]

theorem set_lines_sorted (mask : Nat) : (set_lines mask).Pairwise (· < ·) := by
  unfold set_lines
  exact List.Pairwise.filter _ (List.pairwise_lt_range 16)

theorem read16_write16 (m : Mem) (a v : Nat) : read16 (write16 m a v) a = v % 2 ^ 16 := by
  unfold read16 write16
  simp [read8_write8]
  omega

theorem read16_congr (m1 m2 : Mem) (a : Nat) (h : ∀ i, i < 2 → m1 (a + i) = m2 (a + i)) :
    read16 m1 a = read16 m2 a := by
  unfold read16 read8
  rw [show m1 a = m2 a from h 0 (by omega), h 1 (by omega)]

/-- The ten bytes the override loop writes for the line `i`. -/
theorem ovr_entry_bytes (m : Mem) (ptr i : Nat) (hi : i < 256) :
    read8 (write16 (write32 (write8 (write8 (write8 (memset m ptr 0 10) ptr
      APIC_XRUPT_OVERRIDE) (ptr + 1) 10) (ptr + 3) i) (ptr + 4) i) (ptr + 8) 0xd) ptr = 2 ∧
    read8 (write16 (write32 (write8 (write8 (write8 (memset m ptr 0 10) ptr
      APIC_XRUPT_OVERRIDE) (ptr + 1) 10) (ptr + 3) i) (ptr + 4) i) (ptr + 8) 0xd) (ptr + 1) = 10 ∧
    read8 (write16 (write32 (write8 (write8 (write8 (memset m ptr 0 10) ptr
      APIC_XRUPT_OVERRIDE) (ptr + 1) 10) (ptr + 3) i) (ptr + 4) i) (ptr + 8) 0xd) (ptr + 2) = 0 ∧
    read8 (write16 (write32 (write8 (write8 (write8 (memset m ptr 0 10) ptr
      APIC_XRUPT_OVERRIDE) (ptr + 1) 10) (ptr + 3) i) (ptr + 4) i) (ptr + 8) 0xd) (ptr + 3) = i ∧
    read32 (write16 (write32 (write8 (write8 (write8 (memset m ptr 0 10) ptr
      APIC_XRUPT_OVERRIDE) (ptr + 1) 10) (ptr + 3) i) (ptr + 4) i) (ptr + 8) 0xd) (ptr + 4) = i ∧
    read16 (write16 (write32 (write8 (write8 (write8 (memset m ptr 0 10) ptr
      APIC_XRUPT_OVERRIDE) (ptr + 1) 10) (ptr + 3) i) (ptr + 4) i) (ptr + 8) 0xd) (ptr + 8) = 0xd := by
  refine ⟨?_, ?_, ?_, ?_, ?_, ?_⟩
  · unfold read8
    rw [write16_frame _ _ _ _ (by omega), write32_frame _ _ _ _ (by omega),
      write8_ne _ _ _ _ (by omega), write8_ne _ _ _ _ (by omega)]
    simp [write8, APIC_XRUPT_OVERRIDE]
  · unfold read8
    rw [write16_frame _ _ _ _ (by omega), write32_frame _ _ _ _ (by omega),
      write8_ne _ _ _ _ (by omega)]
    simp [write8]
  · unfold read8
    rw [write16_frame _ _ _ _ (by omega), write32_frame _ _ _ _ (by omega),
      write8_ne _ _ _ _ (by omega), write8_ne _ _ _ _ (by omega), write8_ne _ _ _ _ (by omega),
      memset_inside _ _ _ _ _ (by omega) (by omega)]
  · unfold read8
    rw [write16_frame _ _ _ _ (by omega), write32_frame _ _ _ _ (by omega)]
    simp only [write8, if_true]
    omega
  · rw [read32_congr _ _ _ (fun j hj => write16_frame _ _ _ _ (by omega)), read32_write32]
    omega
  · rw [read16_write16]
    decide

/-- The override entries the loop writes: entry `k` is that of the `k`-th selected line. -/
theorem madt_ovr_loop_content (mask n i : Nat) (s : Mem × Nat × Nat) (hin : i + n ≤ 256)
    (k : Nat) (hk : k < ((List.range' i n).filter (fun j => mask.testBit j)).length) :
    read8 (madt_ovr_loop mask n i s).1 (s.2.1 + 10 * k) = 2 ∧
    read8 (madt_ovr_loop mask n i s).1 (s.2.1 + 10 * k + 1) = 10 ∧
    read8 (madt_ovr_loop mask n i s).1 (s.2.1 + 10 * k + 2) = 0 ∧
    read8 (madt_ovr_loop mask n i s).1 (s.2.1 + 10 * k + 3)
      = ((List.range' i n).filter (fun j => mask.testBit j)).getD k 0 ∧
    read32 (madt_ovr_loop mask n i s).1 (s.2.1 + 10 * k + 4)
      = ((List.range' i n).filter (fun j => mask.testBit j)).getD k 0 ∧
    read16 (madt_ovr_loop mask n i s).1 (s.2.1 + 10 * k + 8) = 0xd := by
  induction n generalizing i s k with
  | zero => simp at hk
  | succ n ih =>
    cases hb : mask.testBit i
    · rw [madt_ovr_loop_clear _ _ _ _ hb]
      rw [List.range'_succ, List.filter_cons, hb] at hk ⊢
      simp only [Bool.false_eq_true, if_false] at hk ⊢
      exact ih (i + 1) s (by omega) k hk
    · rw [madt_ovr_loop_set _ _ _ _ hb]
      rw [List.range'_succ, List.filter_cons, hb] at hk ⊢
      simp only [if_true] at hk ⊢
      cases k with
      | zero =>
        simp only [Nat.mul_zero, Nat.add_zero, List.getD_cons_zero]
        have hf : ∀ x, x < s.2.1 + 10 →
            (madt_ovr_loop mask n (i + 1) (write16 (write32 (write8 (write8 (write8
              (memset s.1 s.2.1 0 10) s.2.1 APIC_XRUPT_OVERRIDE) (s.2.1 + 1) 10) (s.2.1 + 3) i)
              (s.2.1 + 4) i) (s.2.1 + 8) 0xd, s.2.1 + 10, add32 s.2.2 10)).1 x
            = (write16 (write32 (write8 (write8 (write8
              (memset s.1 s.2.1 0 10) s.2.1 APIC_XRUPT_OVERRIDE) (s.2.1 + 1) 10) (s.2.1 + 3) i)
              (s.2.1 + 4) i) (s.2.1 + 8) 0xd) x := fun x hx =>
          madt_ovr_loop_frame _ _ _ _ _ (Or.inl hx)
        obtain ⟨b1, b2, b3, b4, b5, b6⟩ := ovr_entry_bytes s.1 s.2.1 i (by omega)
        refine ⟨?_, ?_, ?_, ?_, ?_, ?_⟩
        · rw [read8_congr _ _ _ (hf _ (by omega))]; exact b1
        · rw [read8_congr _ _ _ (hf _ (by omega))]; exact b2
        · rw [read8_congr _ _ _ (hf _ (by omega))]; exact b3
        · rw [read8_congr _ _ _ (hf _ (by omega))]; exact b4
        · rw [read32_congr _ _ _ (fun j hj => hf _ (by omega))]; exact b5
        · rw [read16_congr _ _ _ (fun j hj => hf _ (by omega))]; exact b6
      | succ k =>
        have h := ih (i + 1) (write16 (write32 (write8 (write8 (write8 (memset s.1 s.2.1 0 10)
          s.2.1 APIC_XRUPT_OVERRIDE) (s.2.1 + 1) 10) (s.2.1 + 3) i) (s.2.1 + 4) i)
          (s.2.1 + 8) 0xd, s.2.1 + 10, add32 s.2.2 10) (by omega) k (by simpa using hk)
        simp only at h
        have e : s.2.1 + 10 * (k + 1) = s.2.1 + 10 + 10 * k := by omega
        rw [e]
        simpa using h

/-- The override entries of the MADT `build_madt` leaves. -/
theorem build_madt_ovr_content (p : Platform) (m : Mem) (madt madt_size N k : Nat)
    (hk : k < (set_lines p.irq_mask).length) :
    read8 (build_madt p m madt madt_size N) (madt + 44 + 8 * N + 12 + 10 * k) = 2 ∧
    read8 (build_madt p m madt madt_size N) (madt + 44 + 8 * N + 12 + 10 * k + 1) = 10 ∧
    read8 (build_madt p m madt madt_size N) (madt + 44 + 8 * N + 12 + 10 * k + 2) = 0 ∧
    read8 (build_madt p m madt madt_size N) (madt + 44 + 8 * N + 12 + 10 * k + 3)
      = (set_lines p.irq_mask).getD k 0 ∧
    read32 (build_madt p m madt madt_size N) (madt + 44 + 8 * N + 12 + 10 * k + 4)
      = (set_lines p.irq_mask).getD k 0 ∧
    read16 (build_madt p m madt madt_size N) (madt + 44 + 8 * N + 12 + 10 * k + 8) = 0xd := by
  have hf : ∀ x, madt + 36 ≤ x → build_madt p m madt madt_size N x
      = (madt_body p m madt madt_size N).1 x := fun x hx =>
    build_madt_frame36 p m madt madt_size N x (Or.inr hx)
  rw [read8_congr _ _ _ (hf _ (by omega)), read8_congr _ _ _ (hf _ (by omega)),
    read8_congr _ _ _ (hf _ (by omega)), read8_congr _ _ _ (hf _ (by omega)),
    read32_congr _ _ _ (fun j hj => hf _ (by omega)),
    read16_congr _ _ _ (fun j hj => hf _ (by omega))]
  unfold set_lines at hk ⊢
  rw [List.range_eq_range'] at hk ⊢
  unfold madt_body
  simp only [madt_cpu_loop_snd]
  exact madt_ovr_loop_content p.irq_mask 16 0 _ (by omega) k hk

/-- The length the MADT declares after a completed run. -/
theorem final_madt_length (p : Platform) (s : State) (h : Completed p s) :
    read32 (acpi_bios_init p s).mem ((acpi_layout p s).madt_addr + 4)
      = 56 + 8 * p.CountCPUs + 10 * popcount16 p.irq_mask := by
  obtain ⟨_, _, _, _, _, _, _, _, o6, _, _, _⟩ := acpi_layout_order p s h
  rw [acpi_bios_init_mem_eq p s h]
  exact build_madt_length _ _ _ _ (by omega)

/-- The walk over the sub-entries of the MADT after a completed run. -/
theorem final_madt_walk (p : Platform) (s : State) (h : Completed p s) :
    walk_entries (acpi_bios_init p s).mem
        ((acpi_layout p s).madt_addr + (56 + 8 * p.CountCPUs + 10 * popcount16 p.irq_mask))
        (56 + 8 * p.CountCPUs + 10 * popcount16 p.irq_mask)
        ((acpi_layout p s).madt_addr + 44)
      = some (List.replicate p.CountCPUs (0, 8) ++ (1, 12) ::
          List.replicate (popcount16 p.irq_mask) (2, 10)) := by
  have ef : 56 + 8 * p.CountCPUs + 10 * popcount16 p.irq_mask
      = (55 + 7 * p.CountCPUs + 9 * popcount16 p.irq_mask) + popcount16 p.irq_mask + 1
        + p.CountCPUs := by omega
  rw [acpi_bios_init_mem_eq p s h]
  nth_rewrite 2 [ef]
  exact build_madt_walk p _ _ _ _

/-- The layout when nothing wraps around, the region base being any `u32`. -/
theorem acpi_layout_plan (p : Platform) (s : State)
    (ram : p.RamSize < 2 ^ 32) (base : p.CONFIG_ACPI_DATA_SIZE ≤ p.RamSize)
    (fits : p.RamSize - p.CONFIG_ACPI_DATA_SIZE + tables_extent p ≤ 2 ^ 32) :
    (acpi_layout p s).rsdp = ALIGN s.bios_table_cur_addr 16 ∧
    (acpi_layout p s).rsdt_addr = p.RamSize - p.CONFIG_ACPI_DATA_SIZE ∧
    (acpi_layout p s).fadt_addr = p.RamSize - p.CONFIG_ACPI_DATA_SIZE + 48 ∧
    (acpi_layout p s).facs_addr = (p.RamSize - p.CONFIG_ACPI_DATA_SIZE + 48 + 116 + 63) / 64 * 64 ∧
    (acpi_layout p s).dsdt_addr = (acpi_layout p s).facs_addr + 64 ∧
    (acpi_layout p s).ssdt_addr = (acpi_layout p s).dsdt_addr + p.AmlCode.length ∧
    (acpi_layout p s).madt_addr
      = ((acpi_layout p s).ssdt_addr + ssdt_length p.CountCPUs + 7) / 8 * 8 ∧
    (acpi_layout p s).madt_size = 56 + 8 * p.CountCPUs ∧
    (acpi_layout p s).smp_cpus = p.CountCPUs ∧
    (acpi_layout p s).addr = (acpi_layout p s).madt_addr + (56 + 8 * p.CountCPUs) ∧
    (acpi_layout p s).acpi_tables_size
      = (acpi_layout p s).madt_addr + (56 + 8 * p.CountCPUs)
        - (p.RamSize - p.CONFIG_ACPI_DATA_SIZE) ∧
    (acpi_layout p s).st.bios_table_cur_addr = add32 (ALIGN s.bios_table_cur_addr 16) 36 := by
  unfold tables_extent at fits
  have hb := ssdt_length_bounds p.CountCPUs
  have e0 : sub32 p.RamSize p.CONFIG_ACPI_DATA_SIZE = p.RamSize - p.CONFIG_ACPI_DATA_SIZE := by
    unfold sub32; omega
  generalize hB : p.RamSize - p.CONFIG_ACPI_DATA_SIZE = B at e0 fits ⊢
  have e1 : add32 B 48 = B + 48 := by
    unfold add32; omega
  have e2 : add32 (B + 48) 116 = B + 48 + 116 := by
    unfold add32; omega
  have e3 : ALIGN (B + 48 + 116) 64 = (B + 48 + 116 + 63) / 64 * 64 := by
    unfold ALIGN
    rw [Nat.mod_eq_of_lt (by omega)]
  generalize hF : (B + 48 + 116 + 63) / 64 * 64 = F at e3
  have hF1 : F ≤ B + 48 + 116 + 63 := by omega
  have hF2 : B ≤ F := by omega
  have e4 : add32 F 64 = F + 64 := by
    unfold add32; omega
  have e5 : add32 (F + 64) p.AmlCode.length = F + 64 + p.AmlCode.length := by
    unfold add32; omega
  have e6 : add32 (F + 64 + p.AmlCode.length) (ssdt_length p.CountCPUs)
      = F + 64 + p.AmlCode.length + ssdt_length p.CountCPUs := by
    unfold add32; omega
  have e7 : ALIGN (F + 64 + p.AmlCode.length + ssdt_length p.CountCPUs) 8
      = (F + 64 + p.AmlCode.length + ssdt_length p.CountCPUs + 7) / 8 * 8 := by
    unfold ALIGN
    rw [Nat.mod_eq_of_lt (by omega)]
  generalize hG : (F + 64 + p.AmlCode.length + ssdt_length p.CountCPUs + 7) / 8 * 8 = G at e7
  have hG1 : G ≤ F + 64 + p.AmlCode.length + ssdt_length p.CountCPUs + 7 := by omega
  have hG2 : F ≤ G := by omega
  have e8 : (44 + 8 * p.CountCPUs + 12) % 2 ^ 32 = 56 + 8 * p.CountCPUs := by omega
  have e9 : add32 G (56 + 8 * p.CountCPUs) = G + (56 + 8 * p.CountCPUs) := by
    unfold add32; omega
  have e10 : sub32 (G + (56 + 8 * p.CountCPUs)) B = G + (56 + 8 * p.CountCPUs) - B := by
    unfold sub32; omega
  simp only [acpi_layout, e0, e1, e2, e3, e4, e5, acpi_build_processor_ssdt_snd, e6, e7, e8,
    e9, e10, sizeof_rsdp, hF, hG]
  simp only [and_self]

/-- The value of `ALIGN` on a power of two, when nothing wraps around. -/
theorem ALIGN_spec (x a : Nat) (ha : 0 < a) (hx : x + a ≤ 2 ^ 32) :
    a ∣ ALIGN x a ∧ x ≤ ALIGN x a ∧ ALIGN x a < x + a := by
  unfold ALIGN
  rw [Nat.mod_eq_of_lt (by omega)]
  refine ⟨Nat.dvd_mul_left _ _, ?_, ?_⟩
  · have h1 := Nat.div_add_mod (x + (a - 1)) a
    have h2 := Nat.mod_lt (x + (a - 1)) ha
    rw [Nat.mul_comm] at h1
    omega
  · have h1 := Nat.div_mul_le_self (x + (a - 1)) a
    omega

theorem acpi_bios_init_mem_plan (p : Platform) (s : State)
    (config : p.CONFIG_ACPI = true) (found : 0 ≤ p.bdf)
    (ram : p.RamSize < 2 ^ 32) (base : p.CONFIG_ACPI_DATA_SIZE ≤ p.RamSize)
    (fits : p.RamSize - p.CONFIG_ACPI_DATA_SIZE + tables_extent p ≤ 2 ^ 32) :
    (acpi_bios_init p s).mem =
      build_madt p (mem_dsdt p s) (acpi_layout p s).madt_addr (56 + 8 * p.CountCPUs)
        p.CountCPUs := by
  obtain ⟨_, _, _, _, _, _, _, e1, e2, _⟩ := acpi_layout_plan p s ram base fits
  rw [acpi_bios_init_mem p s config found, e1, e2]

/-- After a completed run the bytes from the end of the MADT on are those the blocks
before the block "MADT" left. -/
theorem final_madt_tail (p : Platform) (s : State) (h : Completed p s) (x : Nat)
    (hx : (acpi_layout p s).madt_addr + 44 + 8 * p.CountCPUs + 12
      + 10 * (set_lines p.irq_mask).length ≤ x) :
    (acpi_bios_init p s).mem x = mem_dsdt p s x := by
  rw [acpi_bios_init_mem_eq p s h]
  apply build_madt_frame
  rw [popcount16_eq]
  omega

/-- The `k`-th set line is a set line. -/
theorem set_lines_getD_mem (mask k : Nat) (hk : k < (set_lines mask).length) :
    (set_lines mask).getD k 0 ∈ set_lines mask := by
  rw [List.getD_eq_getElem _ _ hk]
  exact List.getElem_mem hk

/-- Every set line has its position in the ascending list of set lines. -/
theorem set_lines_index (mask i : Nat) (hi : i ∈ set_lines mask) :
    ∃ k, k < (set_lines mask).length ∧ (set_lines mask).getD k 0 = i := by
  obtain ⟨k, hk, e⟩ := List.getElem_of_mem hi
  exact ⟨k, hk, by rw [List.getD_eq_getElem _ _ hk, e]⟩

/-- A mask with none of its low 16 bits set has no set line. -/
theorem set_lines_empty (mask : Nat) (h : ∀ i, i < 16 → mask.testBit i = false) :
    set_lines mask = [] := by
  apply List.eq_nil_iff_forall_not_mem.mpr
  intro i hi
  obtain ⟨h1, h2⟩ := (mem_set_lines mask i).mp hi
  rw [h i h1] at h2
  exact Bool.false_ne_true h2

/-- The sample run with an empty override mask completes. -/
theorem sample_completed_empty : Completed (sample_platform 2 0) sample_state :=
  ⟨by decide, by decide, by decide, by decide, by decide, by decide, by decide⟩

/-! ## Properties -/

/-- C1: for every memory, signature, revision and length `len` with
`36 ≤ len` (a 32-bit value), after `acpi_build_table_header(h, sig, len, rev)` the
sum of the `len` bytes from `h` on is `0` modulo 256, whatever the body and the
checksum byte held before. -/
theorem acpi_build_table_header_sum_zero (p : Platform) (m : Mem) (h sig len rev : Nat)
    (h36 : 36 ≤ len) (h32 : len < 2 ^ 32) :
    (∑ i in Finset.range len, read8 (acpi_build_table_header p m h sig len rev) (h + i)) % 256
      = 0 := by
  rw [← checksum_eq_sum]
  unfold acpi_build_table_header
  simp only [Nat.mod_eq_of_lt h32]
  exact checksum_fix _ h len (by omega)

/-- C1 at a concrete call: a 40-byte table at address `0x1000` of the sample memory. -/
theorem acpi_build_table_header_sum_zero_witness :
    36 ≤ 40 ∧ 40 < 2 ^ 32 ∧
    (∑ i in Finset.range 40,
      read8 (acpi_build_table_header
        (sample_platform 1 0) sample_state.mem 0x1000 SSDT_SIGNATURE 40 1) (0x1000 + i)) % 256
      = 0 :=
  ⟨by decide, by decide, acpi_build_table_header_sum_zero _ _ 0x1000 _ 40 1 (by decide) (by decide)⟩

/-- C2: in the memory a completed `acpi_bios_init` leaves (`Completed`: the device is
found and the tables lie in the 32-bit address space, apart from the Root Pointer), for
every processor count and every override mask, each of the RSDT, the FADT, the processor
SSDT and the MADT has a byte sum of 0 modulo 256 from its offset 0 up to the length
declared in its own header; and the bytes of the RSDT, the FADT and the SSDT are still those
left when their header was built (the MADT is built last). -/
theorem acpi_bios_init_checksums (p : Platform) (s : State) (h : Completed p s) :
    (∑ i in Finset.range (read32 (acpi_bios_init p s).mem ((acpi_layout p s).rsdt_addr + 4)),
      read8 (acpi_bios_init p s).mem ((acpi_layout p s).rsdt_addr + i)) % 256 = 0 ∧
    (∑ i in Finset.range (read32 (acpi_bios_init p s).mem ((acpi_layout p s).fadt_addr + 4)),
      read8 (acpi_bios_init p s).mem ((acpi_layout p s).fadt_addr + i)) % 256 = 0 ∧
    (∑ i in Finset.range (read32 (acpi_bios_init p s).mem ((acpi_layout p s).ssdt_addr + 4)),
      read8 (acpi_bios_init p s).mem ((acpi_layout p s).ssdt_addr + i)) % 256 = 0 ∧
    (∑ i in Finset.range (read32 (acpi_bios_init p s).mem ((acpi_layout p s).madt_addr + 4)),
      read8 (acpi_bios_init p s).mem ((acpi_layout p s).madt_addr + i)) % 256 = 0 ∧
    (∀ x, (acpi_layout p s).rsdt_addr ≤ x → x < (acpi_layout p s).rsdt_addr + 48 →
      (acpi_bios_init p s).mem x = mem_rsdt p s x) ∧
    (∀ x, (acpi_layout p s).fadt_addr ≤ x → x < (acpi_layout p s).fadt_addr + 116 →
      (acpi_bios_init p s).mem x = mem_fadt p s x) ∧
    (∀ x, (acpi_layout p s).ssdt_addr ≤ x →
      x < (acpi_layout p s).ssdt_addr + ssdt_length p.CountCPUs →
      (acpi_bios_init p s).mem x = (acpi_layout p s).st.mem x) := by
  obtain ⟨_, _, _, o1, o2, o3, o4, o5, o6, o7, o8, _⟩ := acpi_layout_order p s h
  obtain ⟨_, _, _, _, _, _, _, _, _, hmem⟩ := acpi_layout_addrs p s h.ram h.base h.fits
  have hb := ssdt_length_bounds p.CountCPUs
  refine ⟨?_, ?_, ?_, ?_, final_rsdt p s h, final_fadt p s h, final_ssdt p s h⟩
  · rw [← checksum_eq_sum, read32_eq_of_eq _ (mem_rsdt p s) (acpi_layout p s).rsdt_addr _ 48
      (by omega) (by omega) (final_rsdt p s h)]
    unfold mem_rsdt
    rw [build_rsdt_length, checksum_eq_of_eq _ _ _ _ (final_rsdt p s h)]
    exact build_rsdt_checksum _ _ _ _ _ _
  · rw [← checksum_eq_sum, read32_eq_of_eq _ (mem_fadt p s) (acpi_layout p s).fadt_addr _ 116
      (by omega) (by omega) (final_fadt p s h)]
    unfold mem_fadt
    rw [build_fadt_length, checksum_eq_of_eq _ _ _ _ (final_fadt p s h)]
    exact build_fadt_checksum _ _ _ _ _
  · rw [← checksum_eq_sum, read32_eq_of_eq _ (acpi_layout p s).st.mem (acpi_layout p s).ssdt_addr
      _ (ssdt_length p.CountCPUs) (by omega) (by omega) (final_ssdt p s h)]
    rw [hmem, acpi_build_processor_ssdt_length, checksum_eq_of_eq _ _ _ _ (by
      have := final_ssdt p s h
      rw [hmem] at this
      exact this)]
    exact acpi_build_processor_ssdt_checksum _ _ _
  · rw [← checksum_eq_sum, acpi_bios_init_mem_eq p s h, build_madt_length _ _ _ _ (by omega)]
    exact build_madt_checksum _ _ _ _ (by omega)

/-- C2 on the sample platform with two processors and the lines 5 and 9 overridden. -/
theorem acpi_bios_init_checksums_witness :
    Completed (sample_platform 2 0x0220) sample_state ∧
    (∑ i in Finset.range (read32 (acpi_bios_init (sample_platform 2 0x0220) sample_state).mem
        ((acpi_layout (sample_platform 2 0x0220) sample_state).madt_addr + 4)),
      read8 (acpi_bios_init (sample_platform 2 0x0220) sample_state).mem
        ((acpi_layout (sample_platform 2 0x0220) sample_state).madt_addr + i)) % 256 = 0 :=
  ⟨sample_completed,
    (acpi_bios_init_checksums (sample_platform 2 0x0220) sample_state sample_completed).2.2.2.1⟩

/-- C3: in every memory state where `RsdpAddr` is non-null, the Root Pointer has the RSDP
signature, the table `rsdt` it points to is non-null and has the RSDT signature, entry `k`
starts before `rsdt + length`, is non-null and points to a structure `fadt` with the FACP
signature, every entry before `k` is null or points to another signature, and the
`firmware_ctrl` field of `fadt` is non-null and points to a structure `facs` with the FACS
signature, `find_resume_vector` returns exactly the `firmware_waking_vector` field of
`facs` (offset 12); the entries before `k` are skipped. -/
theorem find_resume_vector_intact (s : State) (rsdt k fadt facs : Nat)
    (hrsdp : s.RsdpAddr ≠ 0)
    (hrsdp_sig : read64 s.mem s.RsdpAddr = RSDP_SIGNATURE)
    (hrsdt : read32 s.mem (s.RsdpAddr + 16) = rsdt)
    (hrsdt_nz : rsdt ≠ 0)
    (hrsdt_sig : read32 s.mem rsdt = RSDT_SIGNATURE)
    (hk : rsdt + 36 + 4 * k < rsdt + read32 s.mem (rsdt + 4))
    (hbefore : ∀ j, j < k →
      read32 s.mem (rsdt + 36 + 4 * j) = 0 ∨
      read32 s.mem (read32 s.mem (rsdt + 36 + 4 * j)) ≠ FACP_SIGNATURE)
    (hfadt : read32 s.mem (rsdt + 36 + 4 * k) = fadt)
    (hfadt_nz : fadt ≠ 0)
    (hfadt_sig : read32 s.mem fadt = FACP_SIGNATURE)
    (hfacs : read32 s.mem (fadt + 36) = facs)
    (hfacs_nz : facs ≠ 0)
    (hfacs_sig : read32 s.mem facs = FACS_SIGNATURE) :
    find_resume_vector s = some (read32 s.mem (facs + 12)) := by
  subst hrsdt
  rw [find_resume_vector_chain s k hrsdp hrsdp_sig hrsdt_nz hrsdt_sig (by omega) hbefore
    (by unfold entry_skipped; rw [hfadt]; simp [hfadt_nz, hfadt_sig])]
  rw [hfadt, hfacs, if_neg (by simp [hfacs_nz, hfacs_sig])]

/-- C3 on a hand-made chain: entry 0 is null, entry 1 points to the FACP at 256, whose
FACS at 320 holds the vector. -/
theorem find_resume_vector_intact_witness :
    find_resume_vector (chain_state 0 256 0) = some (read32 (chain_state 0 256 0).mem (320 + 12)) :=
  find_resume_vector_intact (chain_state 0 256 0) 64 1 256 320
    (by decide) (by decide) (by decide) (by decide) (by decide) (by decide)
    (by intro j hj; interval_cases j; decide)
    (by decide) (by decide) (by decide) (by decide) (by decide) (by decide)

/-- C4: `find_resume_vector` returns 0, in every memory state, when (1) `RsdpAddr` is null,
or (2) the Root Pointer does not have the RSDP signature, or (3) the table the Root Pointer
points to does not have the RSDT signature, or (4) no entry that starts before the declared
length of that table points to a FACP-signed structure (every such entry is null or points
to another signature; there is no such entry when the declared length is 36 or less), or
(5) the first entry that is non-null and points to a FACP-signed structure has a
`firmware_ctrl` whose target does not have the FACS signature, whatever the later entries
are. -/
theorem find_resume_vector_zero (s : State)
    (h : s.RsdpAddr = 0 ∨
      read64 s.mem s.RsdpAddr ≠ RSDP_SIGNATURE ∨
      read32 s.mem (read32 s.mem (s.RsdpAddr + 16)) ≠ RSDT_SIGNATURE ∨
      (∀ j, read32 s.mem (s.RsdpAddr + 16) + 36 + 4 * j
            < read32 s.mem (s.RsdpAddr + 16) + read32 s.mem (read32 s.mem (s.RsdpAddr + 16) + 4) →
          read32 s.mem (read32 s.mem (s.RsdpAddr + 16) + 36 + 4 * j) = 0 ∨
          read32 s.mem (read32 s.mem (read32 s.mem (s.RsdpAddr + 16) + 36 + 4 * j))
            ≠ FACP_SIGNATURE) ∨
      (∃ k fadt,
        read32 s.mem (s.RsdpAddr + 16) + 36 + 4 * k
          < read32 s.mem (s.RsdpAddr + 16) + read32 s.mem (read32 s.mem (s.RsdpAddr + 16) + 4) ∧
        (∀ j, j < k →
          read32 s.mem (read32 s.mem (s.RsdpAddr + 16) + 36 + 4 * j) = 0 ∨
          read32 s.mem (read32 s.mem (read32 s.mem (s.RsdpAddr + 16) + 36 + 4 * j))
            ≠ FACP_SIGNATURE) ∧
        read32 s.mem (read32 s.mem (s.RsdpAddr + 16) + 36 + 4 * k) = fadt ∧
        fadt ≠ 0 ∧ read32 s.mem fadt = FACP_SIGNATURE ∧
        read32 s.mem (read32 s.mem (fadt + 36)) ≠ FACS_SIGNATURE)) :
    find_resume_vector s = some 0 := by
  rcases h with h | h | h | h | ⟨k, fadt, hk, hskip, hfadt, hnz, hsig, hfacs⟩
  · unfold find_resume_vector
    rw [if_pos (Or.inl h)]
  · unfold find_resume_vector
    rw [if_pos (Or.inr h)]
  · unfold find_resume_vector
    by_cases h1 : s.RsdpAddr = 0 ∨ read64 s.mem s.RsdpAddr ≠ RSDP_SIGNATURE
    · rw [if_pos h1]
    · rw [if_neg h1]
      simp only [if_pos (Or.inr h)]
  · exact find_resume_vector_no_match s (fun j hj => h j (by omega))
  · subst hfadt
    exact find_resume_vector_bad_facs s k (by omega) hskip
      (by unfold entry_skipped; simp [hnz, hsig]) (Or.inr hfacs)

/-- C4, case (5), on a hand-made chain: entry 0 points to a FACP whose `firmware_ctrl`
target has no FACS signature, entry 1 to a FACP with a valid FACS. -/
theorem find_resume_vector_zero_witness :
    find_resume_vector (chain_state 128 256 0) = some 0 :=
  find_resume_vector_zero (chain_state 128 256 0)
    (Or.inr (Or.inr (Or.inr (Or.inr
      ⟨0, 128, by decide, by intro j hj; omega, by decide, by decide, by decide, by decide⟩))))

/-- C5: build-then-resolve round trip. For every processor count, every override mask and
every region base greater than 0, after a completed `acpi_bios_init` the resolver
`find_resume_vector` returns 0 (the resume vector of the FACS starts at zero); and for every
32-bit value `v`, once `v` is stored into the `firmware_waking_vector` field (offset 12) of
the FACS that `acpi_bios_init` placed, nothing else being changed, it returns exactly `v`. -/
theorem acpi_bios_init_resume_round_trip (p : Platform) (s : State) (h : Completed p s) :
    find_resume_vector (acpi_bios_init p s) = some 0 ∧
    ∀ v, v < 2 ^ 32 →
      find_resume_vector
        { acpi_bios_init p s with
          mem := write32 (acpi_bios_init p s).mem ((acpi_layout p s).facs_addr + 12) v }
        = some v := by
  obtain ⟨_, _, _, _, _, _, _, _, _, _, c11, _, _⟩ := final_chain p s h
  constructor
  · have := find_resume_vector_after_init p s h (acpi_bios_init p s).mem (fun _ _ => rfl)
    rw [c11] at this
    exact this
  · intro v hv
    rw [find_resume_vector_after_init p s h _ (fun x hx => write32_frame _ _ _ _ (by omega)),
      read32_write32, Nat.mod_eq_of_lt hv]

/-- C5 on the sample platform with two processors and the lines 5 and 9 overridden. -/
theorem acpi_bios_init_resume_round_trip_witness :
    Completed (sample_platform 2 0x0220) sample_state ∧
    find_resume_vector (acpi_bios_init (sample_platform 2 0x0220) sample_state) = some 0 ∧
    find_resume_vector
      { acpi_bios_init (sample_platform 2 0x0220) sample_state with
        mem := write32 (acpi_bios_init (sample_platform 2 0x0220) sample_state).mem
          ((acpi_layout (sample_platform 2 0x0220) sample_state).facs_addr + 12) 0x9a000 }
      = some 0x9a000 :=
  ⟨sample_completed,
    (acpi_bios_init_resume_round_trip (sample_platform 2 0x0220) sample_state sample_completed).1,
    (acpi_bios_init_resume_round_trip (sample_platform 2 0x0220) sample_state sample_completed).2
      0x9a000 (by decide)⟩

/-- C6: when `pci_find_device` reports no device (a negative handle), `acpi_bios_init`
leaves the state as it was: memory, `bios_table_cur_addr`, the `add_e820` registrations and
`RsdpAddr` are unchanged; so when `RsdpAddr` was unset, `find_resume_vector` returns 0
afterwards. -/
theorem acpi_bios_init_not_found (p : Platform) (s : State) (h : p.bdf < 0) :
    (acpi_bios_init p s).mem = s.mem ∧
    (acpi_bios_init p s).bios_table_cur_addr = s.bios_table_cur_addr ∧
    (acpi_bios_init p s).e820 = s.e820 ∧
    (acpi_bios_init p s).RsdpAddr = s.RsdpAddr ∧
    (s.RsdpAddr = 0 → find_resume_vector (acpi_bios_init p s) = some 0) := by
  have hs : acpi_bios_init p s = s := by
    unfold acpi_bios_init
    rw [if_pos h]
    simp
  rw [hs]
  refine ⟨rfl, rfl, rfl, rfl, fun h0 => ?_⟩
  unfold find_resume_vector
  rw [if_pos (Or.inl h0)]

/-- C6 on the sample platform without the power-management device. -/
theorem acpi_bios_init_not_found_witness :
    (acpi_bios_init { sample_platform 2 0x0e20 with bdf := -1 } sample_state).mem
      = sample_state.mem ∧
    (acpi_bios_init { sample_platform 2 0x0e20 with bdf := -1 } sample_state).bios_table_cur_addr
      = sample_state.bios_table_cur_addr ∧
    (acpi_bios_init { sample_platform 2 0x0e20 with bdf := -1 } sample_state).e820
      = sample_state.e820 ∧
    (acpi_bios_init { sample_platform 2 0x0e20 with bdf := -1 } sample_state).RsdpAddr
      = sample_state.RsdpAddr ∧
    (sample_state.RsdpAddr = 0 →
      find_resume_vector (acpi_bios_init { sample_platform 2 0x0e20 with bdf := -1 } sample_state)
        = some 0) :=
  acpi_bios_init_not_found { sample_platform 2 0x0e20 with bdf := -1 } sample_state (by decide)

/-- C7: after a completed `acpi_bios_init` the RSDT declares the length 48 (the 36-byte
header and three 4-byte entries); its entries 0, 1 and 2 hold the addresses of the FADT, the
MADT and the processor SSDT, in this order, and the 4-byte signatures read at these
addresses are FACP, APIC and SSDT; the `rsdt_physical_address` of the Root Pointer
(`RsdpAddr`) holds the address of the RSDT, whose signature is RSDT. -/
theorem acpi_bios_init_rsdt (p : Platform) (s : State) (h : Completed p s) :
    read32 (acpi_bios_init p s).mem ((acpi_layout p s).rsdt_addr + 4) = 48 ∧
    read32 (acpi_bios_init p s).mem ((acpi_layout p s).rsdt_addr + 36 + 4 * 0)
      = (acpi_layout p s).fadt_addr ∧
    read32 (acpi_bios_init p s).mem ((acpi_layout p s).rsdt_addr + 36 + 4 * 1)
      = (acpi_layout p s).madt_addr ∧
    read32 (acpi_bios_init p s).mem ((acpi_layout p s).rsdt_addr + 36 + 4 * 2)
      = (acpi_layout p s).ssdt_addr ∧
    read32 (acpi_bios_init p s).mem
      (read32 (acpi_bios_init p s).mem ((acpi_layout p s).rsdt_addr + 36 + 4 * 0))
      = FACP_SIGNATURE ∧
    read32 (acpi_bios_init p s).mem
      (read32 (acpi_bios_init p s).mem ((acpi_layout p s).rsdt_addr + 36 + 4 * 1))
      = APIC_SIGNATURE ∧
    read32 (acpi_bios_init p s).mem
      (read32 (acpi_bios_init p s).mem ((acpi_layout p s).rsdt_addr + 36 + 4 * 2))
      = SSDT_SIGNATURE ∧
    read32 (acpi_bios_init p s).mem ((acpi_bios_init p s).RsdpAddr + 16)
      = (acpi_layout p s).rsdt_addr ∧
    read32 (acpi_bios_init p s).mem (acpi_layout p s).rsdt_addr = RSDT_SIGNATURE := by
  obtain ⟨c1, c2, c3, c4, c5, c6, c7, c8, c9, c10, c11, c12, c13⟩ := final_chain p s h
  rw [acpi_bios_init_RsdpAddr p s h.config h.found]
  simp only [Nat.mul_zero, Nat.add_zero, Nat.mul_one]
  rw [c5, c6, c7]
  exact ⟨c4, rfl, rfl, rfl, c8, c12, c13, c2, c3⟩

/-- C7 on the sample platform with two processors and the lines 5 and 9 overridden. -/
theorem acpi_bios_init_rsdt_witness :
    Completed (sample_platform 2 0x0220) sample_state ∧
    read32 (acpi_bios_init (sample_platform 2 0x0220) sample_state).mem
      ((acpi_layout (sample_platform 2 0x0220) sample_state).rsdt_addr + 4) = 48 :=
  ⟨sample_completed,
    (acpi_bios_init_rsdt (sample_platform 2 0x0220) sample_state sample_completed).1⟩

/-- C8: for every processor count, with `N = min(CountCPUs, 255)` and `L = 13 * N + 4`,
the byte at offset 36 of the table built by `acpi_build_processor_ssdt` is the scope
opcode `0x10`; when `L + 1 ≤ 0x3E` the size field is the single byte `L + 1` (the scope
name `_PR_` follows at offset 38), and otherwise it is the two bytes `0x7F`,
`(L + 2) >> 6` (the scope name follows at offset 39). -/
theorem acpi_build_processor_ssdt_size_field (p : Platform) (m : Mem) (ssdt : Nat) :
    let N := min p.CountCPUs 255
    let L := 13 * N + 4
    let out := (acpi_build_processor_ssdt p m ssdt).1
    read8 out (ssdt + 36) = 0x10 ∧
    if L + 1 ≤ 0x3E then
      read8 out (ssdt + 37) = L + 1 ∧
      read8 out (ssdt + 38) = 0x5F ∧ read8 out (ssdt + 39) = 0x50 ∧
      read8 out (ssdt + 40) = 0x52 ∧ read8 out (ssdt + 41) = 0x5F
    else
      read8 out (ssdt + 37) = 0x7F ∧ read8 out (ssdt + 38) = (L + 2) >>> 6 ∧
      read8 out (ssdt + 39) = 0x5F ∧ read8 out (ssdt + 40) = 0x50 ∧
      read8 out (ssdt + 41) = 0x52 ∧ read8 out (ssdt + 42) = 0x5F :=
  ssdt_size_field_bytes p m ssdt

/-- C9: the code at fifteen processors. The body after the size field is `13 * 15 + 4 = 199`
bytes long and the size field emitted is `0x7F`, `0x03`; the decoder reads it as the length
63 in a two-byte field, which leaves 61 bytes, not 199. -/
theorem ssdt_size_field_decode_fifteen :
    pkg_length_decode
        (acpi_build_processor_ssdt (sample_platform 15 0) sample_state.mem 0x1000).1
        (0x1000 + 37) = some (63, 2) ∧
    63 - 2 ≠ 13 * 15 + 4 := by
  rw [ssdt_size_field_decode]
  decide

/-- C10: for every processor count `N` and every override mask `M`, the MADT a completed
`acpi_bios_init` writes declares the length `44 + 8 * N + 12 + 10 * popcount(M)` in its
header; every one of these bytes is written by the builder (it has the same value whatever
the memory held before the run); and the walk over the sub-entries from offset 44, by each
entry's own length byte, visits `N` entries of type 0 (length 8), then one entry of type 1
(length 12), then `popcount(M)` entries of type 2 (length 10), and ends exactly at the
declared length. -/
theorem acpi_bios_init_madt (p : Platform) (s : State) (h : Completed p s) :
    read32 (acpi_bios_init p s).mem ((acpi_layout p s).madt_addr + 4)
      = 44 + 8 * p.CountCPUs + 12 + 10 * popcount16 p.irq_mask ∧
    (∀ (m0 : Mem) (x : Nat), (acpi_layout p s).madt_addr ≤ x →
      x < (acpi_layout p s).madt_addr + (44 + 8 * p.CountCPUs + 12 + 10 * popcount16 p.irq_mask) →
      (acpi_bios_init p { s with mem := m0 }).mem x = (acpi_bios_init p s).mem x) ∧
    walk_entries (acpi_bios_init p s).mem
        ((acpi_layout p s).madt_addr + (44 + 8 * p.CountCPUs + 12 + 10 * popcount16 p.irq_mask))
        (44 + 8 * p.CountCPUs + 12 + 10 * popcount16 p.irq_mask)
        ((acpi_layout p s).madt_addr + 44)
      = some (List.replicate p.CountCPUs (0, 8) ++ (1, 12) ::
          List.replicate (popcount16 p.irq_mask) (2, 10)) := by
  obtain ⟨_, o0, o00, o1, o2, o3, o4, o5, o6, o7, o8, _⟩ := acpi_layout_order p s h
  have e : 44 + 8 * p.CountCPUs + 12 + 10 * popcount16 p.irq_mask
      = 56 + 8 * p.CountCPUs + 10 * popcount16 p.irq_mask := by omega
  rw [e]
  refine ⟨?_, ?_, ?_⟩
  · rw [acpi_bios_init_mem_eq p s h]
    exact build_madt_length _ _ _ _ (by omega)
  · intro m0 x h1 h2
    have h0 : Completed p { s with mem := m0 } :=
      ⟨h.config, h.found, h.ram, h.base, h.fits, h.rsdp_nonnull, h.rsdp_apart⟩
    have ea : (acpi_layout p { s with mem := m0 }).madt_addr = (acpi_layout p s).madt_addr := by
      obtain ⟨_, _, _, _, a5, a6, a7, _⟩ := acpi_layout_addrs p s h.ram h.base h.fits
      obtain ⟨_, _, _, _, b5, b6, b7, _⟩ :=
        acpi_layout_addrs p { s with mem := m0 } h.ram h.base h.fits
      rw [a7, b7, a6, b6, a5, b5]
      rfl
    rw [acpi_bios_init_mem_eq p s h, acpi_bios_init_mem_eq p _ h0, ea]
    exact build_madt_agree p _ _ _ _ x (by omega) h1 h2
  · have ef : 56 + 8 * p.CountCPUs + 10 * popcount16 p.irq_mask
        = (55 + 7 * p.CountCPUs + 9 * popcount16 p.irq_mask) + popcount16 p.irq_mask + 1
          + p.CountCPUs := by omega
    rw [acpi_bios_init_mem_eq p s h]
    nth_rewrite 2 [ef]
    exact build_madt_walk p _ _ _ _

/-- C10 on the sample platform with two processors and the lines 5 and 9 overridden. -/
theorem acpi_bios_init_madt_witness :
    Completed (sample_platform 2 0x0220) sample_state ∧
    read32 (acpi_bios_init (sample_platform 2 0x0220) sample_state).mem
      ((acpi_layout (sample_platform 2 0x0220) sample_state).madt_addr + 4)
      = 44 + 8 * (sample_platform 2 0x0220).CountCPUs + 12
        + 10 * popcount16 (sample_platform 2 0x0220).irq_mask :=
  ⟨sample_completed,
    (acpi_bios_init_madt (sample_platform 2 0x0220) sample_state sample_completed).1⟩

/-- C11, as the claim has it: for two processors and the lines 5 and 9 the MADT does not
declare the length `44 + 2 * 6 + 12 + 2 * 8 = 84`; it declares 92. -/
theorem acpi_bios_init_scenario_not_84 :
    read32 (acpi_bios_init (sample_platform 2 0x0220) sample_state).mem
      ((acpi_layout (sample_platform 2 0x0220) sample_state).madt_addr + 4) = 92 ∧
    read32 (acpi_bios_init (sample_platform 2 0x0220) sample_state).mem
      ((acpi_layout (sample_platform 2 0x0220) sample_state).madt_addr + 4)
      ≠ 44 + 2 * 6 + 12 + 2 * 8 := by
  rw [final_madt_length _ _ sample_completed]
  decide

/-- C11, amended: with two processors and an override mask selecting the lines 5 and 9
(mask `0x0220`), the MADT of a completed `acpi_bios_init` holds 2 processor entries (8
bytes each), 1 controller entry (12 bytes) and 2 override entries (10 bytes each), and
declares the length `44 + 2 * 8 + 12 + 2 * 10`, that is 92 bytes. -/
theorem acpi_bios_init_scenario (p : Platform) (s : State) (h : Completed p s)
    (hN : p.CountCPUs = 2) (hM : p.irq_mask = 0x0220) :
    walk_entries (acpi_bios_init p s).mem ((acpi_layout p s).madt_addr + 92) 92
        ((acpi_layout p s).madt_addr + 44)
      = some [(0, 8), (0, 8), (1, 12), (2, 10), (2, 10)] ∧
    read32 (acpi_bios_init p s).mem ((acpi_layout p s).madt_addr + 4)
      = 44 + 2 * 8 + 12 + 2 * 10 ∧
    44 + 2 * 8 + 12 + 2 * 10 = 92 := by
  have hpop : popcount16 p.irq_mask = 2 := by
    rw [hM]
    decide
  have hw := final_madt_walk p s h
  have hl := final_madt_length p s h
  rw [hN, hpop] at hw hl
  exact ⟨hw, hl, rfl⟩

/-- C11 amended, on the sample platform. -/
theorem acpi_bios_init_scenario_witness :
    Completed (sample_platform 2 0x0220) sample_state ∧
    read32 (acpi_bios_init (sample_platform 2 0x0220) sample_state).mem
      ((acpi_layout (sample_platform 2 0x0220) sample_state).madt_addr + 4)
      = 44 + 2 * 8 + 12 + 2 * 10 :=
  ⟨sample_completed,
    (acpi_bios_init_scenario (sample_platform 2 0x0220) sample_state sample_completed
      rfl rfl).2.1⟩

/-- C12: the processor count is capped at 255 without error. For every reported count
`C ≥ 255`, `acpi_build_processor_ssdt` leaves the same memory and returns the same length as
for `C = 255`; that length is `36 + 1 + 2 + 4 + 13 * 255`, the sub-objects are those of the
indices 0..254 (the index byte of sub-object `i` is `i`), and nothing is written after
sub-object 254. -/
theorem acpi_build_processor_ssdt_cap (p : Platform) (m : Mem) (ssdt : Nat)
    (hC : 255 ≤ p.CountCPUs) :
    acpi_build_processor_ssdt p m ssdt
      = acpi_build_processor_ssdt { p with CountCPUs := 255 } m ssdt ∧
    (acpi_build_processor_ssdt p m ssdt).2 = 36 + 1 + 2 + 4 + 13 * 255 ∧
    (∀ i, i < 255 →
      read8 (acpi_build_processor_ssdt p m ssdt).1 (ssdt + 36 + 1 + 2 + 4 + 13 * i + 7) = i) ∧
    (∀ x, ssdt + (36 + 1 + 2 + 4 + 13 * 255) ≤ x →
      (acpi_build_processor_ssdt p m ssdt).1 x = m x) := by
  have hmin : min p.CountCPUs 255 = 255 := by omega
  have hw : size_field_width p.CountCPUs = 2 := by
    unfold size_field_width
    rw [hmin]
    decide
  have hlen : ssdt_length p.CountCPUs = 36 + 1 + 2 + 4 + 13 * 255 := by
    rw [ssdt_length_eq, hw, hmin]
  refine ⟨acpi_build_processor_ssdt_capped p m ssdt hC, ?_, ?_, ?_⟩
  · rw [acpi_build_processor_ssdt_snd, hlen]
  · intro i hi
    have h := ssdt_object_bytes p m ssdt i (by omega) 7 (by omega)
    rw [hw] at h
    rw [h]
    rfl
  · intro x hx
    exact acpi_build_processor_ssdt_frame p m ssdt x (Or.inr (by omega))

/-- C12 on the sample platform with 300 processors. -/
theorem acpi_build_processor_ssdt_cap_witness :
    acpi_build_processor_ssdt (sample_platform 300 0) sample_state.mem 0x1000
      = acpi_build_processor_ssdt { sample_platform 300 0 with CountCPUs := 255 }
          sample_state.mem 0x1000 :=
  (acpi_build_processor_ssdt_cap (sample_platform 300 0) sample_state.mem 0x1000
    (by decide)).1

/-- C13, as the claim has it: with 1 MiB of memory and a 64 KiB region, the region is
`[0xF0000, 0x100000)` and the Root Pointer, taken at the table cursor `0xf1234`, is at
`0xf1240`, inside the region. -/
theorem acpi_layout_rsdp_inside_region :
    (acpi_layout { sample_platform 2 0 with RamSize := 0x100000 } sample_state).rsdp = 0xf1240 ∧
    (acpi_layout { sample_platform 2 0 with RamSize := 0x100000 } sample_state).rsdt_addr
      = 0xF0000 ∧
    (acpi_layout { sample_platform 2 0 with RamSize := 0x100000 } sample_state).rsdt_addr
      ≤ (acpi_layout { sample_platform 2 0 with RamSize := 0x100000 } sample_state).rsdp ∧
    (acpi_layout { sample_platform 2 0 with RamSize := 0x100000 } sample_state).rsdp + 36
      ≤ (acpi_layout { sample_platform 2 0 with RamSize := 0x100000 } sample_state).rsdt_addr
        + (sample_platform 2 0).CONFIG_ACPI_DATA_SIZE := by
  obtain ⟨e1, e2, _⟩ := acpi_layout_plan { sample_platform 2 0 with RamSize := 0x100000 }
    sample_state (by decide) (by decide) (by decide)
  rw [e1, e2]
  decide

/-- C13, amended: layout arithmetic of `acpi_bios_init`, for every region base
`B = RamSize - CONFIG_ACPI_DATA_SIZE`, every blob size `D = sizeof(AmlCode)` and every
processor count for which no 32-bit address wraps around. The RSDT is at `B`; the FADT at
`B + 48`; the FACS at the smallest multiple of 64 from `B + 48 + 116` on; the blob at that
address plus 64; the processor SSDT at the blob address plus `D`; the MADT at the smallest
multiple of 8 from the SSDT address plus the length `acpi_build_processor_ssdt` returns on;
the Root Pointer at the smallest multiple of 16 from the incoming `bios_table_cur_addr` on.
The Root Pointer is taken from the table cursor, which advances to its address plus 36, and
not from the region; it lies outside the region when the 52 bytes from the incoming cursor
on do. -/
theorem acpi_layout_arithmetic (p : Platform) (s : State)
    (ram : p.RamSize < 2 ^ 32) (base : p.CONFIG_ACPI_DATA_SIZE ≤ p.RamSize)
    (fits : p.RamSize - p.CONFIG_ACPI_DATA_SIZE + tables_extent p ≤ 2 ^ 32)
    (cur : s.bios_table_cur_addr + 16 + 36 ≤ 2 ^ 32) :
    (acpi_layout p s).rsdt_addr = p.RamSize - p.CONFIG_ACPI_DATA_SIZE ∧
    (acpi_layout p s).fadt_addr = p.RamSize - p.CONFIG_ACPI_DATA_SIZE + 48 ∧
    (64 ∣ (acpi_layout p s).facs_addr ∧
      p.RamSize - p.CONFIG_ACPI_DATA_SIZE + 48 + 116 ≤ (acpi_layout p s).facs_addr ∧
      (acpi_layout p s).facs_addr < p.RamSize - p.CONFIG_ACPI_DATA_SIZE + 48 + 116 + 64) ∧
    (acpi_layout p s).dsdt_addr = (acpi_layout p s).facs_addr + 64 ∧
    (acpi_layout p s).ssdt_addr = (acpi_layout p s).dsdt_addr + p.AmlCode.length ∧
    (8 ∣ (acpi_layout p s).madt_addr ∧
      (acpi_layout p s).ssdt_addr
          + (acpi_build_processor_ssdt p s.mem (acpi_layout p s).ssdt_addr).2
        ≤ (acpi_layout p s).madt_addr ∧
      (acpi_layout p s).madt_addr
        < (acpi_layout p s).ssdt_addr
          + (acpi_build_processor_ssdt p s.mem (acpi_layout p s).ssdt_addr).2 + 8) ∧
    (16 ∣ (acpi_layout p s).rsdp ∧
      s.bios_table_cur_addr ≤ (acpi_layout p s).rsdp ∧
      (acpi_layout p s).rsdp < s.bios_table_cur_addr + 16) ∧
    (acpi_layout p s).st.bios_table_cur_addr = (acpi_layout p s).rsdp + 36 ∧
    (s.bios_table_cur_addr + 16 + 36 ≤ p.RamSize - p.CONFIG_ACPI_DATA_SIZE ∨
        p.RamSize ≤ s.bios_table_cur_addr →
      (acpi_layout p s).rsdp + 36 ≤ p.RamSize - p.CONFIG_ACPI_DATA_SIZE ∨
        p.RamSize ≤ (acpi_layout p s).rsdp) := by
  obtain ⟨e1, e2, e3, e4, e5, e6, e7, _, _, _, _, e12⟩ := acpi_layout_plan p s ram base fits
  have hfit := fits
  unfold tables_extent at hfit
  have hb := ssdt_length_bounds p.CountCPUs
  obtain ⟨r1, r2, r3⟩ := ALIGN_spec s.bios_table_cur_addr 16 (by omega) (by omega)
  rw [acpi_build_processor_ssdt_snd, e12, e1]
  have hc : add32 (ALIGN s.bios_table_cur_addr 16) 36 = ALIGN s.bios_table_cur_addr 16 + 36 := by
    unfold add32
    omega
  refine ⟨e2, e3, ⟨?_, ?_, ?_⟩, e5, e6, ⟨?_, ?_, ?_⟩, ⟨r1, r2, r3⟩, hc, ?_⟩
  · rw [e4]
    exact Nat.dvd_mul_left _ _
  · rw [e4]
    omega
  · rw [e4]
    omega
  · rw [e7]
    exact Nat.dvd_mul_left _ _
  · rw [e7]
    omega
  · rw [e7]
    omega
  · intro h
    omega

/-- C13 amended, on the sample platform. -/
theorem acpi_layout_arithmetic_witness :
    (acpi_layout (sample_platform 2 0x0220) sample_state).fadt_addr
      = (sample_platform 2 0x0220).RamSize - (sample_platform 2 0x0220).CONFIG_ACPI_DATA_SIZE + 48 :=
  (acpi_layout_arithmetic (sample_platform 2 0x0220) sample_state
    (by decide) (by decide) (by decide) (by decide)).2.1

/-- C14, as the claim has it: for two processors and the lines 5 and 9 the layout advances
past `madt_addr` by 72 bytes, which is neither `44 + 8 * 2 + 12 + 10 * popcount` nor the
length the MADT declares in the end (92). -/
theorem acpi_layout_madt_size_without_overrides :
    (acpi_layout (sample_platform 2 0x0220) sample_state).addr
      - (acpi_layout (sample_platform 2 0x0220) sample_state).madt_addr = 72 ∧
    (acpi_layout (sample_platform 2 0x0220) sample_state).addr
      - (acpi_layout (sample_platform 2 0x0220) sample_state).madt_addr
      ≠ 44 + 8 * 2 + 12 + 10 * popcount16 0x0220 ∧
    (acpi_layout (sample_platform 2 0x0220) sample_state).addr
      - (acpi_layout (sample_platform 2 0x0220) sample_state).madt_addr
      ≠ read32 (acpi_bios_init (sample_platform 2 0x0220) sample_state).mem
          ((acpi_layout (sample_platform 2 0x0220) sample_state).madt_addr + 4) := by
  obtain ⟨_, _, _, _, _, _, _, _, _, e10, _, _⟩ :=
    acpi_layout_plan (sample_platform 2 0x0220) sample_state (by decide) (by decide) (by decide)
  rw [final_madt_length _ _ sample_completed, e10, Nat.add_sub_cancel_left]
  decide

/-- C14, amended: the size the layout computes for the MADT when placing it (the value of
`madt_size` then, by which `addr` advances past `madt_addr` and which enters
`acpi_tables_size`) is `44 + 8 * N + 12`, without the override entries; the length declared
in the header of the MADT in the end is that size plus `10 * popcount(M)`, so the two are
equal exactly when the mask selects no line. -/
theorem acpi_layout_madt_size (p : Platform) (s : State)
    (config : p.CONFIG_ACPI = true) (found : 0 ≤ p.bdf)
    (ram : p.RamSize < 2 ^ 32) (base : p.CONFIG_ACPI_DATA_SIZE ≤ p.RamSize)
    (fits : p.RamSize - p.CONFIG_ACPI_DATA_SIZE + tables_extent p ≤ 2 ^ 32) :
    (acpi_layout p s).madt_size = 44 + 8 * p.CountCPUs + 12 ∧
    (acpi_layout p s).addr - (acpi_layout p s).madt_addr = 44 + 8 * p.CountCPUs + 12 ∧
    (acpi_layout p s).acpi_tables_size
      = (acpi_layout p s).madt_addr + (44 + 8 * p.CountCPUs + 12) - (acpi_layout p s).rsdt_addr ∧
    read32 (acpi_bios_init p s).mem ((acpi_layout p s).madt_addr + 4)
      = (44 + 8 * p.CountCPUs + 12) + 10 * popcount16 p.irq_mask ∧
    (read32 (acpi_bios_init p s).mem ((acpi_layout p s).madt_addr + 4)
        = (acpi_layout p s).addr - (acpi_layout p s).madt_addr ↔ popcount16 p.irq_mask = 0) := by
  obtain ⟨_, e2, _, _, _, _, _, e8, _, e10, e11, _⟩ := acpi_layout_plan p s ram base fits
  have hfit := fits
  unfold tables_extent at hfit
  have hlen : read32 (acpi_bios_init p s).mem ((acpi_layout p s).madt_addr + 4)
      = 56 + 8 * p.CountCPUs + 10 * popcount16 p.irq_mask := by
    rw [acpi_bios_init_mem_plan p s config found ram base fits]
    exact build_madt_length _ _ _ _ (by omega)
  rw [hlen, e8, e10, e11, e2, Nat.add_sub_cancel_left]
  refine ⟨by omega, by omega, by omega, by omega, ?_⟩
  constructor <;> intro h <;> omega

/-- C14 amended, on the sample platform. -/
theorem acpi_layout_madt_size_witness :
    (acpi_layout (sample_platform 2 0x0220) sample_state).madt_size
      = 44 + 8 * (sample_platform 2 0x0220).CountCPUs + 12 :=
  (acpi_layout_madt_size (sample_platform 2 0x0220) sample_state
    (by decide) (by decide) (by decide) (by decide) (by decide)).1

/-- C15: for every `N = min(CountCPUs, 255)` and every index `i < N`, the table built by
`acpi_build_processor_ssdt` holds at offset `36 + 1 + s + 4 + 13 * i` (`s` the width of the
size field, 1 or 2) the 13 bytes `0x5B, 0x83, 0x0B, 'C', 'P', X, Y, i, 0x10, 0xB0, 0x00, 0x00,
0x06`, where `X` is `'U'` when `i < 16` and otherwise the upper-case hexadecimal digit of the
high nibble of `i`, and `Y` is the upper-case hexadecimal digit of the low nibble of `i`;
the 4 bytes before the first sub-object are the scope name `'_', 'P', 'R', '_'`. -/
theorem acpi_build_processor_ssdt_objects (p : Platform) (m : Mem) (ssdt : Nat) (i : Nat)
    (hi : i < min p.CountCPUs 255) :
    (size_field_width p.CountCPUs = 1 ∨ size_field_width p.CountCPUs = 2) ∧
    (List.range 13).map (fun k => read8 (acpi_build_processor_ssdt p m ssdt).1
        (ssdt + 36 + 1 + size_field_width p.CountCPUs + 4 + 13 * i + k))
      = [0x5B, 0x83, 0x0B, 0x43, 0x50, if i < 16 then 0x55 else hex_digit (i / 16),
          hex_digit (i % 16), i, 0x10, 0xB0, 0x00, 0x00, 0x06] ∧
    (List.range 4).map (fun k => read8 (acpi_build_processor_ssdt p m ssdt).1
        (ssdt + 36 + 1 + size_field_width p.CountCPUs + k))
      = [0x5F, 0x50, 0x52, 0x5F] := by
  refine ⟨?_, ssdt_object_list p m ssdt i hi, ssdt_scope_name p m ssdt⟩
  unfold size_field_width
  split <;> simp

/-- C15 on the sample platform with 20 processors, at the object of index 17. -/
theorem acpi_build_processor_ssdt_objects_witness :
    (List.range 13).map (fun k =>
        read8 (acpi_build_processor_ssdt (sample_platform 20 0) sample_state.mem 0x1000).1
          (0x1000 + 36 + 1 + size_field_width (sample_platform 20 0).CountCPUs + 4 + 13 * 17 + k))
      = [0x5B, 0x83, 0x0B, 0x43, 0x50, if 17 < 16 then 0x55 else hex_digit (17 / 16),
          hex_digit (17 % 16), 17, 0x10, 0xB0, 0x00, 0x00, 0x06] :=
  (acpi_build_processor_ssdt_objects (sample_platform 20 0) sample_state.mem 0x1000 17
    (by decide)).2.1

/-- C16: for every processor count, with `N = min(CountCPUs, 255)`, the value returned by
`acpi_build_processor_ssdt` equals the length field written in the header of the table,
equals `36 + 1 + s + (13 * N + 4)` with `s = 1` when `13 * N + 4 ≤ 0x3E` and `s = 2`
otherwise, and is the number of bytes the builder wrote from the table start: no byte
outside them is changed and each of them has the value the builder gives it whatever the
memory held before; the signature of the table is SSDT and its revision is 1. -/
theorem acpi_build_processor_ssdt_returns (p : Platform) (m : Mem) (ssdt : Nat) :
    (acpi_build_processor_ssdt p m ssdt).2
      = read32 (acpi_build_processor_ssdt p m ssdt).1 (ssdt + 4) ∧
    (acpi_build_processor_ssdt p m ssdt).2
      = 36 + 1 + (if 13 * min p.CountCPUs 255 + 4 ≤ 0x3E then 1 else 2)
        + (13 * min p.CountCPUs 255 + 4) ∧
    (∀ x, x < ssdt ∨ ssdt + (acpi_build_processor_ssdt p m ssdt).2 ≤ x →
      (acpi_build_processor_ssdt p m ssdt).1 x = m x) ∧
    (∀ (m0 : Mem) (x : Nat), ssdt ≤ x → x < ssdt + (acpi_build_processor_ssdt p m ssdt).2 →
      (acpi_build_processor_ssdt p m0 ssdt).1 x = (acpi_build_processor_ssdt p m ssdt).1 x) ∧
    read32 (acpi_build_processor_ssdt p m ssdt).1 ssdt = SSDT_SIGNATURE ∧
    read8 (acpi_build_processor_ssdt p m ssdt).1 (ssdt + 8) = 1 := by
  rw [acpi_build_processor_ssdt_snd, acpi_build_processor_ssdt_length]
  refine ⟨rfl, ?_, acpi_build_processor_ssdt_frame p m ssdt, ?_,
    acpi_build_processor_ssdt_signature p m ssdt, acpi_build_processor_ssdt_revision p m ssdt⟩
  · unfold ssdt_length
    omega
  · intro m0 x h1 h2
    exact acpi_build_processor_ssdt_indep p m0 m ssdt x h1 h2

/-- C17: for every override mask `M`, the override entries of the MADT a completed
`acpi_bios_init` writes are in one-to-one correspondence with the set bits of the low 16
bits of `M`, in ascending order of line number. The lines `set_lines M` are the `i < 16`
with bit `i` set, in ascending order; the table declares the length
`44 + 8 * N + 12 + 10 * (number of these lines)` and the walk over its sub-entries visits
that many entries of type 2 after the controller entry; for every `k` below that number the
`k`-th override entry (10 bytes after the controller entry) holds type 2, length 10, bus 0,
source = gsi = the `k`-th line and flags `0x000D`; every set line is the source of an
entry and no entry has a line with a clear bit as its source; nothing is written from the
end of the last entry on; and with an empty mask there is no set line, the table declares
`44 + 8 * N + 12`, the walk ends with the controller entry and nothing is written after
the controller entry. -/
theorem acpi_bios_init_override_entries (p : Platform) (s : State) (h : Completed p s) :
    (∀ i, i ∈ set_lines p.irq_mask ↔ i < 16 ∧ p.irq_mask.testBit i = true) ∧
    (set_lines p.irq_mask).Pairwise (· < ·) ∧
    read32 (acpi_bios_init p s).mem ((acpi_layout p s).madt_addr + 4)
      = 44 + 8 * p.CountCPUs + 12 + 10 * (set_lines p.irq_mask).length ∧
    walk_entries (acpi_bios_init p s).mem
        ((acpi_layout p s).madt_addr
          + (44 + 8 * p.CountCPUs + 12 + 10 * (set_lines p.irq_mask).length))
        (44 + 8 * p.CountCPUs + 12 + 10 * (set_lines p.irq_mask).length)
        ((acpi_layout p s).madt_addr + 44)
      = some (List.replicate p.CountCPUs (0, 8) ++ (1, 12) ::
          List.replicate (set_lines p.irq_mask).length (2, 10)) ∧
    (∀ k, k < (set_lines p.irq_mask).length →
      read8 (acpi_bios_init p s).mem
        ((acpi_layout p s).madt_addr + 44 + 8 * p.CountCPUs + 12 + 10 * k) = 2 ∧
      read8 (acpi_bios_init p s).mem
        ((acpi_layout p s).madt_addr + 44 + 8 * p.CountCPUs + 12 + 10 * k + 1) = 10 ∧
      read8 (acpi_bios_init p s).mem
        ((acpi_layout p s).madt_addr + 44 + 8 * p.CountCPUs + 12 + 10 * k + 2) = 0 ∧
      read8 (acpi_bios_init p s).mem
        ((acpi_layout p s).madt_addr + 44 + 8 * p.CountCPUs + 12 + 10 * k + 3)
        = (set_lines p.irq_mask).getD k 0 ∧
      read32 (acpi_bios_init p s).mem
        ((acpi_layout p s).madt_addr + 44 + 8 * p.CountCPUs + 12 + 10 * k + 4)
        = (set_lines p.irq_mask).getD k 0 ∧
      read16 (acpi_bios_init p s).mem
        ((acpi_layout p s).madt_addr + 44 + 8 * p.CountCPUs + 12 + 10 * k + 8) = 0x000D) ∧
    (∀ i, i < 16 → p.irq_mask.testBit i = true →
      ∃ k, k < (set_lines p.irq_mask).length ∧
        read8 (acpi_bios_init p s).mem
          ((acpi_layout p s).madt_addr + 44 + 8 * p.CountCPUs + 12 + 10 * k + 3) = i) ∧
    (∀ i, p.irq_mask.testBit i = false → ∀ k, k < (set_lines p.irq_mask).length →
      read8 (acpi_bios_init p s).mem
        ((acpi_layout p s).madt_addr + 44 + 8 * p.CountCPUs + 12 + 10 * k + 3) ≠ i) ∧
    (∀ x, (acpi_layout p s).madt_addr + 44 + 8 * p.CountCPUs + 12
        + 10 * (set_lines p.irq_mask).length ≤ x →
      (acpi_bios_init p s).mem x = mem_dsdt p s x) ∧
    ((∀ i, i < 16 → p.irq_mask.testBit i = false) →
      set_lines p.irq_mask = [] ∧
      read32 (acpi_bios_init p s).mem ((acpi_layout p s).madt_addr + 4)
        = 44 + 8 * p.CountCPUs + 12 ∧
      walk_entries (acpi_bios_init p s).mem
          ((acpi_layout p s).madt_addr + (44 + 8 * p.CountCPUs + 12))
          (44 + 8 * p.CountCPUs + 12) ((acpi_layout p s).madt_addr + 44)
        = some (List.replicate p.CountCPUs (0, 8) ++ [(1, 12)]) ∧
      ∀ x, (acpi_layout p s).madt_addr + 44 + 8 * p.CountCPUs + 12 ≤ x →
        (acpi_bios_init p s).mem x = mem_dsdt p s x) := by
  have hlen : read32 (acpi_bios_init p s).mem ((acpi_layout p s).madt_addr + 4)
      = 44 + 8 * p.CountCPUs + 12 + 10 * (set_lines p.irq_mask).length := by
    rw [final_madt_length p s h, popcount16_eq]
    omega
  have hwalk := final_madt_walk p s h
  rw [popcount16_eq] at hwalk
  have e56 : 56 + 8 * p.CountCPUs + 10 * (set_lines p.irq_mask).length
      = 44 + 8 * p.CountCPUs + 12 + 10 * (set_lines p.irq_mask).length := by omega
  rw [e56] at hwalk
  have hent : ∀ k, k < (set_lines p.irq_mask).length → _ := fun k hk =>
    (acpi_bios_init_mem_eq p s h) ▸
      build_madt_ovr_content p (mem_dsdt p s) (acpi_layout p s).madt_addr
        (56 + 8 * p.CountCPUs) p.CountCPUs k hk
  refine ⟨mem_set_lines p.irq_mask, set_lines_sorted p.irq_mask, hlen, hwalk, hent, ?_, ?_,
    final_madt_tail p s h, ?_⟩
  · intro i hi ht
    obtain ⟨k, hk, e⟩ := set_lines_index p.irq_mask i ((mem_set_lines _ _).mpr ⟨hi, ht⟩)
    exact ⟨k, hk, by rw [(hent k hk).2.2.2.1, e]⟩
  · intro i ht k hk e
    rw [(hent k hk).2.2.2.1] at e
    have hm := (mem_set_lines p.irq_mask i).mp (e ▸ set_lines_getD_mem p.irq_mask k hk)
    rw [ht] at hm
    exact Bool.false_ne_true hm.2
  · intro hz
    have e0 := set_lines_empty p.irq_mask hz
    have ht := final_madt_tail p s h
    rw [e0] at hlen hwalk ht
    exact ⟨e0, hlen, hwalk, ht⟩

/-- C17 on the sample platform: with the lines 5 and 9 overridden, at the second entry, and
with an empty mask, at the declared length. -/
theorem acpi_bios_init_override_entries_witness :
    (Completed (sample_platform 2 0x0220) sample_state ∧
      read8 (acpi_bios_init (sample_platform 2 0x0220) sample_state).mem
        ((acpi_layout (sample_platform 2 0x0220) sample_state).madt_addr + 44
          + 8 * (sample_platform 2 0x0220).CountCPUs + 12 + 10 * 1 + 3)
        = (set_lines (sample_platform 2 0x0220).irq_mask).getD 1 0) ∧
    (Completed (sample_platform 2 0) sample_state ∧
      read32 (acpi_bios_init (sample_platform 2 0) sample_state).mem
        ((acpi_layout (sample_platform 2 0) sample_state).madt_addr + 4)
        = 44 + 8 * (sample_platform 2 0).CountCPUs + 12) :=
  ⟨⟨sample_completed,
      ((acpi_bios_init_override_entries (sample_platform 2 0x0220) sample_state
        sample_completed).2.2.2.2.1 1 (by decide)).2.2.2.1⟩,
    sample_completed_empty,
      ((acpi_bios_init_override_entries (sample_platform 2 0) sample_state
        sample_completed_empty).2.2.2.2.2.2.2.2 (fun i _ => Nat.zero_testBit i)).2.1⟩

/-- C18: the names of the processor objects are pairwise distinct: for every
`N = min(CountCPUs, 255)` and all indices `i ≠ j` below `N`, the 4-byte name of sub-object
`i` (offset 3 of the sub-object) differs from the 4-byte name of sub-object `j`. -/
theorem acpi_build_processor_ssdt_names_distinct (p : Platform) (m : Mem) (ssdt : Nat)
    (i j : Nat) (hi : i < min p.CountCPUs 255) (hj : j < min p.CountCPUs 255) (hne : i ≠ j) :
    (List.range 4).map (fun k => read8 (acpi_build_processor_ssdt p m ssdt).1
        (ssdt + 36 + 1 + size_field_width p.CountCPUs + 4 + 13 * i + 3 + k))
      ≠ (List.range 4).map (fun k => read8 (acpi_build_processor_ssdt p m ssdt).1
        (ssdt + 36 + 1 + size_field_width p.CountCPUs + 4 + 13 * j + 3 + k)) := by
  have hI : ∀ k, k < 4 → read8 (acpi_build_processor_ssdt p m ssdt).1
      (ssdt + 36 + 1 + size_field_width p.CountCPUs + 4 + 13 * i + 3 + k)
        = (processor_object i).getD (3 + k) 0 := fun k hk => by
    have := ssdt_object_bytes p m ssdt i hi (3 + k) (by omega)
    rwa [← Nat.add_assoc] at this
  have hJ : ∀ k, k < 4 → read8 (acpi_build_processor_ssdt p m ssdt).1
      (ssdt + 36 + 1 + size_field_width p.CountCPUs + 4 + 13 * j + 3 + k)
        = (processor_object j).getD (3 + k) 0 := fun k hk => by
    have := ssdt_object_bytes p m ssdt j hj (3 + k) (by omega)
    rwa [← Nat.add_assoc] at this
  rw [range_four]
  simp only [List.map]
  rw [hI 0 (by omega), hI 1 (by omega), hI 2 (by omega), hI 3 (by omega),
    hJ 0 (by omega), hJ 1 (by omega), hJ 2 (by omega), hJ 3 (by omega)]
  intro heq
  simp only [processor_object, Nat.reduceAdd, List.getD_cons_succ, List.getD_cons_zero,
    List.cons.injEq, true_and, and_true] at heq
  exact hne (processor_name_inj i j (by omega) (by omega) heq.1 heq.2)

/-- C18 on the sample platform with 255 processors, for the objects 1 and 17. -/
theorem acpi_build_processor_ssdt_names_distinct_witness :
    (List.range 4).map (fun k =>
        read8 (acpi_build_processor_ssdt (sample_platform 255 0) sample_state.mem 0x1000).1
          (0x1000 + 36 + 1 + size_field_width (sample_platform 255 0).CountCPUs + 4 + 13 * 1 + 3 + k))
      ≠ (List.range 4).map (fun k =>
        read8 (acpi_build_processor_ssdt (sample_platform 255 0) sample_state.mem 0x1000).1
          (0x1000 + 36 + 1 + size_field_width (sample_platform 255 0).CountCPUs + 4 + 13 * 17 + 3 + k)) :=
  acpi_build_processor_ssdt_names_distinct (sample_platform 255 0) sample_state.mem 0x1000 1 17
    (by decide) (by decide) (by decide)

/-- C19: the result of `acpi_build_table_header` does not depend on what the 36 header
bytes held before the call, and the body is untouched. For two memories that hold the same
bytes at every offset from 36 on, and the same `sig`, `len ≥ 36` (a 32-bit value) and `rev`,
the two results hold the same bytes at the offsets `0..len-1`, the checksum byte included;
and every byte at an offset from 36 on is the one held before the call. -/
theorem acpi_build_table_header_independent (p : Platform) (m1 m2 : Mem)
    (h sig len rev : Nat) (h36 : 36 ≤ len) (h32 : len < 2 ^ 32)
    (hag : ∀ x, h + 36 ≤ x → read8 m1 x = read8 m2 x) :
    (∀ x, h ≤ x → x < h + len →
      read8 (acpi_build_table_header p m1 h sig len rev) x
        = read8 (acpi_build_table_header p m2 h sig len rev) x) ∧
    (∀ x, h + 36 ≤ x → read8 (acpi_build_table_header p m1 h sig len rev) x = read8 m1 x) :=
  ⟨acpi_build_table_header_read8_indep p m1 m2 h sig len rev h36 h32 (fun x hx _ => hag x hx),
    fun x hx => read8_congr _ _ _
      (acpi_build_table_header_frame p m1 h sig len rev x (Or.inr hx))⟩

/-- C19 on two memories that differ in the header of a 40-byte table only, at the
checksum byte. -/
theorem acpi_build_table_header_independent_witness :
    read8 (acpi_build_table_header (sample_platform 1 0) (fun _ => 0xAA) 0x1000
        SSDT_SIGNATURE 40 1) (0x1000 + 9)
      = read8 (acpi_build_table_header (sample_platform 1 0)
        (fun a => if a < 0x1000 + 36 then 0x55 else 0xAA) 0x1000 SSDT_SIGNATURE 40 1)
        (0x1000 + 9) :=
  (acpi_build_table_header_independent (sample_platform 1 0) (fun _ => 0xAA)
    (fun a => if a < 0x1000 + 36 then 0x55 else 0xAA) 0x1000 SSDT_SIGNATURE 40 1
    (by decide) (by decide)
    (fun x hx => by
      have hx2 : ¬ x < 0x1000 + 36 := by omega
      simp only [read8, if_neg hx2])).1 (0x1000 + 9) (by decide) (by decide)

/-- C20: the structures `acpi_bios_init` places in the region never overlap. For every
region base, blob size, processor count and override mask for which no 32-bit address
wraps around, the RSDT (48 bytes), the FADT (116), the FACS (64), the blob
(`sizeof(AmlCode)`), the processor SSDT (its returned length) and the MADT (its declared
length) come in this ascending address order, each one ending at or before the start of
the next, so that their byte ranges are pairwise disjoint; the MADT ends below 4 GiB. -/
theorem acpi_layout_disjoint (p : Platform) (s : State)
    (config : p.CONFIG_ACPI = true) (found : 0 ≤ p.bdf)
    (ram : p.RamSize < 2 ^ 32) (base : p.CONFIG_ACPI_DATA_SIZE ≤ p.RamSize)
    (fits : p.RamSize - p.CONFIG_ACPI_DATA_SIZE + tables_extent p ≤ 2 ^ 32) :
    (acpi_layout p s).rsdt_addr + 48 ≤ (acpi_layout p s).fadt_addr ∧
    (acpi_layout p s).fadt_addr + 116 ≤ (acpi_layout p s).facs_addr ∧
    (acpi_layout p s).facs_addr + 64 ≤ (acpi_layout p s).dsdt_addr ∧
    (acpi_layout p s).dsdt_addr + p.AmlCode.length ≤ (acpi_layout p s).ssdt_addr ∧
    (acpi_layout p s).ssdt_addr
        + (acpi_build_processor_ssdt p s.mem (acpi_layout p s).ssdt_addr).2
      ≤ (acpi_layout p s).madt_addr ∧
    (acpi_layout p s).madt_addr
        + read32 (acpi_bios_init p s).mem ((acpi_layout p s).madt_addr + 4)
      ≤ 2 ^ 32 := by
  obtain ⟨_, e2, e3, e4, e5, e6, e7, _, _, _, _, _⟩ := acpi_layout_plan p s ram base fits
  have hfit := fits
  unfold tables_extent at hfit
  have hb := ssdt_length_bounds p.CountCPUs
  have hc := popcount16_le p.irq_mask
  have hlen : read32 (acpi_bios_init p s).mem ((acpi_layout p s).madt_addr + 4)
      = 56 + 8 * p.CountCPUs + 10 * popcount16 p.irq_mask := by
    rw [acpi_bios_init_mem_plan p s config found ram base fits]
    exact build_madt_length _ _ _ _ (by omega)
  rw [hlen, acpi_build_processor_ssdt_snd, e7, e6, e5, e4, e3, e2]
  refine ⟨by omega, by omega, by omega, by omega, by omega, by omega⟩

/-- C20 on the sample platform. -/
theorem acpi_layout_disjoint_witness :
    (acpi_layout (sample_platform 2 0x0220) sample_state).fadt_addr + 116
      ≤ (acpi_layout (sample_platform 2 0x0220) sample_state).facs_addr :=
  (acpi_layout_disjoint (sample_platform 2 0x0220) sample_state
    (by decide) (by decide) (by decide) (by decide) (by decide)).2.1

end Acpi
